import Mathlib

/-!
# QtLego: protocol message layer and attached-device registry

A shallow embedding of `src/src/qlegodevice.cpp`, `src/src/qlegoattacheddevice.cpp` and
`src/src/qlegomotor.cpp`.

* A `QByteArray` is a `List Byte`, every element kept as its unsigned value.
* A `QMap` is its list of entries in ascending key order.
* A pointer to an attached device is an `Option Attachment`; `none` is `nullptr`.
* Signals are appended to the ghost field `emitted`, oldest first.
* A read outside a byte array, or through a null pointer, stops the run with a `Fault`.
-/

namespace QtLego

/-! ## Bytes and the Qt primitives the code calls -/

/-- One element of a `QByteArray`, as its unsigned value. -/
abbrev Byte := Fin 256

/-- Ways a run leaves the defined behaviour of C++ and Qt. -/
inductive Fault where
  /-- An index that violates `0 <= i < size()` (or `i <= size()` through `constData()`). -/
  | indexOutOfRange
  /-- A member call through `nullptr`. -/
  | nullPointer
deriving DecidableEq, Repr

/-- What the code takes from outside `src/`: two properties of the build target, and
`decodeVersion` of the header `qlegocommon.h`, which is not part of the sources at hand. -/
structure Env where
  /-- Whether `qToBigEndian` swaps bytes (it does on a little-endian host). -/
  hostLittleEndian : Bool
  /-- Whether plain `char` is a signed type. -/
  charIsSigned : Bool
  /-- The function `decodeVersion` of `qlegocommon.h`, applied to a hex string. -/
  decodeVersion : String → String

/-- Conversion of a `char` to `int`: sign extension where `char` is signed. -/
def Env.charToInt (E : Env) (b : Byte) : Int :=
  if E.charIsSigned && decide (128 ≤ b.val) then (b.val : Int) - 256 else (b.val : Int)

/-- `QByteArray::mid(pos, len)`: at most `len` bytes from position `pos`. -/
def mid (a : List Byte) (pos len : Nat) : List Byte :=
  (a.drop pos).take len

/-- `QByteArray::mid(pos)`: all bytes from position `pos`. -/
def midFrom (a : List Byte) (pos : Nat) : List Byte :=
  a.drop pos

/-- `QByteArray::operator[](int) const`: the index must satisfy `i < size()`. -/
def byteAt (a : List Byte) (i : Nat) : Except Fault Byte :=
  match a.get? i with
  | some b => .ok b
  | none => .error .indexOutOfRange

/-- A read `constData()[i]`: Qt keeps a `'\0'` after the data, so `size() + 1` bytes are
readable. -/
def constDataAt (a : List Byte) (i : Nat) : Except Fault Byte :=
  match a.get? i with
  | some b => .ok b
  | none => if i = a.length then .ok 0 else .error .indexOutOfRange

/-- The lower-case hexadecimal digit of a value below 16. -/
def hexDigit (n : Nat) : Char :=
  if n < 10 then Char.ofNat (48 + n) else Char.ofNat (87 + n)

/-- `QByteArray::toHex()`: two lower-case hex digits per byte. -/
def toHex (a : List Byte) : String :=
  String.mk (a.flatMap fun b => [hexDigit (b.val / 16), hexDigit (b.val % 16)])

/-- `QByteArray::toHex(':')`: as `toHex`, with a colon between consecutive bytes. -/
def toHexColon (a : List Byte) : String :=
  String.mk ((a.map fun b => [hexDigit (b.val / 16), hexDigit (b.val % 16)]).intersperse [':']).flatten

/-- Value of one base-16 digit, if the character is one. -/
def hexValue (c : Char) : Option Nat :=
  if 48 ≤ c.toNat ∧ c.toNat ≤ 57 then some (c.toNat - 48)
  else if 97 ≤ c.toNat ∧ c.toNat ≤ 102 then some (c.toNat - 87)
  else if 65 ≤ c.toNat ∧ c.toNat ≤ 70 then some (c.toNat - 55)
  else none

/-- Base-16 value of a digit string read left to right, starting from `acc`. -/
def parseHexFrom : Nat → List Char → Option Nat
  | acc, [] => some acc
  | acc, c :: cs =>
    match hexValue c with
    | some d => parseHexFrom (acc * 16 + d) cs
    | none => none

/-- Base-16 value of a string of hex digits; the empty string does not convert. -/
def parseHex (s : String) : Option Nat :=
  match s.data with
  | [] => none
  | cs => parseHexFrom 0 cs

/-- `QByteArray::toUShort(&ok, 16)`: the value and `ok`; `(0, false)` when the text does not
convert or the value does not fit an unsigned 16-bit integer. -/
def toUShort (s : String) : Nat × Bool :=
  match parseHex s with
  | some v => if v ≤ 65535 then (v, true) else (0, false)
  | none => (0, false)

/-- `QByteArray::toShort(&ok, 16)`: the value and `ok`; `(0, false)` when the text does not
convert or the value does not fit a signed 16-bit integer. -/
def toShort (s : String) : Int × Bool :=
  match parseHex s with
  | some v => if v ≤ 32767 then ((v : Int), true) else (0, false)
  | none => (0, false)

/-- `qToBigEndian<quint16>`: the identity on a big-endian host, a byte swap otherwise. -/
def qToBigEndian16 (E : Env) (x : Nat) : Nat :=
  if E.hostLittleEndian then (x % 256) * 256 + (x / 256) % 256 else x % 65536

/-- Conversion of an integer to `qint8`, followed by `qToBigEndian<qint8>`, which has
nothing to swap in a single byte. -/
def qToBigEndian8 (x : Int) : Int :=
  (x + 128) % 256 - 128

/-! ## QMap: entries in ascending key order -/

/-- `QMap::contains(key)`. -/
def QMap.contains {K V : Type} [DecidableEq K] (m : List (K × V)) (key : K) : Bool :=
  m.any fun e => decide (e.1 = key)

/-- `QMap::value(key)`, as an optional: the value stored under `key`, if there is one. -/
def QMap.value {K V : Type} [DecidableEq K] (m : List (K × V)) (key : K) : Option V :=
  (m.find? fun e => decide (e.1 = key)).map Prod.snd

/-- `QMap::keys()`: the keys in ascending order. -/
def QMap.keys {K V : Type} (m : List (K × V)) : List K :=
  m.map Prod.fst

/-- The order `operator<` of a key type. -/
class KeyOrder (K : Type) where
  less : K → K → Bool

/-- Keys of type `int`. -/
instance : KeyOrder Int := ⟨fun a b => decide (a < b)⟩

/-- Keys of type `QString`: the strings are compared character by character. -/
instance : KeyOrder String := ⟨fun a b => decide (a.data < b.data)⟩

/-- The assignment `map[key] = value`: replaces the value of an existing key, or inserts
the entry at its place in key order. -/
def QMap.insert {K V : Type} [DecidableEq K] [KeyOrder K] :
    List (K × V) → K → V → List (K × V)
  | [], key, value => [(key, value)]
  | e :: rest, key, value =>
    if KeyOrder.less key e.1 then (key, value) :: e :: rest
    else if key = e.1 then (key, value) :: rest
    else e :: QMap.insert rest key value

/-- `QMap::remove(key)`: drops every entry stored under `key`. -/
def QMap.remove {K V : Type} [DecidableEq K] (m : List (K × V)) (key : K) : List (K × V) :=
  m.filter fun e => decide (e.1 ≠ key)

/-! ## Attached devices (`qlegoattacheddevice.h/.cpp`, `qlegomotor.cpp`) -/

/-- The numeric codes of `enum QLegoAttachedDevice::DeviceType`. -/
abbrev DeviceType := Nat

namespace DeviceType
def Unknown : DeviceType := 0
def MoveHubMediumLinearMotor : DeviceType := 39
def SimpleMediumLinearMotor : DeviceType := 1
def TrainMotor : DeviceType := 2
def Light : DeviceType := 8
def VoltageSensor : DeviceType := 20
def CurrentSensor : DeviceType := 21
def PiezoBuzzer : DeviceType := 22
def HubLed : DeviceType := 23
def TiltSensor : DeviceType := 34
def MotionSensor : DeviceType := 35
def ColorDistanceSensor : DeviceType := 37
def MediumLinearMotor : DeviceType := 38
def MoveHubTiltSensor : DeviceType := 40
def DuploTrainMotor : DeviceType := 41
def DuploTrainSpeaker : DeviceType := 42
def DuploTrainColorSensor : DeviceType := 43
def DuploTrainSpeedometer : DeviceType := 44
def TechnicLargeLinearMotor : DeviceType := 46
def TechnicXLargeLinearMotor : DeviceType := 47
def SpikePrimeMediumAngularMotor : DeviceType := 48
def SpikePrimeLargeAngularMotor : DeviceType := 49
def TechnicMediumHubGestSensor : DeviceType := 54
def RemoteControlButton : DeviceType := 55
def RemoteControlRssi : DeviceType := 56
def TechnicMediumHubAccelerometer : DeviceType := 57
def TechnicMediumHubGyroSensor : DeviceType := 58
def TechnicMediumHubTiltSensor : DeviceType := 59
def TechnicMediumHubTemperatureSensor : DeviceType := 60
def SpikePrimeColorSensor : DeviceType := 61
def SpikePrimeDistanceSensor : DeviceType := 62
def SpikePrimeForceSensor : DeviceType := 63
def TechnicMediumAngularMotor : DeviceType := 75
def TechnicLargeAngularMotor : DeviceType := 76
end DeviceType

/-- The data members of `class QLegoAttachedDevice`. -/
structure QLegoAttachedDevice where
  m_type : DeviceType
  m_attached : Bool
  m_sensor : Bool
  m_motor : Bool
  m_portId : Nat
deriving DecidableEq, Repr

/-- The constructor `QLegoAttachedDevice(type, portId)`. -/
def QLegoAttachedDevice.construct (type : DeviceType) (portId : Nat) : QLegoAttachedDevice :=
  { m_type := type, m_attached := false, m_sensor := false, m_motor := false,
    m_portId := portId }

def QLegoAttachedDevice.setAttached (d : QLegoAttachedDevice) (attached : Bool) :
    QLegoAttachedDevice :=
  { d with m_attached := attached }

def QLegoAttachedDevice.setSensor (d : QLegoAttachedDevice) (sensor : Bool) :
    QLegoAttachedDevice :=
  { d with m_sensor := sensor }

def QLegoAttachedDevice.setMotor (d : QLegoAttachedDevice) (motor : Bool) :
    QLegoAttachedDevice :=
  { d with m_motor := motor }

/-- The slot `QLegoAttachedDevice::detach()`. -/
def QLegoAttachedDevice.detach (d : QLegoAttachedDevice) : QLegoAttachedDevice :=
  d.setAttached false

/-- The data members of `class QLegoMotor`: the base object and `m_power`. -/
structure QLegoMotor where
  base : QLegoAttachedDevice
  m_power : Int
deriving DecidableEq, Repr

/-- The constructor `QLegoMotor(deviceType, portId)`. -/
def QLegoMotor.construct (deviceType : DeviceType) (portId : Nat) : QLegoMotor :=
  { base := (((QLegoAttachedDevice.construct deviceType portId).setAttached true).setMotor
      true).setSensor false,
    m_power := 0 }

/-- An object a `QLegoAttachedDevice *` can point to, with its dynamic class. -/
inductive Attachment where
  /-- An object of class `QLegoAttachedDevice` itself. -/
  | plain (d : QLegoAttachedDevice)
  /-- An object of the subclass `QLegoMotor`. -/
  | asMotor (m : QLegoMotor)
deriving DecidableEq, Repr

/-- The `QLegoAttachedDevice` part of the object. -/
def Attachment.device : Attachment → QLegoAttachedDevice
  | .plain d => d
  | .asMotor m => m.base

/-- The getter `type()`. -/
def Attachment.type (a : Attachment) : DeviceType := a.device.m_type
/-- The getter `attached()`. -/
def Attachment.attached (a : Attachment) : Bool := a.device.m_attached
/-- The getter `sensor()`. -/
def Attachment.sensor (a : Attachment) : Bool := a.device.m_sensor
/-- The getter `motor()`. -/
def Attachment.motor (a : Attachment) : Bool := a.device.m_motor
/-- The getter `portId()`. -/
def Attachment.portId (a : Attachment) : Int := (a.device.m_portId : Int)

/-- The function `createAttachment` of `qlegodevice.cpp`; `new` never yields `nullptr`. -/
def createAttachment (deviceType : DeviceType) (portId : Nat) : Option Attachment :=
  match deviceType with
  | 39 => some (.asMotor (QLegoMotor.construct deviceType portId))
  | _ => some (.plain (QLegoAttachedDevice.construct deviceType portId))

/-! ## The hub (`qlegodevice.h/.cpp`) -/

/-- The values of `enum QLegoDevice::ButtonState`. -/
inductive ButtonState where
  | Released | Pressed | Up | Down | Stop
deriving DecidableEq, Repr

/-- A signal emitted by `QLegoDevice`, with its argument. -/
inductive Signal where
  | button (state : ButtonState)
  | batteryLevel (level : Nat)
  | deviceAttached (attachment : Option Attachment)
  | deviceDetached (attachment : Option Attachment)
deriving DecidableEq, Repr

/-- The data members of `class QLegoDevice` that the protocol layer reads or writes, and
two ghost fields: `emitted`, the signals emitted so far, and `dispatched`, the frames that
reached the `switch` of `parseMessage` so far. -/
structure QLegoDevice where
  m_name : String
  m_firmware : String
  m_hardware : String
  m_address : String
  m_battery : Nat
  m_rssi : Int
  m_messageBuffer : List Byte
  m_portMap : List (String × Int)
  m_virtualPorts : List Int
  m_attachedDevices : List (Int × Option Attachment)
  emitted : List Signal
  dispatched : List (List Byte)
deriving DecidableEq, Repr

/-- The constructor `QLegoDevice::QLegoDevice`. -/
def QLegoDevice.construct : QLegoDevice :=
  { m_name := "", m_firmware := "0.0.00.0000", m_hardware := "0.0.00.0000",
    m_address := "00:00:00:00:00:00", m_battery := 100, m_rssi := -60,
    m_messageBuffer := [], m_portMap := [], m_virtualPorts := [], m_attachedDevices := [],
    emitted := [], dispatched := [] }

/-- The statement `emit signal`. -/
def QLegoDevice.emit (h : QLegoDevice) (s : Signal) : QLegoDevice :=
  { h with emitted := h.emitted ++ [s] }

/-- The function `getPortNameForPortId`: the first key, in key order, whose value is
`portId`, or the empty string. -/
def getPortNameForPortId (portMap : List (String × Int)) (portId : Int) : String :=
  match (QMap.keys portMap).find? fun key => decide ((QMap.value portMap key).getD 0 = portId)
  with
  | some key => key
  | none => ""

/-- `QLegoDevice::attachDevice`. The `connect` call only routes the device's `command`
signal and changes none of the fields kept here. -/
def attachDevice (h : QLegoDevice) (portId : Int) (device : Attachment) :
    Except Fault QLegoDevice :=
  let insertAndEmit : QLegoDevice :=
    ({ h with m_attachedDevices := QMap.insert h.m_attachedDevices portId (some device) }).emit
      (.deviceAttached (some device))
  match QMap.value h.m_attachedDevices portId with
  | none => .ok insertAndEmit
  | some none => .error .nullPointer
  | some (some present) => if present.type = device.type then .ok h else .ok insertAndEmit

/-- The device-type number `parsePortMessage` computes from the frame and its event byte. -/
def portDeviceNum (E : Env) (message : List Byte) (event : Byte) : Nat :=
  if event.val ≠ 0 then
    let hex := toUShort (toHex (mid message 5 2))
    if hex.2 then qToBigEndian16 E hex.1 else 0
  else 0

/-- `QLegoDevice::parsePortMessage`. -/
def parsePortMessage (E : Env) (h : QLegoDevice) (message : List Byte) :
    Except Fault QLegoDevice := do
  let portId ← byteAt message 3
  let event ← byteAt message 4
  let deviceType : DeviceType := portDeviceNum E message event
  match event.val with
  | 0 =>
    if QMap.contains h.m_attachedDevices (portId.val : Int) then
      let attachment := (QMap.value h.m_attachedDevices (portId.val : Int)).getD none
      let removed := QMap.remove h.m_attachedDevices (portId.val : Int)
      let h1 := ({ h with m_attachedDevices := removed }).emit (.deviceDetached attachment)
      if h1.m_virtualPorts.contains (portId.val : Int) then
        let portName := getPortNameForPortId h1.m_portMap (portId.val : Int)
        let h2 :=
          if portName ≠ "" then { h1 with m_portMap := QMap.remove h1.m_portMap portName }
          else h1
        let kept := h2.m_virtualPorts.filter fun p => decide (p ≠ (portId.val : Int))
        pure { h2 with m_virtualPorts := kept }
      else pure h1
    else pure h
  | 1 =>
    match createAttachment deviceType portId.val with
    | some attachment => attachDevice h (portId.val : Int) attachment
    | none => pure h
  | 2 =>
    let first ← byteAt message 7
    let firstPortName := getPortNameForPortId h.m_portMap (E.charToInt first)
    let second ← byteAt message 8
    let secondPortName := getPortNameForPortId h.m_portMap (E.charToInt second)
    let virtualPortName := firstPortName ++ secondPortName
    let virtualPortId ← byteAt message 3
    let h1 := { h with m_portMap := QMap.insert h.m_portMap virtualPortName virtualPortId.val }
    let h2 := { h1 with m_virtualPorts := h1.m_virtualPorts ++ [(virtualPortId.val : Int)] }
    match createAttachment deviceType virtualPortId.val with
    | some attachment => attachDevice h2 (virtualPortId.val : Int) attachment
    | none => pure h2
  | _ => pure h

/-- The check at the start of `QLegoDevice::waitForDeviceByName`, before the wait loop:
`some (h1, device)` when the function returns at once with `device` and leaves the hub in
state `h1`, `none` when it goes on to wait. `m_attachedDevices[portId]` is the non-const
`QMap::operator[]`: under a key that is absent it inserts a default value, the null
pointer, and returns it. -/
def waitForDeviceByName_check (h : QLegoDevice) (name : String) :
    Option (QLegoDevice × Option Attachment) :=
  if QMap.contains h.m_portMap name then
    let portId : Int := (QMap.value h.m_portMap name).getD 0
    match QMap.value h.m_attachedDevices portId with
    | some device => some (h, device)
    | none =>
      some ({ h with m_attachedDevices := QMap.insert h.m_attachedDevices portId none }, none)
  else none

/-- `QLegoDevice::parseHubPropertyResponse`. -/
def parseHubPropertyResponse (E : Env) (h : QLegoDevice) (message : List Byte) :
    Except Fault QLegoDevice := do
  let report ← byteAt message 3
  if E.charToInt report = 0x02 then
    let state ← constDataAt message 5
    if E.charToInt state = 1 then pure (h.emit (.button .Pressed))
    else if E.charToInt state = 0 then pure (h.emit (.button .Released))
    else pure h
  else if E.charToInt report = 0x03 then
    pure { h with m_firmware := E.decodeVersion (toHex (mid message 5 4)) }
  else if E.charToInt report = 0x04 then
    pure { h with m_hardware := E.decodeVersion (toHex (mid message 5 4)) }
  else if E.charToInt report = 0x05 then
    let signal := toShort (toHex (mid message 5 2))
    let rssi : Int := if signal.2 then qToBigEndian8 signal.1 else 0
    if rssi ≠ 0 then pure { h with m_rssi := rssi } else pure h
  else if E.charToInt report = 0x0D then
    pure { h with m_address := toHexColon (midFrom message 5) }
  else if E.charToInt report = 0x06 then
    let battery ← constDataAt message 5
    if battery.val ≠ h.m_battery then
      pure (({ h with m_battery := battery.val }).emit (.batteryLevel battery.val))
    else pure h
  else pure h

/-- `QLegoDevice::parsePortInformationResponse`: it reads from the frame and sets nothing. -/
def parsePortInformationResponse (h : QLegoDevice) (message : List Byte) :
    Except Fault QLegoDevice := do
  let _port ← constDataAt message 3
  let kind ← constDataAt message 4
  if kind.val = 2 then pure h
  else
    let _count ← constDataAt message 6
    pure h

/-- `QLegoDevice::parseModeInformationResponse`: it sets nothing. -/
def parseModeInformationResponse (h : QLegoDevice) (_message : List Byte) :
    Except Fault QLegoDevice :=
  pure h

/-- `QLegoDevice::parseSensorMessage`: it reads the port id and sets nothing. -/
def parseSensorMessage (h : QLegoDevice) (message : List Byte) : Except Fault QLegoDevice := do
  let _portId ← byteAt message 3
  pure h

/-- `QLegoDevice::parsePortAction`: it reads the port id and sets nothing. -/
def parsePortAction (h : QLegoDevice) (message : List Byte) : Except Fault QLegoDevice := do
  let _portId ← constDataAt message 3
  pure h

/-- The `switch (cmd)` of `parseMessage`, applied to one complete frame. -/
def dispatch (E : Env) (h : QLegoDevice) (cmd : Byte) (message : List Byte) :
    Except Fault QLegoDevice :=
  match cmd.val with
  | 0x01 => parseHubPropertyResponse E h message
  | 0x04 => parsePortMessage E h message
  | 0x43 => parsePortInformationResponse h message
  | 0x44 => parseModeInformationResponse h message
  | 0x45 => parseSensorMessage h message
  | 0x82 => parsePortAction h message
  | _ => pure h

/-- `QLegoDevice::parseMessage(ch, data)`. The call of itself at the end of the body takes
one unit of `fuel`; `none` means the fuel did not suffice. A frame of declared length 0 or 1
ends the run in the fault of the read `msg[2]`, which lies behind the terminator of the
frame copy; for length 0 the source, the read survived, would call itself again with the
buffer unchanged. -/
def parseMessage (E : Env) : Nat → QLegoDevice → List Byte → Option (Except Fault QLegoDevice)
  | 0, _, _ => none
  | fuel + 1, h, data =>
    let h1 := if data.isEmpty then h else { h with m_messageBuffer := h.m_messageBuffer ++ data }
    if h1.m_messageBuffer.length ≤ 0 then some (.ok h1)
    else
      let len : Nat := (h1.m_messageBuffer.headD 0).val
      if len ≤ h1.m_messageBuffer.length then
        let message := mid h1.m_messageBuffer 0 len
        let h2 := { h1 with m_messageBuffer := midFrom h1.m_messageBuffer len }
        match constDataAt message 2 with
        | .error f => some (.error f)
        | .ok cmd =>
          match dispatch E { h2 with dispatched := h2.dispatched ++ [message] } cmd message with
          | .error f => some (.error f)
          | .ok h3 =>
            if h3.m_messageBuffer.length > 0 then parseMessage E fuel h3 []
            else some (.ok h3)
      else some (.ok h1)

/-- Successive deliveries: `parseMessage` is called once per chunk, in order, each call with
the same `fuel`; a fault ends the run. -/
def feedChunks (E : Env) (fuel : Nat) :
    QLegoDevice → List (List Byte) → Option (Except Fault QLegoDevice)
  | h, [] => some (.ok h)
  | h, chunk :: rest =>
    match parseMessage E fuel h chunk with
    | some (.ok h1) => feedChunks E fuel h1 rest
    | other => other

/-! ## Outbound commands (`QLegoDevice::send`, `QLegoAttachedDevice::writeDirect`,
`QLegoMotor::setPower`) -/

/-- `QByteArray::resize(size)`: the first `size` bytes are kept; bytes that are new have no
specified value and are taken as 0 here. -/
def resize (a : List Byte) (size : Nat) : List Byte :=
  (a ++ List.replicate (size - a.length) 0).take size

/-- The assignment `a[i] = c` through the non-const `QByteArray::operator[]` of Qt 5, the
version the sources are written for: an index beyond the end first extends the array to
`i + 1` bytes. -/
def assignAt (a : List Byte) (i : Nat) (c : Byte) : List Byte :=
  if i < a.length then a.set i c else (resize a (i + 1)).set i c

/-- The loop `for (int i = 0; i < bytes.size(); i++) message[i + offset] = bytes[i]`, with
`pos` the next index written. -/
def copyLoop : List Byte → Nat → List Byte → List Byte
  | [], _, message => message
  | b :: rest, pos, message => copyLoop rest (pos + 1) (assignAt message pos b)

/-- `QLegoDevice::send(bytes)`: the message handed to `writeCharacteristic`. -/
def send (bytes : List Byte) : List Byte :=
  let size : Byte := Fin.ofNat (bytes.length + 2)
  let message := resize [] size.val
  let message := assignAt message 0 size
  let message := assignAt message 1 0x00
  copyLoop bytes 2 message

/-- A signal emitted by an attached device, with its argument. -/
inductive DeviceSignal where
  | command (bytes : List Byte)
  | powerChanged
deriving DecidableEq, Repr

/-- Conversion of an `int` to `char`: the low eight bits. -/
def intToChar (x : Int) : Byte :=
  Fin.ofNat (x % 256).toNat

/-- `QLegoAttachedDevice::writeDirect(mode, data)`: the bytes carried by the signal
`command` that it emits. -/
def QLegoAttachedDevice.writeDirect (d : QLegoAttachedDevice) (mode : Byte)
    (data : List Byte) : List Byte :=
  let size : Byte := Fin.ofNat (data.length + 5)
  let bytes := resize [] size.val
  let bytes := assignAt bytes 0 0x81
  let bytes := assignAt bytes 1 (Fin.ofNat d.m_portId)
  let bytes := assignAt bytes 2 0x11
  let bytes := assignAt bytes 3 0x51
  let bytes := assignAt bytes 4 mode
  copyLoop data 5 bytes

namespace MotorValues
def Stop : Int := 0
def Brake : Int := 127
end MotorValues

/-- `QLegoMotor::setPower(power)`: the motor afterwards and the signals emitted, in order.
`mapSpeed` is the function of that name of the header `qlegocommon.h`, which is not part of
the sources at hand. -/
def QLegoMotor.setPower (mapSpeed : Int → Int) (m : QLegoMotor) (power : Int) :
    QLegoMotor × List DeviceSignal :=
  let m1 := { m with m_power := mapSpeed power }
  (m1, [.powerChanged, .command (m1.base.writeDirect 0x00 [intToChar m1.m_power])])

/-- `QLegoMotor::stop()`. -/
def QLegoMotor.stop (mapSpeed : Int → Int) (m : QLegoMotor) : QLegoMotor × List DeviceSignal :=
  m.setPower mapSpeed MotorValues.Stop

/-- `QLegoMotor::brake()`. -/
def QLegoMotor.brake (mapSpeed : Int → Int) (m : QLegoMotor) : QLegoMotor × List DeviceSignal :=
  m.setPower mapSpeed MotorValues.Brake

/-! ## Runs of port messages, with a ghost record of the virtual ports created -/

/-- A hub with a ghost record of its run: `created` lists the port ids registered by a
virtual-port creation whose registry entry was not removed since, each with the name
synthesized for it; `nameReused` tells whether some creation synthesized a name that was
already a key of the Port Map. -/
structure Tracked where
  hub : QLegoDevice
  created : List (Int × String)
  nameReused : Bool
deriving DecidableEq, Repr

/-- One port message processed by `parsePortMessage`, and the ghost record kept up to date:
a creation (event 0x02) records its port id and name, a detach (event 0x00) that finds a
registry entry drops the records of that port id. -/
def trackPortFrame (E : Env) (t : Tracked) (message : List Byte) : Except Fault Tracked := do
  let h1 ← parsePortMessage E t.hub message
  let portId ← byteAt message 3
  let event ← byteAt message 4
  match event.val with
  | 0 =>
    if QMap.contains t.hub.m_attachedDevices (portId.val : Int) then
      let kept := t.created.filter fun c => decide (c.1 ≠ (portId.val : Int))
      pure { hub := h1, created := kept, nameReused := t.nameReused }
    else pure { t with hub := h1 }
  | 2 =>
    let first ← byteAt message 7
    let second ← byteAt message 8
    let name := getPortNameForPortId t.hub.m_portMap (E.charToInt first)
      ++ getPortNameForPortId t.hub.m_portMap (E.charToInt second)
    let reused := t.nameReused || QMap.contains t.hub.m_portMap name
    pure { hub := h1, created := ((portId.val : Int), name) :: t.created, nameReused := reused }
  | _ => pure { t with hub := h1 }

/-- A sequence of port messages processed one after the other; a fault ends the run. -/
def runPortFrames (E : Env) : Tracked → List (List Byte) → Except Fault Tracked
  | t, [] => .ok t
  | t, message :: rest =>
    match trackPortFrame E t message with
    | .error f => .error f
    | .ok t1 => runPortFrames E t1 rest

/-- The start of a run: nothing recorded yet. -/
def Tracked.start (h : QLegoDevice) : Tracked :=
  { hub := h, created := [], nameReused := false }

/-- What is claimed of a tracked hub: every recorded port id has a registry entry and is in
the virtual-ports set, and, unless a name was reused, the Port Map maps its synthesized
name to it. -/
def Tracked.Consistent (t : Tracked) : Prop :=
  ∀ c ∈ t.created, QMap.contains t.hub.m_attachedDevices c.1 = true
    ∧ c.1 ∈ t.hub.m_virtualPorts
    ∧ (t.nameReused = false → QMap.value t.hub.m_portMap c.2 = some c.1)

/-- A sequence of port messages processed by `parsePortMessage` alone. -/
def processPortFrames (E : Env) : QLegoDevice → List (List Byte) → Except Fault QLegoDevice
  | h, [] => .ok h
  | h, message :: rest =>
    match parsePortMessage E h message with
    | .error f => .error f
    | .ok h1 => processPortFrames E h1 rest

/-! ## The scanner (`qlegodevicescanner.h/.cpp`) -/

/-- The value an `int` of 32 bits holds after an arithmetic step with the exact result `x`.
Overflow of a signed `int` is undefined in C++; it is taken to wrap around. -/
def wrapInt32 (x : Int) : Int :=
  (x + 2147483648) % 4294967296 - 2147483648

/-- `QString::contains(pattern)` with `Qt::CaseSensitive`, the default: `pattern` occurs
somewhere in the text. -/
def QString.contains : List Char → List Char → Bool
  | [], pattern => pattern.isEmpty
  | c :: rest, pattern => pattern.isPrefixOf (c :: rest) || QString.contains rest pattern

/-- `QString::contains(pattern, Qt::CaseInsensitive)`: both sides are case-folded. The only
pattern of the sources, "Move Hub", has ASCII letters to which no character outside ASCII
folds, so the folding of ASCII capitals is all that takes part. -/
def QString.containsCaseInsensitive (text pattern : List Char) : Bool :=
  QString.contains (text.map Char.toLower) (pattern.map Char.toLower)

/-- What the scanner and `QLegoDevice::connectToDevice` read of a `QBluetoothDeviceInfo`. -/
structure DeviceInfo where
  name : String
  isValid : Bool
deriving DecidableEq, Repr

/-- The values of `QBluetoothDeviceDiscoveryAgent::Error` that `deviceScanError` tells
apart; `other` carries the key of the enumerator as `QMetaEnum::valueToKey` gives it. -/
inductive DiscoveryError where
  | PoweredOffError
  | InputOutputError
  | other (key : String)
deriving DecidableEq, Repr

/-- A signal emitted by `QLegoDeviceScanner`. -/
inductive ScannerSignal where
  | errorMessage (msg : String)
  | deviceFound
  | finished
deriving DecidableEq, Repr

/-- The data members `m_scanning` and `m_deviceCount` of `class QLegoDeviceScanner`, and the
ghost field `emitted`, the signals emitted so far. -/
structure QLegoDeviceScanner where
  m_scanning : Bool
  m_deviceCount : Int
  emitted : List ScannerSignal
deriving DecidableEq, Repr

namespace QLegoDeviceScanner

/-- The constructor `QLegoDeviceScanner::QLegoDeviceScanner`. -/
def construct : QLegoDeviceScanner :=
  { m_scanning := false, m_deviceCount := 0, emitted := [] }

/-- The getter `scanning()`. -/
def scanning (s : QLegoDeviceScanner) : Bool := s.m_scanning

/-- The getter `devicesFound()`. -/
def devicesFound (s : QLegoDeviceScanner) : Int := s.m_deviceCount

/-- `QLegoDeviceScanner::scan()`. -/
def scan (s : QLegoDeviceScanner) : QLegoDeviceScanner :=
  { s with m_scanning := true }

/-- The lambda that `addDevice` connects to the signal `disconnected` of the device it
created. -/
def deviceDisconnected (s : QLegoDeviceScanner) : QLegoDeviceScanner :=
  { s with m_deviceCount := if s.m_deviceCount > 0 then s.m_deviceCount - 1 else 0 }

/-- The lambda that `addDevice` connects to the signal `ready` of the device. -/
def deviceReady (s : QLegoDeviceScanner) : QLegoDeviceScanner :=
  { s with emitted := s.emitted ++ [.deviceFound] }

/-- The slot `QLegoDeviceScanner::addDevice`. The call `device->connectToDevice()` at its
end emits `disconnected` at once when the device info is not valid, which runs the lambda
connected above. -/
def addDevice (s : QLegoDeviceScanner) (info : DeviceInfo) : QLegoDeviceScanner :=
  if QString.containsCaseInsensitive info.name.data "Move Hub".data
      || QString.contains info.name.data "Technic".data then
    let s1 := { s with m_deviceCount := wrapInt32 (s.m_deviceCount + 1) }
    if info.isValid then s1 else s1.deviceDisconnected
  else s

/-- The slot `QLegoDeviceScanner::deviceScanError`. -/
def deviceScanError (s : QLegoDeviceScanner) (error : DiscoveryError) : QLegoDeviceScanner :=
  match error with
  | .PoweredOffError =>
    { s with emitted := s.emitted ++ [.errorMessage "The Bluetooth adaptor is powered off."] }
  | .InputOutputError =>
    { s with emitted := s.emitted
        ++ [.errorMessage "Writing or reading from the device resulted in an error."] }
  | .other key => { s with emitted := s.emitted ++ [.errorMessage ("Error: " ++ key)] }

/-- The slot `QLegoDeviceScanner::deviceScanFinished`. -/
def deviceScanFinished (s : QLegoDeviceScanner) : QLegoDeviceScanner :=
  { s with m_scanning := false, emitted := s.emitted ++ [.finished] }

end QLegoDeviceScanner

/-- What can happen to a scanner: a call of `scan()`, or one of the signals its slots and
lambdas are connected to. -/
inductive ScannerEvent where
  | scan
  | deviceDiscovered (info : DeviceInfo)
  | deviceDisconnected
  | deviceReady
  | scanError (error : DiscoveryError)
  | scanFinished
deriving DecidableEq, Repr

/-- The scanner after one event. -/
def QLegoDeviceScanner.step (s : QLegoDeviceScanner) : ScannerEvent → QLegoDeviceScanner
  | .scan => s.scan
  | .deviceDiscovered info => s.addDevice info
  | .deviceDisconnected => s.deviceDisconnected
  | .deviceReady => s.deviceReady
  | .scanError error => s.deviceScanError error
  | .scanFinished => s.deviceScanFinished

/-- The scanner after a sequence of events, in order. -/
def QLegoDeviceScanner.run (s : QLegoDeviceScanner) (events : List ScannerEvent) :
    QLegoDeviceScanner :=
  events.foldl QLegoDeviceScanner.step s

/-- The event is the discovery of a device. -/
def ScannerEvent.isDiscovery : ScannerEvent → Bool
  | .deviceDiscovered _ => true
  | _ => false

/-! ## The frame assembler when the read of the command byte is not checked -/

/-- The read `msg[i]` through the raw pointer `message.constData()` as the machine performs
it: inside the array the byte, at `size()` the terminator, and beyond it, where the read is
undefined, the byte `stray` that happens to lie there. -/
def rawDataAt (stray : Byte) (a : List Byte) (i : Nat) : Byte :=
  match constDataAt a i with
  | .ok b => b
  | .error _ => stray

/-- `QLegoDevice::parseMessage(ch, data)` as `parseMessage` above, except that the read
`msg[2]` is the unchecked read `rawDataAt` and so never ends the run. The reads inside the
decoders stay checked. -/
def parseMessageUnchecked (E : Env) (stray : Byte) :
    Nat → QLegoDevice → List Byte → Option (Except Fault QLegoDevice)
  | 0, _, _ => none
  | fuel + 1, h, data =>
    let h1 := if data.isEmpty then h else { h with m_messageBuffer := h.m_messageBuffer ++ data }
    if h1.m_messageBuffer.length ≤ 0 then some (.ok h1)
    else
      let len : Nat := (h1.m_messageBuffer.headD 0).val
      if len ≤ h1.m_messageBuffer.length then
        let message := mid h1.m_messageBuffer 0 len
        let h2 := { h1 with m_messageBuffer := midFrom h1.m_messageBuffer len }
        let cmd := rawDataAt stray message 2
        match dispatch E { h2 with dispatched := h2.dispatched ++ [message] } cmd message with
        | .error f => some (.error f)
        | .ok h3 =>
          if h3.m_messageBuffer.length > 0 then parseMessageUnchecked E stray fuel h3 []
          else some (.ok h3)
      else some (.ok h1)

/-! ## Well-formed registries -/

/-- The entries of a `QMap` with keys of type `int` stand in strictly ascending key order;
in particular there is one entry per key. -/
def QMap.Ascending {V : Type} (m : List (Int × V)) : Prop :=
  (QMap.keys m).Pairwise fun a b => a < b

/-- A little-endian host with signed `char` (x86-64); `decodeVersion`, which only the
hub-property decoder calls, is left as the identity. -/
def littleEndianHost : Env :=
  { hostLittleEndian := true, charIsSigned := true, decodeVersion := fun s => s }

/-- A big-endian host with unsigned `char`; `decodeVersion` as in `littleEndianHost`. -/
def bigEndianHost : Env :=
  { hostLittleEndian := false, charIsSigned := false, decodeVersion := fun s => s }

/-- A hub whose Port Map names two physical ports, A with id 0 and B with id 1. -/
def hubWithPortsAB : QLegoDevice :=
  { QLegoDevice.construct with m_portMap := [("A", 0), ("B", 1)] }

/-- The type-39 motor object that `createAttachment` builds for port 16. -/
def motorAtPort16 : Attachment :=
  .asMotor (QLegoMotor.construct DeviceType.MoveHubMediumLinearMotor 16)

/-- The hub state after a newly constructed hub processed the virtual-port-creation frame
`09 00 04 10 02 27 00 00 01`: the synthesized name is empty. -/
def hubWithUnnamedVirtualPort : QLegoDevice :=
  { QLegoDevice.construct with
    m_portMap := [("", 16)]
    m_virtualPorts := [16]
    m_attachedDevices := [(16, some motorAtPort16)]
    emitted := [.deviceAttached (some motorAtPort16)] }

/-- The device-type codes whose enumerator name says motor. -/
def motorNamedCodes : List DeviceType :=
  [DeviceType.SimpleMediumLinearMotor, DeviceType.TrainMotor, DeviceType.MediumLinearMotor,
   DeviceType.MoveHubMediumLinearMotor, DeviceType.DuploTrainMotor,
   DeviceType.TechnicLargeLinearMotor, DeviceType.TechnicXLargeLinearMotor,
   DeviceType.SpikePrimeMediumAngularMotor, DeviceType.SpikePrimeLargeAngularMotor,
   DeviceType.TechnicMediumAngularMotor, DeviceType.TechnicLargeAngularMotor]


/-- A hub whose registry holds the type-39 motor at port 0 and a generic record of type 37
at port 1. -/
def hubWithMotorAndSensor : QLegoDevice :=
  { hubWithPortsAB with
    m_attachedDevices :=
      [(0, some (.asMotor (QLegoMotor.construct DeviceType.MoveHubMediumLinearMotor 0))),
       (1, some (.plain (QLegoAttachedDevice.construct DeviceType.ColorDistanceSensor 1)))] }

/-- The hub state after `hubWithPortsAB` processed two creation frames for virtual port 16,
`09 00 04 10 02 27 00 00 01` over the ports A, B and `09 00 04 10 02 27 00 01 00` over the
ports B, A: two names of the Port Map, "AB" and "BA", have the value 16. -/
def hubWithTwoNamesForPort16 : QLegoDevice :=
  { hubWithPortsAB with
    m_portMap := [("A", 0), ("AB", 16), ("B", 1), ("BA", 16)]
    m_virtualPorts := [16, 16]
    m_attachedDevices := [(16, some motorAtPort16)]
    emitted := [.deviceAttached (some motorAtPort16)] }

/-- A sample mapping function for `setPower`: 127 is kept, every other value is clamped to
the range from -100 to 100. -/
def clampSpeed (speed : Int) : Int :=
  if speed = 127 then 127 else if speed > 100 then 100 else if speed < -100 then -100 else speed
/-! ## Auxiliary definitions for the proofs about the frame assembler -/

/-- The hub with the two fields the frame assembler owns replaced: the accumulation buffer
and the ghost trace of dispatched frames. -/
def QLegoDevice.withAssembler (h : QLegoDevice) (buffer : List Byte)
    (trace : List (List Byte)) : QLegoDevice :=
  { h with m_messageBuffer := buffer, dispatched := trace }

/-- The hub after `data` was appended to its accumulation buffer. -/
def QLegoDevice.received (h : QLegoDevice) (data : List Byte) : QLegoDevice :=
  h.withAssembler (h.m_messageBuffer ++ data) h.dispatched

/-- What `parseMessage` does with one complete frame `message` while `rest` stays in the
buffer: it reads the command byte and runs the `switch`. -/
def dispatchFrame (E : Env) (h : QLegoDevice) (message rest : List Byte) :
    Except Fault QLegoDevice :=
  match constDataAt message 2 with
  | .error f => .error f
  | .ok cmd => dispatch E (h.withAssembler rest (h.dispatched ++ [message])) cmd message

/-- No complete frame waits in the buffer: `parseMessage` would return at once. -/
def Quiescent (h : QLegoDevice) : Prop :=
  h.m_messageBuffer = [] ∨ h.m_messageBuffer.length < (h.m_messageBuffer.headD 0).val

instance (h : QLegoDevice) : Decidable (Quiescent h) := by
  unfold Quiescent
  infer_instance

/-! ## Lemmas on the Qt primitives -/

theorem hexValue_hexDigit (n : Nat) (hn : n < 16) : hexValue (hexDigit n) = some n := by
  interval_cases n <;> rfl

theorem toUShort_toHex_pair (b5 b6 : Byte) :
    toUShort (toHex [b5, b6]) = (b5.val * 256 + b6.val, true) := by
  have h5 := b5.isLt
  have h6 := b6.isLt
  have e1 := hexValue_hexDigit (b5.val / 16) (by omega)
  have e2 := hexValue_hexDigit (b5.val % 16) (by omega)
  have e3 := hexValue_hexDigit (b6.val / 16) (by omega)
  have e4 := hexValue_hexDigit (b6.val % 16) (by omega)
  have hv : ((b5.val / 16 * 16 + b5.val % 16) * 16 + b6.val / 16) * 16 + b6.val % 16
      = b5.val * 256 + b6.val := by omega
  simp [toUShort, parseHex, toHex, parseHexFrom, e1, e2, e3, e4, hv]
  omega

theorem mid_pair (message : List Byte) (i : Nat) (x y : Byte)
    (hx : message.get? i = some x) (hy : message.get? (i + 1) = some y) :
    mid message i 2 = [x, y] := by
  induction message generalizing i with
  | nil => simp at hx
  | cons a rest ih =>
    cases i with
    | zero =>
      cases rest with
      | nil => simp at hy
      | cons b rest2 =>
        simp at hx hy
        simp [mid, hx, hy]
    | succ j =>
      simp at hx hy
      simpa [mid] using ih j (by simpa using hx) (by simpa using hy)

theorem qToBigEndian16_pair (E : Env) (b5 b6 : Byte) :
    qToBigEndian16 E (b5.val * 256 + b6.val)
      = if E.hostLittleEndian then b6.val * 256 + b5.val else b5.val * 256 + b6.val := by
  have h5 := b5.isLt
  have h6 := b6.isLt
  unfold qToBigEndian16
  split <;> omega

/-! ## Lemmas on QMap -/

theorem QMap.value_insert_self {K V : Type} [DecidableEq K] [KeyOrder K]
    (m : List (K × V)) (k : K) (v : V) : QMap.value (QMap.insert m k v) k = some v := by
  induction m with
  | nil => simp [QMap.insert, QMap.value]
  | cons e rest ih =>
    unfold QMap.insert
    split
    · simp [QMap.value]
    · split
      · simp [QMap.value]
      · rename_i hne
        have hne2 : ¬ e.1 = k := fun hh => hne hh.symm
        simpa [QMap.value, List.find?, hne2] using ih

theorem QMap.value_insert_other {K V : Type} [DecidableEq K] [KeyOrder K]
    (m : List (K × V)) (k k2 : K) (v : V) (hk : k2 ≠ k) :
    QMap.value (QMap.insert m k v) k2 = QMap.value m k2 := by
  have hk2 : ¬ k = k2 := fun hh => hk hh.symm
  induction m with
  | nil => simp [QMap.insert, QMap.value, hk2]
  | cons e rest ih =>
    unfold QMap.insert
    split
    · simp [QMap.value, List.find?, hk2]
    · split
      · rename_i heq
        have he : ¬ e.1 = k2 := by rw [← heq]; exact hk2
        simp [QMap.value, List.find?, hk2, he]
      · by_cases he : e.1 = k2
        · simp [QMap.value, List.find?, he]
        · simpa [QMap.value, List.find?, he] using ih

theorem QMap.contains_eq_isSome {K V : Type} [DecidableEq K] (m : List (K × V)) (k : K) :
    QMap.contains m k = (QMap.value m k).isSome := by
  induction m with
  | nil => simp [QMap.contains, QMap.value]
  | cons e rest ih =>
    by_cases he : e.1 = k
    · simp [QMap.contains, QMap.value, List.find?, he]
    · simpa [QMap.contains, QMap.value, List.find?, he] using ih

theorem QMap.contains_remove_self {K V : Type} [DecidableEq K] (m : List (K × V)) (k : K) :
    QMap.contains (QMap.remove m k) k = false := by
  simp [QMap.contains, QMap.remove]

theorem QMap.value_remove_other {K V : Type} [DecidableEq K] (m : List (K × V)) (k k2 : K)
    (hk : k2 ≠ k) : QMap.value (QMap.remove m k) k2 = QMap.value m k2 := by
  have hpred : (fun a : K × V => decide (decide (a.1 ≠ k) = true ∧ decide (a.1 = k2) = true))
      = fun e => decide (e.1 = k2) := by
    funext a
    by_cases ha : a.1 = k2
    · have : ¬ a.1 = k := by rw [ha]; exact hk
      simp [ha, hk]
    · simp [ha]
  simp only [QMap.value, QMap.remove, List.find?_filter, hpred]

theorem QMap.remove_insert_fresh {K V : Type} [DecidableEq K] [KeyOrder K]
    (m : List (K × V)) (k : K) (v : V) (hfresh : QMap.contains m k = false) :
    QMap.remove (QMap.insert m k v) k = m := by
  induction m with
  | nil => simp [QMap.insert, QMap.remove]
  | cons e rest ih =>
    have he : ¬ e.1 = k := by
      intro hh
      simp [QMap.contains, hh] at hfresh
    have hrest : QMap.contains rest k = false := by
      simp [QMap.contains] at hfresh ⊢
      exact hfresh.2
    have hfilter : QMap.remove rest k = rest := by
      simp only [QMap.remove, QMap.contains] at hrest ⊢
      rw [List.filter_eq_self]
      intro a ha
      simp only [List.any_eq_false] at hrest
      simpa using hrest a ha
    unfold QMap.insert
    split
    · simp [QMap.remove, List.filter, he]
      simpa [QMap.remove] using hfilter
    · split
      · rename_i heq
        exact absurd heq.symm he
      · have := ih hrest
        simp [QMap.remove, List.filter, he] at this ⊢
        exact this

/-! ## Lemmas on the registry and the Port Map -/

theorem QMap.find_keys_insert {K V : Type} [DecidableEq K] [KeyOrder K]
    (m : List (K × V)) (k : K) (v : V) (P : K → Bool) (hk : P k = true)
    (hothers : ∀ e ∈ m, e.1 ≠ k → P e.1 = false) :
    (QMap.keys (QMap.insert m k v)).find? P = some k := by
  induction m with
  | nil => simp [QMap.insert, QMap.keys, hk]
  | cons e rest ih =>
    unfold QMap.insert
    split
    · simp [QMap.keys, hk]
    · split
      · simp [QMap.keys, hk]
      · rename_i hne
        have hne2 : e.1 ≠ k := fun hh => hne hh.symm
        have hP : P e.1 = false := hothers e (List.mem_cons_self _ _) hne2
        have ih2 := ih (fun e2 he2 => hothers e2 (List.mem_cons_of_mem _ he2))
        simpa [QMap.keys, hP] using ih2

theorem QMap.value_mem {K V : Type} [DecidableEq K] (m : List (K × V)) (k : K) (w : V)
    (hv : QMap.value m k = some w) : (k, w) ∈ m := by
  unfold QMap.value at hv
  cases hf : m.find? (fun e => decide (e.1 = k)) with
  | none => simp [hf] at hv
  | some e =>
    rw [hf] at hv
    have hmem := List.mem_of_find?_eq_some hf
    have hkey := List.find?_some hf
    simp at hv hkey
    have : e = (k, w) := by
      cases e
      simp_all
    rw [← this]
    exact hmem

theorem QMap.value_of_mem {K V : Type} [DecidableEq K] (m : List (K × V)) (e : K × V)
    (he : e ∈ m) : ∃ w, QMap.value m e.1 = some w ∧ (e.1, w) ∈ m := by
  have hc : QMap.contains m e.1 = true := by
    simp only [QMap.contains, List.any_eq_true]
    exact ⟨e, he, by simp⟩
  rw [QMap.contains_eq_isSome] at hc
  cases hv : QMap.value m e.1 with
  | none => rw [hv] at hc; simp at hc
  | some w => exact ⟨w, rfl, QMap.value_mem m e.1 w hv⟩

theorem QMap.value_getD_of_contains (m : List (Int × Option Attachment)) (k : Int)
    (r : Option Attachment) (hv : QMap.value m k = some r) :
    QMap.contains m k = true ∧ (QMap.value m k).getD none = r := by
  rw [QMap.contains_eq_isSome, hv]
  simp

theorem getPortNameForPortId_insert (pm : List (String × Int)) (name : String) (v : Int)
    (hval : ∀ e ∈ pm, e.2 ≠ v) : getPortNameForPortId (QMap.insert pm name v) v = name := by
  unfold getPortNameForPortId
  rw [QMap.find_keys_insert pm name v]
  · simp [QMap.value_insert_self]
  · intro e he hne
    rw [QMap.value_insert_other _ _ _ _ hne]
    obtain ⟨w, hw, hmem⟩ := QMap.value_of_mem pm e he
    rw [hw]
    have := hval _ hmem
    simpa using this

theorem filter_append_fresh (vp : List Int) (v : Int) (hv : v ∉ vp) :
    (vp ++ [v]).filter (fun p => decide (p ≠ v)) = vp := by
  rw [List.filter_append]
  simp
  intro a ha hav
  exact hv (hav ▸ ha)

/-! ## Lemmas on the port event decoder -/

theorem createAttachment_some (t : DeviceType) (p : Nat) :
    ∃ a, createAttachment t p = some a ∧ a.type = t := by
  unfold createAttachment
  split
  · exact ⟨_, rfl, rfl⟩
  · exact ⟨_, rfl, rfl⟩

theorem attachDevice_ok_of_not_null (h : QLegoDevice) (k : Int) (a : Attachment)
    (hnn : QMap.value h.m_attachedDevices k ≠ some none) : ∃ h1, attachDevice h k a = .ok h1 := by
  unfold attachDevice
  cases hv : QMap.value h.m_attachedDevices k with
  | none => exact ⟨_, rfl⟩
  | some v =>
    cases v with
    | none => exact absurd hv hnn
    | some present =>
      by_cases ht : present.type = a.type
      · exact ⟨h, if_pos ht⟩
      · exact ⟨_, if_neg ht⟩

theorem attachDevice_ok_frame (h h1 : QLegoDevice) (k : Int) (a : Attachment)
    (hok : attachDevice h k a = .ok h1) :
    h1.m_portMap = h.m_portMap ∧ h1.m_virtualPorts = h.m_virtualPorts
      ∧ ∃ x, QMap.value h1.m_attachedDevices k = some (some x) := by
  unfold attachDevice at hok
  cases hv : QMap.value h.m_attachedDevices k with
  | none =>
    rw [hv] at hok
    simp at hok
    subst hok
    exact ⟨rfl, rfl, a, QMap.value_insert_self _ _ _⟩
  | some v =>
    cases v with
    | none => rw [hv] at hok; simp at hok
    | some present =>
      rw [hv] at hok
      by_cases ht : present.type = a.type
      · simp [ht] at hok
        subst hok
        exact ⟨rfl, rfl, present, hv⟩
      · simp [ht] at hok
        subst hok
        exact ⟨rfl, rfl, a, QMap.value_insert_self _ _ _⟩

theorem attachDevice_again (h h1 : QLegoDevice) (k : Int) (a : Attachment)
    (hfirst : attachDevice h k a = .ok h1) : attachDevice h1 k a = .ok h1 := by
  have hins : ∀ reg : List (Int × Option Attachment),
      attachDevice (({ h with m_attachedDevices := QMap.insert reg k (some a) }).emit
        (.deviceAttached (some a))) k a
      = .ok (({ h with m_attachedDevices := QMap.insert reg k (some a) }).emit
        (.deviceAttached (some a))) := by
    intro reg
    simp [attachDevice, QLegoDevice.emit, QMap.value_insert_self]
  unfold attachDevice at hfirst
  cases hv : QMap.value h.m_attachedDevices k with
  | none =>
    rw [hv] at hfirst
    simp at hfirst
    rw [← hfirst]
    exact hins _
  | some v =>
    cases v with
    | none => rw [hv] at hfirst; simp at hfirst
    | some present =>
      rw [hv] at hfirst
      by_cases ht : present.type = a.type
      · simp [ht] at hfirst
        subst hfirst
        simp [attachDevice, hv, ht]
      · simp [ht] at hfirst
        rw [← hfirst]
        exact hins _

theorem parsePortMessage_attach (E : Env) (h : QLegoDevice) (message : List Byte) (p : Byte)
    (h3 : byteAt message 3 = .ok p) (h4 : byteAt message 4 = .ok 1) :
    ∃ a, createAttachment (portDeviceNum E message 1) p.val = some a
      ∧ a.type = portDeviceNum E message 1
      ∧ parsePortMessage E h message = attachDevice h (p.val : Int) a := by
  obtain ⟨a, ha, hta⟩ := createAttachment_some (portDeviceNum E message 1) p.val
  refine ⟨a, ha, hta, ?_⟩
  simp [parsePortMessage, h3, h4, ha, bind, Except.bind]

theorem parsePortMessage_virtual (E : Env) (h : QLegoDevice) (message : List Byte)
    (v a b : Byte) (h3 : byteAt message 3 = .ok v) (h4 : byteAt message 4 = .ok 2)
    (h7 : byteAt message 7 = .ok a) (h8 : byteAt message 8 = .ok b) :
    ∃ att, att.type = portDeviceNum E message 2
      ∧ parsePortMessage E h message
        = attachDevice
            { h with
              m_portMap := QMap.insert h.m_portMap
                (getPortNameForPortId h.m_portMap (E.charToInt a)
                  ++ getPortNameForPortId h.m_portMap (E.charToInt b)) (v.val : Int)
              m_virtualPorts := h.m_virtualPorts ++ [(v.val : Int)] }
            (v.val : Int) att := by
  obtain ⟨att, hatt, htype⟩ := createAttachment_some (portDeviceNum E message 2) v.val
  refine ⟨att, htype, ?_⟩
  simp [parsePortMessage, h3, h4, h7, h8, hatt, bind, Except.bind]

theorem parsePortMessage_detach_present (E : Env) (h : QLegoDevice) (message : List Byte)
    (p : Byte) (r : Option Attachment)
    (h3 : byteAt message 3 = .ok p) (h4 : byteAt message 4 = .ok 0)
    (hv : QMap.value h.m_attachedDevices (p.val : Int) = some r) :
    ∃ h1, parsePortMessage E h message = .ok h1
      ∧ h1.m_attachedDevices = QMap.remove h.m_attachedDevices (p.val : Int)
      ∧ h1.emitted = h.emitted ++ [.deviceDetached r]
      ∧ h1.m_virtualPorts
          = (if (p.val : Int) ∈ h.m_virtualPorts
             then h.m_virtualPorts.filter (fun q => decide (q ≠ (p.val : Int)))
             else h.m_virtualPorts)
      ∧ h1.m_portMap
          = (if (p.val : Int) ∈ h.m_virtualPorts
              ∧ getPortNameForPortId h.m_portMap (p.val : Int) ≠ ""
             then QMap.remove h.m_portMap (getPortNameForPortId h.m_portMap (p.val : Int))
             else h.m_portMap)
      ∧ h1.m_messageBuffer = h.m_messageBuffer ∧ h1.dispatched = h.dispatched
      ∧ h1.m_battery = h.m_battery ∧ h1.m_rssi = h.m_rssi ∧ h1.m_name = h.m_name
      ∧ h1.m_firmware = h.m_firmware ∧ h1.m_hardware = h.m_hardware
      ∧ h1.m_address = h.m_address := by
  obtain ⟨hc, hg⟩ := QMap.value_getD_of_contains _ _ _ hv
  by_cases hvp : (p.val : Int) ∈ h.m_virtualPorts
  · by_cases hn : getPortNameForPortId h.m_portMap (p.val : Int) = ""
    · cases hres : parsePortMessage E h message with
      | error f =>
        simp [parsePortMessage, h3, h4, hc, hg, bind, Except.bind, pure, Except.pure,
          QLegoDevice.emit, hvp, hn] at hres
      | ok h1 =>
        simp [parsePortMessage, h3, h4, hc, hg, bind, Except.bind, pure, Except.pure,
          QLegoDevice.emit, hvp, hn] at hres
        subst hres
        exact ⟨_, rfl, by simp [hvp, hn]⟩
    · cases hres : parsePortMessage E h message with
      | error f =>
        simp [parsePortMessage, h3, h4, hc, hg, bind, Except.bind, pure, Except.pure,
          QLegoDevice.emit, hvp, hn] at hres
      | ok h1 =>
        simp [parsePortMessage, h3, h4, hc, hg, bind, Except.bind, pure, Except.pure,
          QLegoDevice.emit, hvp, hn] at hres
        subst hres
        exact ⟨_, rfl, by simp [hvp, hn]⟩
  · cases hres : parsePortMessage E h message with
    | error f =>
      simp [parsePortMessage, h3, h4, hc, hg, bind, Except.bind, pure, Except.pure,
        QLegoDevice.emit, hvp] at hres
    | ok h1 =>
      simp [parsePortMessage, h3, h4, hc, hg, bind, Except.bind, pure, Except.pure,
        QLegoDevice.emit, hvp] at hres
      subst hres
      exact ⟨_, rfl, by simp [hvp]⟩

/-! ## The decoders do not touch the assembler's fields -/

theorem attachDevice_withAssembler (h : QLegoDevice) (b : List Byte) (d : List (List Byte))
    (k : Int) (a : Attachment) :
    attachDevice (h.withAssembler b d) k a
      = (attachDevice h k a).map fun h1 => h1.withAssembler b d := by
  unfold attachDevice
  simp only [QLegoDevice.withAssembler]
  cases hv : QMap.value h.m_attachedDevices k with
  | none => rfl
  | some v =>
    cases v with
    | none => rfl
    | some present =>
      by_cases ht : present.type = a.type
      · simp [ht, Except.map]
      · simp [ht, Except.map, QLegoDevice.emit]

theorem parsePortMessage_withAssembler (E : Env) (h : QLegoDevice) (b : List Byte)
    (d : List (List Byte)) (message : List Byte) :
    parsePortMessage E (h.withAssembler b d) message
      = (parsePortMessage E h message).map fun h1 => h1.withAssembler b d := by
  unfold parsePortMessage
  cases byteAt message 3 with
  | error f => rfl
  | ok portId =>
    cases byteAt message 4 with
    | error f => rfl
    | ok event =>
      simp only [bind, Except.bind, pure, Except.pure]
      split
      · by_cases hc : QMap.contains h.m_attachedDevices (portId.val : Int) = true
        · by_cases hvp : (portId.val : Int) ∈ h.m_virtualPorts
          · by_cases hn : getPortNameForPortId h.m_portMap (portId.val : Int) = ""
            · simp [QLegoDevice.withAssembler, QLegoDevice.emit, Except.map, hc, hvp, hn]
            · simp [QLegoDevice.withAssembler, QLegoDevice.emit, Except.map, hc, hvp, hn]
          · simp [QLegoDevice.withAssembler, QLegoDevice.emit, Except.map, hc, hvp]
        · simp [QLegoDevice.withAssembler, QLegoDevice.emit, Except.map, hc]
      · split
        · exact attachDevice_withAssembler _ _ _ _ _
        · rfl
      · cases byteAt message 7 with
        | error f => rfl
        | ok first =>
          cases byteAt message 8 with
          | error f => rfl
          | ok second =>
            simp only []
            split
            · exact attachDevice_withAssembler { h with m_portMap := _, m_virtualPorts := _ }
                b d _ _
            · rfl
      · rfl

theorem parseHubPropertyResponse_withAssembler (E : Env) (h : QLegoDevice) (b : List Byte)
    (d : List (List Byte)) (message : List Byte) :
    parseHubPropertyResponse E (h.withAssembler b d) message
      = (parseHubPropertyResponse E h message).map fun h1 => h1.withAssembler b d := by
  unfold parseHubPropertyResponse
  cases byteAt message 3 with
  | error f => rfl
  | ok report =>
    cases constDataAt message 5 with
    | error f =>
      simp only [bind, Except.bind, pure, Except.pure]
      repeat' split
      all_goals rfl
    | ok state =>
      simp only [bind, Except.bind, pure, Except.pure]
      simp only [QLegoDevice.withAssembler]
      repeat' split
      all_goals rfl


theorem dispatch_withAssembler (E : Env) (h : QLegoDevice) (b : List Byte)
    (d : List (List Byte)) (cmd : Byte) (message : List Byte) :
    dispatch E (h.withAssembler b d) cmd message
      = (dispatch E h cmd message).map fun h1 => h1.withAssembler b d := by
  unfold dispatch
  split
  · exact parseHubPropertyResponse_withAssembler _ _ _ _ _
  · exact parsePortMessage_withAssembler _ _ _ _ _
  · unfold parsePortInformationResponse
    cases constDataAt message 3 with
    | error f => rfl
    | ok port =>
      cases constDataAt message 4 with
      | error f => rfl
      | ok kind =>
        simp only [bind, Except.bind, pure, Except.pure]
        split
        · rfl
        · cases constDataAt message 6 <;> rfl
  · rfl
  · unfold parseSensorMessage
    cases byteAt message 3 <;> rfl
  · unfold parsePortAction
    cases constDataAt message 3 <;> rfl
  · rfl

theorem dispatch_keeps_assembler (E : Env) (h h1 : QLegoDevice) (cmd : Byte)
    (message : List Byte) (hok : dispatch E h cmd message = .ok h1) :
    h1.m_messageBuffer = h.m_messageBuffer ∧ h1.dispatched = h.dispatched := by
  have hpar := dispatch_withAssembler E h h.m_messageBuffer h.dispatched cmd message
  have hself : h.withAssembler h.m_messageBuffer h.dispatched = h := rfl
  rw [hself, hok] at hpar
  simp only [Except.map] at hpar
  have hh := Except.ok.inj hpar
  constructor
  · rw [hh]; rfl
  · rw [hh]; rfl

/-! ## Lemmas on the frame assembler -/

theorem parseMessage_append_data (E : Env) (F : Nat) (h : QLegoDevice) (data : List Byte) :
    parseMessage E F h data
      = parseMessage E F (h.withAssembler (h.m_messageBuffer ++ data) h.dispatched) [] := by
  cases F with
  | zero => rfl
  | succ F =>
    cases data with
    | nil =>
      have : h.withAssembler (h.m_messageBuffer ++ []) h.dispatched = h := by
        simp [QLegoDevice.withAssembler]
      rw [this]
    | cons a data => rfl

theorem parseMessage_quiescent (E : Env) (F : Nat) (h : QLegoDevice) (hq : Quiescent h) :
    parseMessage E (F + 1) h [] = some (.ok h) := by
  rcases hq with hq | hq
  · simp [parseMessage, hq]
  · have hne : ¬ h.m_messageBuffer.length ≤ 0 := by
      cases hb : h.m_messageBuffer with
      | nil => rw [hb] at hq; simp at hq
      | cons x xs => simp
    have hlen : ¬ (h.m_messageBuffer.headD 0).val ≤ h.m_messageBuffer.length := by omega
    simp only [parseMessage, List.isEmpty_nil, if_true, hne, if_false, hlen]

theorem parseMessage_complete (E : Env) (F : Nat) (h : QLegoDevice) (x : Byte)
    (xs : List Byte) (hb : h.m_messageBuffer = x :: xs) (hlen : x.val ≤ (x :: xs).length) :
    parseMessage E (F + 1) h []
      = match dispatchFrame E h ((x :: xs).take x.val) ((x :: xs).drop x.val) with
        | .error f => some (.error f)
        | .ok h3 =>
          if h3.m_messageBuffer.length > 0 then parseMessage E F h3 [] else some (.ok h3) := by
  have hne : ¬ (x :: xs).length ≤ 0 := by simp
  simp only [parseMessage, List.isEmpty_nil, if_true, hb, hne, if_false, List.headD_cons, hlen,
    dispatchFrame, mid, midFrom, List.drop_zero]
  cases constDataAt (List.take x.val (x :: xs)) 2 with
  | error f => rfl
  | ok cmd => rfl

theorem dispatchFrame_ok (E : Env) (h h3 : QLegoDevice) (message rest : List Byte)
    (hok : dispatchFrame E h message rest = .ok h3) :
    h3.m_messageBuffer = rest ∧ h3.dispatched = h.dispatched ++ [message]
      ∧ 2 ≤ message.length := by
  unfold dispatchFrame at hok
  cases hc : constDataAt message 2 with
  | error f => rw [hc] at hok; cases hok
  | ok cmd =>
    rw [hc] at hok
    obtain ⟨h1, h2⟩ := dispatch_keeps_assembler E _ h3 cmd message hok
    refine ⟨h1, h2, ?_⟩
    unfold constDataAt at hc
    cases hg : message.get? 2 with
    | some b =>
      have := List.get?_eq_some.mp hg
      obtain ⟨hlt, _⟩ := this
      omega
    | none =>
      rw [hg] at hc
      simp only at hc
      split at hc
      · omega
      · cases hc

theorem dispatchFrame_append (E : Env) (h : QLegoDevice) (message rest more : List Byte) :
    dispatchFrame E (h.withAssembler (h.m_messageBuffer ++ more) h.dispatched) message
        (rest ++ more)
      = (dispatchFrame E h message rest).map fun h3 =>
          h3.withAssembler (h3.m_messageBuffer ++ more) h3.dispatched := by
  unfold dispatchFrame
  cases constDataAt message 2 with
  | error f => rfl
  | ok cmd =>
    simp only
    have e1 : (h.withAssembler (h.m_messageBuffer ++ more) h.dispatched).withAssembler
        (rest ++ more) ((h.withAssembler (h.m_messageBuffer ++ more) h.dispatched).dispatched
          ++ [message])
        = (h.withAssembler rest (h.dispatched ++ [message])).withAssembler (rest ++ more)
          (h.dispatched ++ [message]) := rfl
    rw [e1, dispatch_withAssembler]
    cases hd : dispatch E (h.withAssembler rest (h.dispatched ++ [message])) cmd message with
    | error f => rfl
    | ok h3 =>
      obtain ⟨h1, h2⟩ := dispatch_keeps_assembler E _ h3 cmd message hd
      simp only [Except.map]
      have hb : h3.m_messageBuffer = rest := h1
      have hd2 : h3.dispatched = h.dispatched ++ [message] := h2
      rw [hb, hd2]

theorem drop_length_lt (x : Byte) (xs : List Byte) (n : Nat) (hn : 2 ≤ n) :
    ((x :: xs).drop n).length < (x :: xs).length := by
  simp only [List.length_drop, List.length_cons]
  omega

theorem take_length_ge (x : Byte) (xs : List Byte) (n : Nat)
    (h2 : 2 ≤ ((x :: xs).take n).length) : 2 ≤ n := by
  simp only [List.length_take] at h2
  omega

/-- With more fuel than buffered bytes the result does not depend on the fuel. -/
theorem parseMessage_fuel_irrelevant (E : Env) (F1 F2 : Nat) (h : QLegoDevice)
    (h1 : h.m_messageBuffer.length < F1) (h2 : h.m_messageBuffer.length < F2) :
    parseMessage E F1 h [] = parseMessage E F2 h [] := by
  induction F1 generalizing F2 h with
  | zero => omega
  | succ F1 ih =>
    cases F2 with
    | zero => omega
    | succ F2 =>
      cases hb : h.m_messageBuffer with
      | nil =>
        rw [parseMessage_quiescent E F1 h (Or.inl hb), parseMessage_quiescent E F2 h (Or.inl hb)]
      | cons x xs =>
        by_cases hlen : x.val ≤ (x :: xs).length
        · rw [parseMessage_complete E F1 h x xs hb hlen, parseMessage_complete E F2 h x xs hb hlen]
          cases hd : dispatchFrame E h ((x :: xs).take x.val) ((x :: xs).drop x.val) with
          | error f => rfl
          | ok h3 =>
            obtain ⟨hbuf, _, hge⟩ := dispatchFrame_ok E h h3 _ _ hd
            have hlt := drop_length_lt x xs x.val (take_length_ge x xs x.val hge)
            rw [hb] at h1 h2
            simp only
            split
            · exact ih F2 h3 (by rw [hbuf]; omega) (by rw [hbuf]; omega)
            · rfl
        · have hq : Quiescent h := Or.inr (by rw [hb]; simpa using hlen)
          rw [parseMessage_quiescent E F1 h hq, parseMessage_quiescent E F2 h hq]

/-- With more fuel than buffered bytes `parseMessage` returns. -/
theorem parseMessage_returns (E : Env) (F : Nat) (h : QLegoDevice)
    (hF : h.m_messageBuffer.length < F) : (parseMessage E F h []).isSome = true := by
  induction F generalizing h with
  | zero => omega
  | succ F ih =>
    cases hb : h.m_messageBuffer with
    | nil => rw [parseMessage_quiescent E F h (Or.inl hb)]; rfl
    | cons x xs =>
      by_cases hlen : x.val ≤ (x :: xs).length
      · rw [parseMessage_complete E F h x xs hb hlen]
        cases hd : dispatchFrame E h ((x :: xs).take x.val) ((x :: xs).drop x.val) with
        | error f => rfl
        | ok h3 =>
          obtain ⟨hbuf, _, hge⟩ := dispatchFrame_ok E h h3 _ _ hd
          have hlt := drop_length_lt x xs x.val (take_length_ge x xs x.val hge)
          rw [hb] at hF
          simp only
          split
          · exact ih h3 (by rw [hbuf]; omega)
          · rfl
      · have hq : Quiescent h := Or.inr (by rw [hb]; simpa using hlen)
        rw [parseMessage_quiescent E F h hq]; rfl

/-- A state `parseMessage` returns has no complete frame left, and no more buffered bytes
than there were. -/
theorem parseMessage_result (E : Env) (F : Nat) (h h1 : QLegoDevice)
    (hrun : parseMessage E F h [] = some (.ok h1)) :
    Quiescent h1 ∧ h1.m_messageBuffer.length ≤ h.m_messageBuffer.length := by
  induction F generalizing h with
  | zero => cases hrun
  | succ F ih =>
    by_cases hq : Quiescent h
    · rw [parseMessage_quiescent E F h hq] at hrun
      have e : h = h1 := Except.ok.inj (Option.some.inj hrun)
      rw [← e]
      exact ⟨hq, le_refl _⟩
    · cases hb : h.m_messageBuffer with
      | nil => exact absurd (Or.inl hb) hq
      | cons x xs =>
        have hlen : x.val ≤ (x :: xs).length := by
          by_contra hcon
          exact hq (Or.inr (by rw [hb]; simpa using hcon))
        rw [parseMessage_complete E F h x xs hb hlen] at hrun
        cases hd : dispatchFrame E h ((x :: xs).take x.val) ((x :: xs).drop x.val) with
        | error f => rw [hd] at hrun; cases hrun
        | ok h3 =>
          obtain ⟨hbuf, _, hge⟩ := dispatchFrame_ok E h h3 _ _ hd
          have hlt := drop_length_lt x xs x.val (take_length_ge x xs x.val hge)
          rw [hd] at hrun
          simp only at hrun
          split at hrun
          · obtain ⟨hq1, hle⟩ := ih h3 hrun
            exact ⟨hq1, by rw [hbuf] at hle; omega⟩
          · rename_i hz
            have e : h3 = h1 := Except.ok.inj (Option.some.inj hrun)
            rw [← e]
            have hnil : h3.m_messageBuffer = [] := by
              cases hm : h3.m_messageBuffer with
              | nil => rfl
              | cons y ys => rw [hm] at hz; simp at hz
            exact ⟨Or.inl hnil, by rw [hnil]; simp⟩

theorem QLegoDevice.received_buffer (h : QLegoDevice) (data : List Byte) :
    (h.received data).m_messageBuffer = h.m_messageBuffer ++ data := rfl

theorem QLegoDevice.received_received (h : QLegoDevice) (a b : List Byte) :
    (h.received a).received b = h.received (a ++ b) := by
  simp [QLegoDevice.received, QLegoDevice.withAssembler]

theorem parseMessage_eq_received (E : Env) (F : Nat) (h : QLegoDevice) (data : List Byte) :
    parseMessage E F h data = parseMessage E F (h.received data) [] :=
  parseMessage_append_data E F h data

/-- Bytes appended behind the buffer can as well be appended after the buffered frames were
processed. -/
theorem parseMessage_append (E : Env) (F : Nat) (h : QLegoDevice) (more : List Byte)
    (hF : (h.m_messageBuffer ++ more).length < F) :
    parseMessage E F (h.received more) []
      = match parseMessage E F h [] with
        | some (.ok h1) => parseMessage E F (h1.received more) []
        | other => other := by
  induction F generalizing h with
  | zero => omega
  | succ F ih =>
    by_cases hq : Quiescent h
    · rw [parseMessage_quiescent E F h hq]
    · cases hb : h.m_messageBuffer with
      | nil => exact absurd (Or.inl hb) hq
      | cons x xs =>
        have hlen : x.val ≤ (x :: xs).length := by
          by_contra hcon
          exact hq (Or.inr (by rw [hb]; simpa using hcon))
        have hb2 : (h.received more).m_messageBuffer = x :: (xs ++ more) := by
          rw [QLegoDevice.received_buffer, hb]; rfl
        have hlen2 : x.val ≤ (x :: (xs ++ more)).length := by
          simp only [List.length_cons, List.length_append] at hlen ⊢
          omega
        have htake : (x :: (xs ++ more)).take x.val = (x :: xs).take x.val := by
          rw [← List.cons_append, List.take_append_of_le_length hlen]
        have hdrop : (x :: (xs ++ more)).drop x.val = (x :: xs).drop x.val ++ more := by
          rw [← List.cons_append, List.drop_append_of_le_length hlen]
        rw [parseMessage_complete E F (h.received more) x (xs ++ more) hb2 hlen2,
          parseMessage_complete E F h x xs hb hlen, htake, hdrop]
        have hpar := dispatchFrame_append E h ((x :: xs).take x.val) ((x :: xs).drop x.val) more
        rw [show h.withAssembler (h.m_messageBuffer ++ more) h.dispatched = h.received more
          from rfl] at hpar
        rw [hpar]
        cases hd : dispatchFrame E h ((x :: xs).take x.val) ((x :: xs).drop x.val) with
        | error f => rfl
        | ok h3 =>
          obtain ⟨hbuf, _, hge⟩ := dispatchFrame_ok E h h3 _ _ hd
          have hlt := drop_length_lt x xs x.val (take_length_ge x xs x.val hge)
          have hFl : (x :: xs).length + more.length < F + 1 := by
            rw [hb] at hF
            simp only [List.length_append, List.length_cons] at hF ⊢
            omega
          simp only [Except.map]
          rw [show h3.withAssembler (h3.m_messageBuffer ++ more) h3.dispatched
            = h3.received more from rfl]
          by_cases hz : h3.m_messageBuffer.length > 0
          · have hz2 : (h3.received more).m_messageBuffer.length > 0 := by
              rw [QLegoDevice.received_buffer, List.length_append]; omega
            rw [if_pos hz, if_pos hz2]
            have hih := ih h3 (by rw [List.length_append, hbuf]; omega)
            rw [hih]
            cases hr : parseMessage E F h3 [] with
            | none => rfl
            | some r =>
              cases r with
              | error f => rfl
              | ok h1 =>
                simp only
                obtain ⟨_, hle⟩ := parseMessage_result E F h3 h1 hr
                apply parseMessage_fuel_irrelevant
                · rw [QLegoDevice.received_buffer, List.length_append]; rw [hbuf] at hle; omega
                · rw [QLegoDevice.received_buffer, List.length_append]; rw [hbuf] at hle; omega
          · have hnil : h3.m_messageBuffer = [] := by
              cases hm : h3.m_messageBuffer with
              | nil => rfl
              | cons y ys => rw [hm] at hz; simp at hz
            rw [if_neg hz]
            simp only
            by_cases hm : more = []
            · have hz2 : ¬ (h3.received more).m_messageBuffer.length > 0 := by
                rw [QLegoDevice.received_buffer, hnil, hm]; simp
              rw [if_neg hz2]
              rw [parseMessage_quiescent E F (h3.received more)
                (Or.inl (by rw [QLegoDevice.received_buffer, hnil, hm]; rfl))]
            · have hz2 : (h3.received more).m_messageBuffer.length > 0 := by
                rw [QLegoDevice.received_buffer, hnil]
                cases more with
                | nil => exact absurd rfl hm
                | cons y ys => simp
              rw [if_pos hz2]
              apply parseMessage_fuel_irrelevant
              · rw [QLegoDevice.received_buffer, hnil]
                simp only [List.nil_append, List.length_cons] at hFl ⊢
                omega
              · rw [QLegoDevice.received_buffer, hnil]
                simp only [List.nil_append, List.length_cons] at hFl ⊢
                omega

theorem feedChunks_eq_parseMessage (E : Env) (fuel : Nat) (chunks : List (List Byte)) :
    ∀ h : QLegoDevice, Quiescent h → (h.m_messageBuffer ++ chunks.flatten).length < fuel →
      feedChunks E fuel h chunks = parseMessage E fuel h chunks.flatten := by
  induction chunks with
  | nil =>
    intro h hq hF
    cases fuel with
    | zero => omega
    | succ F =>
      simp only [feedChunks, List.flatten_nil]
      rw [parseMessage_quiescent E F h hq]
  | cons c cs ih =>
    intro h hq hF
    simp only [List.flatten_cons] at hF ⊢
    rw [parseMessage_eq_received E fuel h (c ++ cs.flatten), ← QLegoDevice.received_received,
      parseMessage_append E fuel (h.received c) cs.flatten
        (by rw [QLegoDevice.received_buffer, List.append_assoc]; exact hF)]
    unfold feedChunks
    rw [parseMessage_eq_received E fuel h c]
    cases hr : parseMessage E fuel (h.received c) [] with
    | none => rfl
    | some r =>
      cases r with
      | error f => rfl
      | ok h1 =>
        simp only
        obtain ⟨hq1, hle⟩ := parseMessage_result E fuel (h.received c) h1 hr
        rw [ih h1 hq1 (by
          rw [QLegoDevice.received_buffer] at hle
          simp only [List.length_append] at hle hF ⊢
          omega)]
        exact parseMessage_eq_received E fuel h1 cs.flatten

theorem flatten_eq_nil_of_nonempty (fs : List (List Byte))
    (hne : ∀ f ∈ fs, 3 ≤ f.length) (hflat : fs.flatten = []) : fs = [] := by
  cases fs with
  | nil => rfl
  | cons f rest =>
    have h3 := hne f (List.mem_cons_self _ _)
    simp only [List.flatten_cons, List.append_eq_nil] at hflat
    rw [hflat.1] at h3
    simp at h3

theorem parseMessage_frames (E : Env) (frames : List (List Byte)) (tail : List Byte)
    (htail : tail = [] ∨ tail.length < (tail.headD 0).val) :
    ∀ (fuel : Nat) (h : QLegoDevice), h.m_messageBuffer = frames.flatten ++ tail →
      (∀ f ∈ frames, 3 ≤ f.length ∧ (f.headD 0).val = f.length) →
      h.m_messageBuffer.length < fuel →
      (∀ f, parseMessage E fuel h [] ≠ some (.error f)) →
      ∃ h1, parseMessage E fuel h [] = some (.ok h1)
        ∧ h1.dispatched = h.dispatched ++ frames ∧ h1.m_messageBuffer = tail := by
  induction frames with
  | nil =>
    intro fuel h hb _ hF _
    cases fuel with
    | zero => omega
    | succ F =>
      simp only [List.flatten_nil, List.nil_append] at hb
      have hq : Quiescent h := by
        rcases htail with ht | ht
        · exact Or.inl (by rw [hb, ht])
        · exact Or.inr (by rw [hb]; exact ht)
      exact ⟨h, parseMessage_quiescent E F h hq, by simp, hb⟩
  | cons f fs ih =>
    intro fuel h hb hframes hF hnofault
    obtain ⟨hf3, hfhead⟩ := hframes f (List.mem_cons_self _ _)
    cases fuel with
    | zero => omega
    | succ F =>
      cases f with
      | nil => simp at hf3
      | cons x f2 =>
        simp only [List.headD_cons] at hfhead
        have hb2 : h.m_messageBuffer = x :: (f2 ++ (fs.flatten ++ tail)) := by
          rw [hb]; simp
        have hlen : x.val ≤ (x :: (f2 ++ (fs.flatten ++ tail))).length := by
          rw [hfhead]; simp
        have htake : (x :: (f2 ++ (fs.flatten ++ tail))).take x.val = x :: f2 := by
          rw [hfhead, ← List.cons_append]
          exact List.take_left' rfl
        have hdrop : (x :: (f2 ++ (fs.flatten ++ tail))).drop x.val = fs.flatten ++ tail := by
          rw [hfhead, ← List.cons_append]
          exact List.drop_left' rfl
        have hstep := parseMessage_complete E F h x _ hb2 hlen
        rw [htake, hdrop] at hstep
        cases hd : dispatchFrame E h (x :: f2) (fs.flatten ++ tail) with
        | error e =>
          rw [hd] at hstep
          exact absurd hstep (hnofault e)
        | ok h3 =>
          obtain ⟨hbuf, htrace, _⟩ := dispatchFrame_ok E h h3 _ _ hd
          rw [hd] at hstep
          simp only at hstep
          by_cases hz : h3.m_messageBuffer.length > 0
          · rw [if_pos hz] at hstep
            have hF3 : h3.m_messageBuffer.length < F := by
              rw [hbuf]
              rw [hb2] at hF
              simp only [List.length_cons, List.length_append] at hF ⊢
              omega
            obtain ⟨h1, hrun, htr, hbf⟩ := ih F h3 hbuf
              (fun g hg => hframes g (List.mem_cons_of_mem _ hg)) hF3
              (fun e he => hnofault e (by rw [hstep]; exact he))
            refine ⟨h1, by rw [hstep]; exact hrun, ?_, hbf⟩
            rw [htr, htrace]; simp
          · rw [if_neg hz] at hstep
            have hnil : fs.flatten ++ tail = [] := by
              rw [← hbuf]
              cases hm : h3.m_messageBuffer with
              | nil => rfl
              | cons y ys => rw [hm] at hz; simp at hz
            obtain ⟨hfl, htl⟩ := List.append_eq_nil.mp hnil
            have hfs : fs = [] := flatten_eq_nil_of_nonempty fs
              (fun g hg => (hframes g (List.mem_cons_of_mem _ hg)).1) hfl
            refine ⟨h3, hstep, ?_, ?_⟩
            · rw [htrace, hfs]
            · rw [hbuf, hnil, htl]

/-! ## Lemmas on the outbound commands -/

theorem resize_nil (n : Nat) : resize [] n = List.replicate n 0 := by
  simp [resize]

theorem assignAt_append (pre suf : List Byte) (c : Byte) :
    assignAt (pre ++ suf) pre.length c = pre ++ c :: suf.tail := by
  cases suf with
  | nil =>
    simp [assignAt, resize, List.take_append_eq_append_take, List.set_append_right]
  | cons x xs =>
    have hlt : pre.length < (pre ++ x :: xs).length := by simp
    simp [assignAt, hlt, List.set_append_right]

theorem copyLoop_append (data : List Byte) :
    ∀ pre suf : List Byte, suf.length ≤ data.length →
      copyLoop data pre.length (pre ++ suf) = pre ++ data := by
  induction data with
  | nil =>
    intro pre suf hs
    have : suf = [] := List.length_eq_zero.mp (Nat.le_zero.mp hs)
    simp [copyLoop, this]
  | cons b rest ih =>
    intro pre suf hs
    have hlen : (pre ++ [b]).length = pre.length + 1 := by simp
    have htail : suf.tail.length ≤ rest.length := by
      simp only [List.length_tail, List.length_cons] at hs ⊢
      omega
    unfold copyLoop
    rw [assignAt_append, ← hlen]
    have := ih (pre ++ [b]) suf.tail htail
    simpa using this

theorem send_eq (bytes : List Byte) :
    send bytes = (Fin.ofNat (bytes.length + 2) : Byte) :: 0 :: bytes := by
  unfold send
  simp only [resize_nil]
  have h0 := assignAt_append []
    (List.replicate (Fin.ofNat (bytes.length + 2) : Byte).val (0 : Byte))
    (Fin.ofNat (bytes.length + 2) : Byte)
  simp only [List.nil_append, List.length_nil] at h0
  rw [h0]
  have h1 := assignAt_append [(Fin.ofNat (bytes.length + 2) : Byte)]
    (List.replicate (Fin.ofNat (bytes.length + 2) : Byte).val (0 : Byte)).tail 0
  simp only [List.singleton_append, List.length_singleton] at h1
  rw [h1]
  have hsz : ((Fin.ofNat (bytes.length + 2) : Byte).val) ≤ bytes.length + 2 := by
    simp only [Fin.ofNat]
    exact Nat.mod_le _ _
  have h2 := copyLoop_append bytes [(Fin.ofNat (bytes.length + 2) : Byte), 0]
    (List.replicate (Fin.ofNat (bytes.length + 2) : Byte).val (0 : Byte)).tail.tail
    (by simp only [List.length_tail, List.length_replicate]; omega)
  simpa using h2

theorem writeDirect_eq (d : QLegoAttachedDevice) (mode : Byte) (data : List Byte) :
    d.writeDirect mode data
      = 0x81 :: (Fin.ofNat d.m_portId : Byte) :: 0x11 :: 0x51 :: mode :: data := by
  unfold QLegoAttachedDevice.writeDirect
  simp only [resize_nil]
  have hsz : ((Fin.ofNat (data.length + 5) : Byte).val) ≤ data.length + 5 := by
    simp only [Fin.ofNat]
    exact Nat.mod_le _ _
  have hr : (List.replicate (Fin.ofNat (data.length + 5) : Byte).val (0 : Byte)).length
      ≤ data.length + 5 := by
    simpa using hsz
  generalize List.replicate (Fin.ofNat (data.length + 5) : Byte).val (0 : Byte) = r at hr
  have h0 := assignAt_append [] r 0x81
  simp only [List.nil_append, List.length_nil] at h0
  rw [h0]
  have h1 := assignAt_append [0x81] r.tail (Fin.ofNat d.m_portId : Byte)
  simp only [List.singleton_append, List.length_singleton] at h1
  rw [h1]
  have h2 := assignAt_append [0x81, (Fin.ofNat d.m_portId : Byte)] r.tail.tail 0x11
  simp only [List.cons_append, List.nil_append, List.length_cons, List.length_nil] at h2
  rw [h2]
  have h3 := assignAt_append [0x81, (Fin.ofNat d.m_portId : Byte), 0x11] r.tail.tail.tail 0x51
  simp only [List.cons_append, List.nil_append, List.length_cons, List.length_nil] at h3
  rw [h3]
  have h4 := assignAt_append [0x81, (Fin.ofNat d.m_portId : Byte), 0x11, 0x51]
    r.tail.tail.tail.tail mode
  simp only [List.cons_append, List.nil_append, List.length_cons, List.length_nil] at h4
  rw [h4]
  have h5 := copyLoop_append data [0x81, (Fin.ofNat d.m_portId : Byte), 0x11, 0x51, mode]
    r.tail.tail.tail.tail.tail (by simp only [List.length_tail]; omega)
  simpa using h5

/-! ## Lemmas on the dispatcher and the hub-property decoder -/

theorem dispatch_unknown (E : Env) (h : QLegoDevice) (cmd : Byte) (message : List Byte)
    (hunknown : cmd.val ≠ 0x01 ∧ cmd.val ≠ 0x04 ∧ cmd.val ≠ 0x43 ∧ cmd.val ≠ 0x44
      ∧ cmd.val ≠ 0x45 ∧ cmd.val ≠ 0x82) :
    dispatch E h cmd message = .ok h := by
  obtain ⟨h1, h4, h43, h44, h45, h82⟩ := hunknown
  unfold dispatch
  split
  · rename_i heq; exact absurd heq h1
  · rename_i heq; exact absurd heq h4
  · rename_i heq; exact absurd heq h43
  · rename_i heq; exact absurd heq h44
  · rename_i heq; exact absurd heq h45
  · rename_i heq; exact absurd heq h82
  · rfl

theorem constDataAt_of_get (a : List Byte) (i : Nat) (b : Byte) (hb : a.get? i = some b) :
    constDataAt a i = .ok b := by
  unfold constDataAt
  rw [hb]

theorem toShort_toHex_pair (b5 b6 : Byte) :
    toShort (toHex [b5, b6])
      = if b5.val * 256 + b6.val ≤ 32767 then (((b5.val * 256 + b6.val : Nat) : Int), true)
        else (0, false) := by
  have h5 := b5.isLt
  have h6 := b6.isLt
  have e1 := hexValue_hexDigit (b5.val / 16) (by omega)
  have e2 := hexValue_hexDigit (b5.val % 16) (by omega)
  have e3 := hexValue_hexDigit (b6.val / 16) (by omega)
  have e4 := hexValue_hexDigit (b6.val % 16) (by omega)
  have hv : ((b5.val / 16 * 16 + b5.val % 16) * 16 + b6.val / 16) * 16 + b6.val % 16
      = b5.val * 256 + b6.val := by omega
  simp [toShort, parseHex, toHex, parseHexFrom, e1, e2, e3, e4, hv]

theorem qToBigEndian8_pair (b5 b6 : Byte) :
    qToBigEndian8 ((b5.val * 256 + b6.val : Nat) : Int)
      = if b6.val < 128 then (b6.val : Int) else (b6.val : Int) - 256 := by
  have h6 := b6.isLt
  unfold qToBigEndian8
  split <;> omega

/-! ## Lemmas on runs of port messages -/

theorem QMap.contains_insert_of_contains {K V : Type} [DecidableEq K] [KeyOrder K]
    (m : List (K × V)) (k q : K) (v : V) (hq : QMap.contains m q = true) :
    QMap.contains (QMap.insert m k v) q = true := by
  rw [QMap.contains_eq_isSome] at hq ⊢
  by_cases hqk : q = k
  · rw [hqk, QMap.value_insert_self]; rfl
  · rw [QMap.value_insert_other _ _ _ _ hqk]; exact hq

theorem QMap.contains_remove_other {K V : Type} [DecidableEq K] (m : List (K × V)) (k q : K)
    (hqk : q ≠ k) : QMap.contains (QMap.remove m k) q = QMap.contains m q := by
  rw [QMap.contains_eq_isSome, QMap.contains_eq_isSome, QMap.value_remove_other _ _ _ hqk]

theorem getPortNameForPortId_value (pm : List (String × Int)) (p : Int)
    (hne : getPortNameForPortId pm p ≠ "") :
    (QMap.value pm (getPortNameForPortId pm p)).getD 0 = p := by
  unfold getPortNameForPortId at hne ⊢
  cases hf : (QMap.keys pm).find?
      (fun key => decide ((QMap.value pm key).getD 0 = p)) with
  | none => rw [hf] at hne; exact absurd rfl hne
  | some key =>
    have := List.find?_some hf
    simpa using this

theorem attachDevice_ok_registry (h h1 : QLegoDevice) (k : Int) (a : Attachment)
    (hok : attachDevice h k a = .ok h1) :
    h1.m_portMap = h.m_portMap ∧ h1.m_virtualPorts = h.m_virtualPorts
      ∧ QMap.contains h1.m_attachedDevices k = true
      ∧ ∀ q, QMap.contains h.m_attachedDevices q = true →
          QMap.contains h1.m_attachedDevices q = true := by
  obtain ⟨hpm, hvp, x, hx⟩ := attachDevice_ok_frame h h1 k a hok
  refine ⟨hpm, hvp, by rw [QMap.contains_eq_isSome, hx]; rfl, ?_⟩
  intro q hq
  unfold attachDevice at hok
  cases hv : QMap.value h.m_attachedDevices k with
  | none =>
    rw [hv] at hok
    simp at hok
    subst hok
    exact QMap.contains_insert_of_contains _ _ _ _ hq
  | some v =>
    cases v with
    | none => rw [hv] at hok; simp at hok
    | some present =>
      rw [hv] at hok
      by_cases ht : present.type = a.type
      · simp [ht] at hok
        subst hok
        exact hq
      · simp [ht] at hok
        subst hok
        exact QMap.contains_insert_of_contains _ _ _ _ hq

theorem parsePortMessage_detach_absent (E : Env) (h : QLegoDevice) (message : List Byte)
    (p : Byte) (h3 : byteAt message 3 = .ok p) (h4 : byteAt message 4 = .ok 0)
    (habsent : QMap.contains h.m_attachedDevices (p.val : Int) = false) :
    parsePortMessage E h message = .ok h := by
  simp [parsePortMessage, h3, h4, habsent, bind, Except.bind, pure, Except.pure]

theorem parsePortMessage_other_event (E : Env) (h : QLegoDevice) (message : List Byte)
    (p event : Byte) (h3 : byteAt message 3 = .ok p) (h4 : byteAt message 4 = .ok event)
    (h0 : event.val ≠ 0) (h1 : event.val ≠ 1) (h2 : event.val ≠ 2) :
    parsePortMessage E h message = .ok h := by
  unfold parsePortMessage
  rw [h3, h4]
  simp only [bind, Except.bind]
  rfl

theorem byte_eq_of_val (b : Byte) (n : Nat) (hn : n < 256) (hb : b.val = n) :
    b = (⟨n, hn⟩ : Byte) :=
  Fin.ext hb

theorem trackPortFrame_consistent (E : Env) (t t1 : Tracked) (message : List Byte)
    (hinv : t.Consistent) (hstep : trackPortFrame E t message = .ok t1) : t1.Consistent := by
  unfold trackPortFrame at hstep
  cases hp : parsePortMessage E t.hub message with
  | error f => rw [hp] at hstep; cases hstep
  | ok h1 =>
    cases h3 : byteAt message 3 with
    | error f => rw [hp, h3] at hstep; cases hstep
    | ok p =>
      cases h4 : byteAt message 4 with
      | error f => rw [hp, h3, h4] at hstep; cases hstep
      | ok event =>
        rw [hp, h3, h4] at hstep
        simp only [bind, Except.bind] at hstep
        by_cases e0 : event.val = 0
        · -- detach
          have hev : event = 0 := Fin.ext e0
          subst hev
          simp only [Fin.val_zero, pure, Except.pure] at hstep
          by_cases hc : QMap.contains t.hub.m_attachedDevices (p.val : Int) = true
          · rw [if_pos hc] at hstep
            have ht1 := Except.ok.inj hstep
            subst ht1
            have hsome : ∃ r, QMap.value t.hub.m_attachedDevices (p.val : Int) = some r := by
              rw [QMap.contains_eq_isSome] at hc
              cases hv : QMap.value t.hub.m_attachedDevices (p.val : Int) with
              | none => rw [hv] at hc; cases hc
              | some r => exact ⟨r, rfl⟩
            obtain ⟨r, hr⟩ := hsome
            obtain ⟨h2, hdet, hreg, _, hvps, hpm, _⟩ :=
              parsePortMessage_detach_present E t.hub message p r h3 h4 hr
            have hh : h1 = h2 := Except.ok.inj (hp.symm.trans hdet)
            subst hh
            intro c hcmem
            simp only [List.mem_filter, decide_eq_true_eq] at hcmem
            obtain ⟨hcm, hcne⟩ := hcmem
            obtain ⟨i1, i2, i3⟩ := hinv c hcm
            refine ⟨?_, ?_, ?_⟩
            · rw [hreg, QMap.contains_remove_other _ _ _ hcne]; exact i1
            · rw [hvps]
              split
              · simp only [List.mem_filter, decide_eq_true_eq]; exact ⟨i2, hcne⟩
              · exact i2
            · intro hflag
              have i3b := i3 hflag
              rw [hpm]
              split
              · rename_i hcond
                have hval := getPortNameForPortId_value _ _ hcond.2
                have hkey : c.2 ≠ getPortNameForPortId t.hub.m_portMap (p.val : Int) := by
                  intro heq
                  rw [← heq, i3b] at hval
                  exact hcne hval
                rw [QMap.value_remove_other _ _ _ hkey]; exact i3b
              · exact i3b
          · rw [if_neg hc] at hstep
            have ht1 := Except.ok.inj hstep
            subst ht1
            have hcf : QMap.contains t.hub.m_attachedDevices (p.val : Int) = false := by
              cases hh : QMap.contains t.hub.m_attachedDevices (p.val : Int) with
              | true => exact absurd hh hc
              | false => rfl
            have hsame := parsePortMessage_detach_absent E t.hub message p h3 h4 hcf
            have hh : h1 = t.hub := Except.ok.inj (hp.symm.trans hsame)
            subst hh
            exact hinv
        · by_cases e2 : event.val = 2
          · -- virtual port creation
            have hev : event = 2 := Fin.ext e2
            subst hev
            simp only [Fin.val_two] at hstep
            cases h7 : byteAt message 7 with
            | error f => rw [h7] at hstep; cases hstep
            | ok a =>
              cases h8 : byteAt message 8 with
              | error f => rw [h7, h8] at hstep; cases hstep
              | ok b =>
                rw [h7, h8] at hstep
                simp only [pure, Except.pure] at hstep
                have ht1 := Except.ok.inj hstep
                subst ht1
                obtain ⟨att, _, hcreate⟩ := parsePortMessage_virtual E t.hub message p a b h3 h4 h7 h8
                rw [hcreate] at hp
                obtain ⟨hpm, hvp, hself, hothers⟩ := attachDevice_ok_registry _ _ _ _ hp
                simp only at hpm hvp hothers
                intro c hcmem
                simp only [List.mem_cons] at hcmem
                rcases hcmem with hnew | hold
                · subst hnew
                  refine ⟨hself, ?_, ?_⟩
                  · rw [hvp]; simp
                  · intro _
                    rw [hpm]; exact QMap.value_insert_self _ _ _
                · obtain ⟨i1, i2, i3⟩ := hinv c hold
                  refine ⟨hothers _ i1, ?_, ?_⟩
                  · rw [hvp]; exact List.mem_append_left _ i2
                  · intro hflag
                    simp only [Bool.or_eq_false_iff] at hflag
                    have i3b := i3 hflag.1
                    have hkey : c.2 ≠ getPortNameForPortId t.hub.m_portMap (E.charToInt a)
                        ++ getPortNameForPortId t.hub.m_portMap (E.charToInt b) := by
                      intro heq
                      have hcon := hflag.2
                      rw [← heq, QMap.contains_eq_isSome, i3b] at hcon
                      cases hcon
                    rw [hpm, QMap.value_insert_other _ _ _ _ hkey]; exact i3b
          · by_cases e1 : event.val = 1
            · -- attach
              have hev : event = 1 := Fin.ext e1
              subst hev
              simp only [Fin.val_one, pure, Except.pure] at hstep
              have ht1 := Except.ok.inj hstep
              subst ht1
              obtain ⟨att, _, _, hattach⟩ := parsePortMessage_attach E t.hub message p h3 h4
              rw [hattach] at hp
              obtain ⟨hpm, hvp, _, hothers⟩ := attachDevice_ok_registry _ _ _ _ hp
              intro c hcmem
              obtain ⟨i1, i2, i3⟩ := hinv c hcmem
              refine ⟨hothers _ i1, by rw [hvp]; exact i2, fun hflag => ?_⟩
              rw [hpm]; exact i3 hflag
            · -- any other event
              have hsame := parsePortMessage_other_event E t.hub message p event h3 h4 e0 e1 e2
              have hh : h1 = t.hub := Except.ok.inj (hp.symm.trans hsame)
              subst hh
              split at hstep
              · rename_i heq; exact absurd heq e0
              · rename_i heq; exact absurd heq e2
              · have ht1 := Except.ok.inj hstep
                subst ht1
                exact hinv

theorem runPortFrames_consistent (E : Env) (frames : List (List Byte)) :
    ∀ t t1 : Tracked, t.Consistent → runPortFrames E t frames = .ok t1 → t1.Consistent := by
  induction frames with
  | nil =>
    intro t t1 hinv hrun
    have ht := Except.ok.inj hrun
    subst ht
    exact hinv
  | cons message rest ih =>
    intro t t1 hinv hrun
    unfold runPortFrames at hrun
    cases hstep : trackPortFrame E t message with
    | error f => rw [hstep] at hrun; cases hrun
    | ok t2 =>
      rw [hstep] at hrun
      exact ih t2 t1 (trackPortFrame_consistent E t t2 message hinv hstep) hrun

theorem trackPortFrame_hub (E : Env) (t t1 : Tracked) (message : List Byte)
    (hstep : trackPortFrame E t message = .ok t1) :
    parsePortMessage E t.hub message = .ok t1.hub := by
  unfold trackPortFrame at hstep
  cases hp : parsePortMessage E t.hub message with
  | error f => rw [hp] at hstep; cases hstep
  | ok h1 =>
    rw [hp] at hstep
    simp only [bind, Except.bind] at hstep
    cases h3 : byteAt message 3 with
    | error f => rw [h3] at hstep; cases hstep
    | ok p =>
      cases h4 : byteAt message 4 with
      | error f => rw [h3, h4] at hstep; cases hstep
      | ok event =>
        rw [h3, h4] at hstep
        simp only [pure, Except.pure] at hstep
        split at hstep
        · split at hstep
          · rw [← Except.ok.inj hstep]
          · rw [← Except.ok.inj hstep]
        · cases h7 : byteAt message 7 with
          | error f => rw [h7] at hstep; cases hstep
          | ok a =>
            cases h8 : byteAt message 8 with
            | error f => rw [h7, h8] at hstep; cases hstep
            | ok b =>
              rw [h7, h8] at hstep
              rw [← Except.ok.inj hstep]
        · rw [← Except.ok.inj hstep]

theorem runPortFrames_hub (E : Env) (frames : List (List Byte)) :
    ∀ t t1 : Tracked, runPortFrames E t frames = .ok t1 →
      processPortFrames E t.hub frames = .ok t1.hub := by
  induction frames with
  | nil =>
    intro t t1 hrun
    rw [← Except.ok.inj hrun]
    rfl
  | cons message rest ih =>
    intro t t1 hrun
    unfold runPortFrames at hrun
    cases hstep : trackPortFrame E t message with
    | error f => rw [hstep] at hrun; cases hrun
    | ok t2 =>
      rw [hstep] at hrun
      unfold processPortFrames
      rw [trackPortFrame_hub E t t2 message hstep]
      exact ih t2 t1 hrun

/-! ## Lemmas on virtual-port creation and the wait helper -/

theorem Env.charToInt_small (E : Env) (b : Byte) (hb : b.val < 128) :
    E.charToInt b = (b.val : Int) := by
  have hn : ¬ 128 ≤ b.val := by omega
  simp [Env.charToInt, hn]

theorem Env.charToInt_unsigned (E : Env) (b : Byte) (hE : E.charIsSigned = false) :
    E.charToInt b = (b.val : Int) := by
  simp [Env.charToInt, hE]

theorem attachDevice_portMap_irrelevant (h : QLegoDevice) (pm : List (String × Int))
    (vp : List Int) (k : Int) (a : Attachment) :
    attachDevice { h with m_portMap := pm, m_virtualPorts := vp } k a
      = (attachDevice h k a).map fun h1 => { h1 with m_portMap := pm, m_virtualPorts := vp } := by
  unfold attachDevice
  simp only
  cases hv : QMap.value h.m_attachedDevices k with
  | none => rfl
  | some v =>
    cases v with
    | none => rfl
    | some present =>
      by_cases ht : present.type = a.type
      · simp [ht, Except.map]
      · simp [ht, Except.map, QLegoDevice.emit]

/-- What a virtual-port creation frame does, in terms of the `int` values the code looks up:
the Port Map maps the synthesized name to v, v is in the virtual-ports set, and the
registry and the emitted signals are those an attach frame for v with the same device type
leaves. -/
theorem parsePortMessage_virtual_effect (E : Env) (h : QLegoDevice) (message : List Byte)
    (v a b : Byte) (h3 : byteAt message 3 = .ok v) (h4 : byteAt message 4 = .ok 2)
    (h7 : byteAt message 7 = .ok a) (h8 : byteAt message 8 = .ok b)
    (hnn : QMap.value h.m_attachedDevices (v.val : Int) ≠ some none) :
    ∃ h1, parsePortMessage E h message = .ok h1
      ∧ QMap.value h1.m_portMap (getPortNameForPortId h.m_portMap (E.charToInt a)
          ++ getPortNameForPortId h.m_portMap (E.charToInt b)) = some (v.val : Int)
      ∧ (v.val : Int) ∈ h1.m_virtualPorts
      ∧ ∀ attach : List Byte, byteAt attach 3 = .ok v → byteAt attach 4 = .ok 1 →
          portDeviceNum E attach 1 = portDeviceNum E message 2 →
          ∃ h2, parsePortMessage E h attach = .ok h2
            ∧ h1.m_attachedDevices = h2.m_attachedDevices ∧ h1.emitted = h2.emitted := by
  obtain ⟨att, hatt, _⟩ := createAttachment_some (portDeviceNum E message 2) v.val
  have hcreate : parsePortMessage E h message
      = attachDevice
          { h with
            m_portMap := QMap.insert h.m_portMap
              (getPortNameForPortId h.m_portMap (E.charToInt a)
                ++ getPortNameForPortId h.m_portMap (E.charToInt b)) (v.val : Int)
            m_virtualPorts := h.m_virtualPorts ++ [(v.val : Int)] }
          (v.val : Int) att := by
    simp [parsePortMessage, h3, h4, h7, h8, hatt, bind, Except.bind]
  obtain ⟨h2, hok⟩ := attachDevice_ok_of_not_null h (v.val : Int) att hnn
  rw [attachDevice_portMap_irrelevant, hok] at hcreate
  simp only [Except.map] at hcreate
  refine ⟨_, hcreate, ?_, ?_, ?_⟩
  · obtain ⟨hpm, _, _⟩ := attachDevice_ok_frame _ _ _ _ hok
    exact QMap.value_insert_self _ _ _
  · simp
  · intro attach a3 a4 hsame
    obtain ⟨att2, hatt2, _, hattach⟩ := parsePortMessage_attach E h attach v a3 a4
    rw [hsame, hatt] at hatt2
    have : att = att2 := Option.some.inj hatt2
    subst this
    exact ⟨h2, by rw [hattach, hok], rfl, rfl⟩

theorem waitForDeviceByName_check_isSome (h : QLegoDevice) (name : String) :
    (waitForDeviceByName_check h name).isSome = QMap.contains h.m_portMap name := by
  unfold waitForDeviceByName_check
  by_cases hc : QMap.contains h.m_portMap name = true
  · rw [if_pos hc, hc]
    simp only
    split <;> rfl
  · rw [if_neg hc]
    cases hh : QMap.contains h.m_portMap name with
    | true => exact absurd hh hc
    | false => rfl

theorem waitForDeviceByName_check_present (h : QLegoDevice) (name : String) (portId : Int)
    (r : Option Attachment) (hname : QMap.value h.m_portMap name = some portId)
    (hr : QMap.value h.m_attachedDevices portId = some r) :
    waitForDeviceByName_check h name = some (h, r) := by
  have hc : QMap.contains h.m_portMap name = true := by
    rw [QMap.contains_eq_isSome, hname]; rfl
  unfold waitForDeviceByName_check
  rw [if_pos hc, hname]
  simp only [Option.getD_some, hr]

/-! ## Lemmas about the scanner -/

theorem wrapInt32_of_range (x : Int) (hlo : -2147483648 ≤ x) (hhi : x < 2147483648) :
    wrapInt32 x = x := by
  unfold wrapInt32
  omega

theorem QLegoDeviceScanner.step_scanning (s : QLegoDeviceScanner) (e : ScannerEvent) :
    (s.step e).m_scanning
      = (if e = .scan then true else if e = .scanFinished then false else s.m_scanning) := by
  cases e with
  | scan => rfl
  | deviceDiscovered info =>
    simp only [QLegoDeviceScanner.step, QLegoDeviceScanner.addDevice,
      QLegoDeviceScanner.deviceDisconnected]
    split
    · split <;> simp
    · simp
  | deviceDisconnected => rfl
  | deviceReady => rfl
  | scanError error => cases error <;> rfl
  | scanFinished => rfl

theorem QLegoDeviceScanner.step_count (s : QLegoDeviceScanner) (e : ScannerEvent) (n : Int)
    (hlo : 0 ≤ s.m_deviceCount) (hhi : s.m_deviceCount ≤ n)
    (hn : n + (if e.isDiscovery then 1 else 0) < 2147483648) :
    0 ≤ (s.step e).m_deviceCount
      ∧ (s.step e).m_deviceCount ≤ n + (if e.isDiscovery then 1 else 0) := by
  cases e with
  | scan => simpa [QLegoDeviceScanner.step, QLegoDeviceScanner.scan, ScannerEvent.isDiscovery]
      using ⟨hlo, hhi⟩
  | deviceDiscovered info =>
    simp only [ScannerEvent.isDiscovery, if_true] at hn ⊢
    have hw : wrapInt32 (s.m_deviceCount + 1) = s.m_deviceCount + 1 :=
      wrapInt32_of_range _ (by omega) (by omega)
    simp only [QLegoDeviceScanner.step, QLegoDeviceScanner.addDevice,
      QLegoDeviceScanner.deviceDisconnected, hw]
    split
    · split
      · constructor <;> simp <;> omega
      · simp only
        split <;> constructor <;> omega
    · constructor <;> omega
  | deviceDisconnected =>
    simp only [QLegoDeviceScanner.step, QLegoDeviceScanner.deviceDisconnected,
      ScannerEvent.isDiscovery]
    split <;> constructor <;> simp <;> omega
  | deviceReady =>
    simpa [QLegoDeviceScanner.step, QLegoDeviceScanner.deviceReady, ScannerEvent.isDiscovery]
      using ⟨hlo, hhi⟩
  | scanError error =>
    cases error <;>
      simpa [QLegoDeviceScanner.step, QLegoDeviceScanner.deviceScanError,
        ScannerEvent.isDiscovery] using ⟨hlo, hhi⟩
  | scanFinished =>
    simpa [QLegoDeviceScanner.step, QLegoDeviceScanner.deviceScanFinished,
      ScannerEvent.isDiscovery] using ⟨hlo, hhi⟩

theorem QLegoDeviceScanner.run_count (events : List ScannerEvent) :
    ∀ (s : QLegoDeviceScanner) (n : Int), 0 ≤ s.m_deviceCount → s.m_deviceCount ≤ n →
      n + ((events.filter ScannerEvent.isDiscovery).length : Int) < 2147483648 →
      0 ≤ (s.run events).m_deviceCount
        ∧ (s.run events).m_deviceCount
            ≤ n + ((events.filter ScannerEvent.isDiscovery).length : Int) := by
  induction events with
  | nil =>
    intro s n hlo hhi _
    simpa [QLegoDeviceScanner.run] using ⟨hlo, hhi⟩
  | cons e rest ih =>
    intro s n hlo hhi hn
    have hlen : (((e :: rest).filter ScannerEvent.isDiscovery).length : Int)
        = (if e.isDiscovery then 1 else 0)
          + ((rest.filter ScannerEvent.isDiscovery).length : Int) := by
      by_cases he : e.isDiscovery = true
      · simp [List.filter, he]; omega
      · simp [List.filter, he]
    rw [hlen] at hn ⊢
    have hstep := QLegoDeviceScanner.step_count s e n hlo hhi (by omega)
    have hrest := ih (s.step e) (n + (if e.isDiscovery then 1 else 0)) hstep.1 hstep.2
      (by omega)
    have hrun : s.run (e :: rest) = (s.step e).run rest := rfl
    rw [hrun]
    constructor
    · exact hrest.1
    · have := hrest.2
      omega

theorem split_concat {α : Type} (init pre post : List α) (e x : α)
    (h : init ++ [e] = pre ++ x :: post) :
    (post = [] ∧ init = pre ∧ e = x) ∨ ∃ rest, post = rest ++ [e] ∧ init = pre ++ x :: rest := by
  rcases List.eq_nil_or_concat post with hnil | ⟨rest, y, hpost⟩
  · subst hnil
    have := List.append_inj' h rfl
    exact Or.inl ⟨rfl, this.1, by simpa using this.2⟩
  · rw [List.concat_eq_append] at hpost
    subst hpost
    have h2 : init ++ [e] = (pre ++ x :: rest) ++ [y] := by simpa using h
    have := List.append_inj' h2 rfl
    have hy : e = y := by simpa using this.2
    subst hy
    exact Or.inr ⟨rest, rfl, this.1⟩

theorem QLegoDeviceScanner.run_scanning (events : List ScannerEvent) :
    (QLegoDeviceScanner.construct.run events).m_scanning = true
      ↔ ∃ pre post, events = pre ++ ScannerEvent.scan :: post
          ∧ ScannerEvent.scanFinished ∉ post := by
  induction events using List.reverseRecOn with
  | nil =>
    constructor
    · intro h
      exact absurd h (by decide)
    · rintro ⟨pre, post, h, _⟩
      exact absurd h (by simp)
  | append_singleton init e ih =>
    have hrun : QLegoDeviceScanner.construct.run (init ++ [e])
        = (QLegoDeviceScanner.construct.run init).step e := by
      simp [QLegoDeviceScanner.run, List.foldl_append]
    rw [hrun, QLegoDeviceScanner.step_scanning]
    by_cases hscan : e = .scan
    · subst hscan
      simp only [if_true, true_iff]
      exact ⟨init, [], rfl, by simp⟩
    · by_cases hfin : e = .scanFinished
      · subst hfin
        simp only [hscan, if_false, if_true]
        constructor
        · intro h
          exact absurd h (by decide)
        · rintro ⟨pre, post, h, hnot⟩
          rcases split_concat init pre post _ _ h with ⟨_, _, he⟩ | ⟨rest, hpost, _⟩
          · exact absurd he hscan
          · exact absurd (by simp [hpost]) hnot
      · simp only [hscan, hfin, if_false]
        rw [ih]
        constructor
        · rintro ⟨pre, post, h, hnot⟩
          refine ⟨pre, post ++ [e], by simp [h], ?_⟩
          intro hmem
          rcases List.mem_append.mp hmem with h1 | h1
          · exact hnot h1
          · exact hfin (List.mem_singleton.mp h1).symm
        · rintro ⟨pre, post, h, hnot⟩
          rcases split_concat init pre post _ _ h with ⟨_, _, he⟩ | ⟨rest, hpost, hinit⟩
          · exact absurd he hscan
          · refine ⟨pre, rest, hinit, ?_⟩
            intro hmem
            exact hnot (by simp [hpost, hmem])

/-! ## Lemmas about a declared frame length of zero -/

theorem received_of_append (h : QLegoDevice) (data buffer : List Byte)
    (hb : h.m_messageBuffer ++ data = buffer) :
    (if data.isEmpty = true then h
      else { h with m_messageBuffer := h.m_messageBuffer ++ data })
      = { h with m_messageBuffer := buffer } := by
  cases data with
  | nil =>
    simp only [List.append_nil] at hb
    simp only [List.isEmpty_nil, if_true]
    rw [← hb]
  | cons d ds =>
    simp only [List.isEmpty_cons, Bool.false_eq_true, if_false]
    rw [hb]

theorem parseMessage_zero_length (E : Env) (fuel : Nat) (h : QLegoDevice)
    (data xs : List Byte) (hb : h.m_messageBuffer ++ data = 0 :: xs) :
    parseMessage E (fuel + 1) h data = some (.error .indexOutOfRange) := by
  unfold parseMessage
  simp only [received_of_append h data _ hb]
  rfl

theorem parseMessageUnchecked_zero_length (E : Env) (stray : Byte)
    (hunknown : stray.val ≠ 0x01 ∧ stray.val ≠ 0x04 ∧ stray.val ≠ 0x43 ∧ stray.val ≠ 0x44
      ∧ stray.val ≠ 0x45 ∧ stray.val ≠ 0x82) :
    ∀ (fuel : Nat) (h : QLegoDevice) (data xs : List Byte),
      h.m_messageBuffer ++ data = 0 :: xs →
      parseMessageUnchecked E stray fuel h data = none := by
  intro fuel
  induction fuel with
  | zero =>
    intro h data xs _
    rfl
  | succ n ih =>
    intro h data xs hb
    unfold parseMessageUnchecked
    simp only [received_of_append h data _ hb]
    have hraw : rawDataAt stray (mid (0 :: xs) 0 ((0 :: xs).headD 0).val) 2 = stray := rfl
    simp only [hraw, dispatch_unknown E _ stray _ hunknown]
    have hlen : ¬ (0 :: xs).length ≤ 0 := by simp
    have hmid : midFrom (0 :: xs) ((0 :: xs).headD 0).val = 0 :: xs := rfl
    simp only [hlen, if_false, hmid]
    have hz : ((0 :: xs).headD (0 : Byte)).val ≤ (0 :: xs).length := by simp
    simp only [hz, if_true]
    have hpos : (0 :: xs).length > 0 := by simp
    simp only [hpos, if_true]
    exact ih _ [] xs (by simp)

/-! ## Lemmas about the record an attach places in the registry -/

theorem createAttachment_plain (t : DeviceType) (p : Nat) (ht : t ≠ 39) :
    createAttachment t p = some (.plain (QLegoAttachedDevice.construct t p)) := by
  unfold createAttachment
  split
  · exact absurd rfl ht
  · rfl

theorem attachDevice_absent (h : QLegoDevice) (k : Int) (a : Attachment)
    (hv : QMap.value h.m_attachedDevices k = none) :
    attachDevice h k a
      = .ok (({ h with m_attachedDevices := QMap.insert h.m_attachedDevices k (some a) }).emit
          (.deviceAttached (some a))) := by
  unfold attachDevice
  rw [hv]

theorem attachDevice_other_type (h : QLegoDevice) (k : Int) (a r : Attachment)
    (hv : QMap.value h.m_attachedDevices k = some (some r)) (ht : r.type ≠ a.type) :
    attachDevice h k a
      = .ok (({ h with m_attachedDevices := QMap.insert h.m_attachedDevices k (some a) }).emit
          (.deviceAttached (some a))) := by
  unfold attachDevice
  rw [hv]
  exact if_neg ht

theorem attachDevice_same_type (h : QLegoDevice) (k : Int) (a r : Attachment)
    (hv : QMap.value h.m_attachedDevices k = some (some r)) (ht : r.type = a.type) :
    attachDevice h k a = .ok h := by
  unfold attachDevice
  rw [hv]
  exact if_pos ht

theorem parsePortMessage_attach_created (E : Env) (h : QLegoDevice) (message : List Byte)
    (p : Byte) (a : Attachment) (h3 : byteAt message 3 = .ok p) (h4 : byteAt message 4 = .ok 1)
    (ha : createAttachment (portDeviceNum E message 1) p.val = some a) :
    parsePortMessage E h message = attachDevice h (p.val : Int) a := by
  simp [parsePortMessage, h3, h4, ha, bind, Except.bind]

theorem parsePortMessage_virtual_created (E : Env) (h : QLegoDevice) (message : List Byte)
    (v a b : Byte) (att : Attachment)
    (h3 : byteAt message 3 = .ok v) (h4 : byteAt message 4 = .ok 2)
    (h7 : byteAt message 7 = .ok a) (h8 : byteAt message 8 = .ok b)
    (hatt : createAttachment (portDeviceNum E message 2) v.val = some att) :
    parsePortMessage E h message
      = attachDevice
          { h with
            m_portMap := QMap.insert h.m_portMap
              (getPortNameForPortId h.m_portMap (E.charToInt a)
                ++ getPortNameForPortId h.m_portMap (E.charToInt b)) (v.val : Int)
            m_virtualPorts := h.m_virtualPorts ++ [(v.val : Int)] }
          (v.val : Int) att := by
  simp [parsePortMessage, h3, h4, h7, h8, hatt, bind, Except.bind]

theorem QMap.keys_insert_of_mem {V : Type} (m : List (Int × V)) (k : Int) (v : V)
    (hasc : QMap.Ascending m) (hk : k ∈ QMap.keys m) :
    QMap.keys (QMap.insert m k v) = QMap.keys m := by
  induction m with
  | nil => exact absurd hk (by simp [QMap.keys])
  | cons e rest ih =>
    have hpair : (∀ b ∈ QMap.keys rest, e.1 < b) ∧ QMap.Ascending rest := by
      simpa [QMap.Ascending, QMap.keys] using hasc
    have hmem : k = e.1 ∨ k ∈ QMap.keys rest := by
      simpa [QMap.keys] using hk
    unfold QMap.insert
    by_cases hlt : k < e.1
    · rcases hmem with heq | hin
      · omega
      · have := hpair.1 k hin
        omega
    · have hless : KeyOrder.less k e.1 = false := by
        simp [KeyOrder.less, hlt]
      simp only [hless, Bool.false_eq_true, if_false]
      by_cases heq : k = e.1
      · simp [heq, QMap.keys]
      · simp only [heq, if_false]
        rcases hmem with h1 | hin
        · exact absurd h1 heq
        · have := ih hpair.2 hin
          simp only [QMap.keys, List.map_cons] at this ⊢
          rw [this]

theorem createAttachment_some_at (t : DeviceType) (p : Nat) :
    ∃ a, createAttachment t p = some a ∧ a.type = t ∧ a.portId = (p : Int) := by
  unfold createAttachment
  split
  · exact ⟨_, rfl, rfl, rfl⟩
  · exact ⟨_, rfl, rfl, rfl⟩

theorem byteAt_of_lt (a : List Byte) (i : Nat) (hi : i < a.length) :
    ∃ b, byteAt a i = .ok b := by
  unfold byteAt
  cases hget : a.get? i with
  | none =>
    have := List.get?_eq_none.mp hget
    omega
  | some b => exact ⟨b, rfl⟩

theorem QMap.mem_keys_of_value {V : Type} (m : List (Int × V)) (k : Int) (w : V)
    (hv : QMap.value m k = some w) : k ∈ QMap.keys m := by
  have hmem := QMap.value_mem m k w hv
  exact List.mem_map.mpr ⟨(k, w), hmem, rfl⟩

/-! ## Lemmas about the reverse lookup in the Port Map -/

theorem QMap.value_append_of_mem {K V : Type} [DecidableEq K] (pre rest : List (K × V))
    (k : K) (hk : k ∈ QMap.keys pre) : QMap.value (pre ++ rest) k = QMap.value pre k := by
  induction pre with
  | nil => exact absurd hk (by simp [QMap.keys])
  | cons e tl ih =>
    by_cases he : e.1 = k
    · simp [QMap.value, List.find?, he]
    · have hin : k ∈ QMap.keys tl := by
        have : k = e.1 ∨ k ∈ QMap.keys tl := by simpa [QMap.keys] using hk
        rcases this with h1 | h1
        · exact absurd h1.symm he
        · exact h1
      have := ih hin
      simp only [QMap.value, List.cons_append, List.find?, he, decide_False] at this ⊢
      exact this

theorem QMap.value_append_of_not_mem {K V : Type} [DecidableEq K] (pre rest : List (K × V))
    (k : K) (hk : k ∉ QMap.keys pre) : QMap.value (pre ++ rest) k = QMap.value rest k := by
  induction pre with
  | nil => rfl
  | cons e tl ih =>
    have hne : e.1 ≠ k := fun h => hk (by simp [QMap.keys, h])
    have hnot : k ∉ QMap.keys tl := fun h => hk (by simp [QMap.keys] at h ⊢; exact Or.inr h)
    have := ih hnot
    simp only [QMap.value, List.cons_append, List.find?, hne, decide_False] at this ⊢
    exact this

theorem QMap.value_of_mem_keys {K V : Type} [DecidableEq K] (m : List (K × V)) (k : K)
    (hk : k ∈ QMap.keys m) : ∃ w, QMap.value m k = some w ∧ (k, w) ∈ m := by
  obtain ⟨e, he, hek⟩ := List.mem_map.mp hk
  obtain ⟨w, hw, hmem⟩ := QMap.value_of_mem m e he
  rw [hek] at hw hmem
  exact ⟨w, hw, hmem⟩

theorem QMap.remove_middle {V : Type} (pre post : List (String × V)) (name : String) (v : V)
    (hnodup : (QMap.keys (pre ++ (name, v) :: post)).Nodup) :
    QMap.remove (pre ++ (name, v) :: post) name = pre ++ post := by
  have hk : QMap.keys (pre ++ (name, v) :: post)
      = QMap.keys pre ++ name :: QMap.keys post := by simp [QMap.keys]
  rw [hk] at hnodup
  have hparts := List.nodup_append.mp hnodup
  have hpre : ∀ e ∈ pre, e.1 ≠ name := by
    intro e he heq
    exact hparts.2.2 (List.mem_map.mpr ⟨e, he, heq⟩) (by simp)
  have hpost : ∀ e ∈ post, e.1 ≠ name := by
    intro e he heq
    have hcons := List.nodup_cons.mp hparts.2.1
    exact hcons.1 (List.mem_map.mpr ⟨e, he, heq⟩)
  unfold QMap.remove
  rw [List.filter_append, List.filter_cons]
  have h1 : pre.filter (fun e => decide (e.1 ≠ name)) = pre :=
    List.filter_eq_self.mpr (fun e he => by simpa using hpre e he)
  have h2 : post.filter (fun e => decide (e.1 ≠ name)) = post :=
    List.filter_eq_self.mpr (fun e he => by simpa using hpost e he)
  rw [h1, h2]
  simp

/-! ## The claims about port events -/

/-- C1: chunk-boundary independence of `parseMessage`. For every byte sequence and every
split of it into consecutive chunks, delivering the chunks one call after the other to a hub
with an empty buffer gives the same outcome as delivering all bytes in one call: the same
final hub state, hence the same frames dispatched in the same order, the same residual
buffer and the same signals, or the same fault. Any fuel above the number of bytes suffices,
and with it the run returns. -/
theorem parseMessage_chunk_independent (E : Env) (h : QLegoDevice) (bytes : List Byte)
    (chunks : List (List Byte)) (fuel : Nat) (hbuf : h.m_messageBuffer = [])
    (hsplit : chunks.flatten = bytes) (hfuel : bytes.length < fuel) :
    feedChunks E fuel h chunks = parseMessage E fuel h bytes
      ∧ (parseMessage E fuel h bytes).isSome = true := by
  subst hsplit
  constructor
  · exact feedChunks_eq_parseMessage E fuel chunks h (Or.inl hbuf) (by rw [hbuf]; simpa using hfuel)
  · rw [parseMessage_eq_received]
    exact parseMessage_returns E fuel _ (by rw [QLegoDevice.received_buffer, hbuf]; simpa using hfuel)

theorem parseMessage_chunk_independent_witness :
    feedChunks littleEndianHost 17 QLegoDevice.construct
        [[9, 0, 4], [16, 2, 39, 0, 0, 1, 5], [0, 4, 16, 0, 7, 0]]
      = parseMessage littleEndianHost 17 QLegoDevice.construct
        [9, 0, 4, 16, 2, 39, 0, 0, 1, 5, 0, 4, 16, 0, 7, 0]
      ∧ (parseMessage littleEndianHost 17 QLegoDevice.construct
        [9, 0, 4, 16, 2, 39, 0, 0, 1, 5, 0, 4, 16, 0, 7, 0]).isSome = true :=
  parseMessage_chunk_independent littleEndianHost QLegoDevice.construct
    [9, 0, 4, 16, 2, 39, 0, 0, 1, 5, 0, 4, 16, 0, 7, 0]
    [[9, 0, 4], [16, 2, 39, 0, 0, 1, 5], [0, 4, 16, 0, 7, 0]] 17 rfl rfl (by decide)

/-- C2: a frame that carries its own length is not always followed by the dispatch of the
frames behind it. (1) The frames `03 00 04` and `03 00 00` both carry their own length, 3,
as first byte. Delivered together to a newly constructed hub, the first one reaches
`parsePortMessage`, which reads `message[3]` in a 3-byte array, against the assertion of
`QByteArray::operator[]`: the run ends in that fault and the second frame is not
dispatched. (2) On a hub whose Port Map names port A, `waitForDeviceByName("A")` before
any attach returns at once and leaves a null pointer in the registry at port 0; when the
attach frame for port 0 and the frame `03 00 00` are then delivered together, the attach
frame calls `type()` through that null pointer: the run ends there and `03 00 00` is not
dispatched. -/
theorem frames_behind_fault_not_dispatched :
    ((∀ f ∈ ([[3, 0, 4], [3, 0, 0]] : List (List Byte)),
          3 ≤ f.length ∧ (f.headD 0).val = f.length)
        ∧ QLegoDevice.construct.m_messageBuffer = []
        ∧ byteAt ([3, 0, 4] : List Byte) 3 = .error .indexOutOfRange
        ∧ parseMessage littleEndianHost 7 QLegoDevice.construct
            ([[3, 0, 4], [3, 0, 0]] : List (List Byte)).flatten
            = some (.error .indexOutOfRange)
        ∧ ¬ ∃ h1, parseMessage littleEndianHost 7 QLegoDevice.construct
              ([[3, 0, 4], [3, 0, 0]] : List (List Byte)).flatten = some (.ok h1)
            ∧ h1.dispatched = QLegoDevice.construct.dispatched ++ [[3, 0, 4], [3, 0, 0]]
            ∧ h1.m_messageBuffer = [])
      ∧ ((∀ f ∈ ([[15, 0, 4, 0, 1, 0x27, 0, 0, 0, 0, 0x10, 0, 0, 0, 0x10], [3, 0, 0]] :
            List (List Byte)), 3 ≤ f.length ∧ (f.headD 0).val = f.length)
        ∧ ∃ h, waitForDeviceByName_check hubWithPortsAB "A" = some (h, none)
          ∧ h.m_messageBuffer = []
          ∧ h.m_attachedDevices = [(0, none)]
          ∧ parseMessage littleEndianHost 19 h
              ([[15, 0, 4, 0, 1, 0x27, 0, 0, 0, 0, 0x10, 0, 0, 0, 0x10], [3, 0, 0]] :
                List (List Byte)).flatten = some (.error .nullPointer)) :=
  ⟨⟨by decide, rfl, rfl, rfl, fun ⟨_, hrun, _⟩ => by
      have hfault : parseMessage littleEndianHost 7 QLegoDevice.construct
          ([[3, 0, 4], [3, 0, 0]] : List (List Byte)).flatten
          = some (.error .indexOutOfRange) := rfl
      rw [hfault] at hrun
      cases hrun⟩,
    by decide, _, rfl, rfl, rfl, rfl⟩

/-- Frames that meet no fault are dispatched in wire order: let every frame of a list carry
its own length, at least 3, as first byte, and let `tail` be empty or an incomplete frame
(declared length above its number of bytes). If the run meets no fault (no decoder reads
outside its frame, no null record is used), then delivering the frames followed by `tail` in one call to a hub with an empty
buffer returns, with any fuel above the number of bytes; exactly the frames of the list
reach the `switch`, each once and in wire order, and the buffer holds exactly `tail`. -/
theorem parseMessage_frames_in_order (E : Env) (h : QLegoDevice) (frames : List (List Byte))
    (tail : List Byte) (fuel : Nat) (hbuf : h.m_messageBuffer = [])
    (hframes : ∀ f ∈ frames, 3 ≤ f.length ∧ (f.headD 0).val = f.length)
    (htail : tail = [] ∨ tail.length < (tail.headD 0).val)
    (hfuel : (frames.flatten ++ tail).length < fuel)
    (hnofault : ∀ e, parseMessage E fuel h (frames.flatten ++ tail) ≠ some (.error e)) :
    ∃ h1, parseMessage E fuel h (frames.flatten ++ tail) = some (.ok h1)
      ∧ h1.dispatched = h.dispatched ++ frames ∧ h1.m_messageBuffer = tail := by
  rw [parseMessage_eq_received] at hnofault ⊢
  have hb : (h.received (frames.flatten ++ tail)).m_messageBuffer = frames.flatten ++ tail := by
    rw [QLegoDevice.received_buffer, hbuf]; rfl
  exact parseMessage_frames E frames tail htail fuel _ hb hframes (by rw [hb]; exact hfuel)
    hnofault

theorem parseMessage_frames_in_order_witness :
    ∃ h1, parseMessage littleEndianHost 17 QLegoDevice.construct
        (([[9, 0, 4, 16, 2, 39, 0, 0, 1], [5, 0, 4, 16, 0]] : List (List Byte)).flatten
          ++ [7, 0]) = some (.ok h1)
      ∧ h1.dispatched = QLegoDevice.construct.dispatched
          ++ [[9, 0, 4, 16, 2, 39, 0, 0, 1], [5, 0, 4, 16, 0]]
      ∧ h1.m_messageBuffer = [7, 0] :=
  parseMessage_frames_in_order littleEndianHost QLegoDevice.construct
    [[9, 0, 4, 16, 2, 39, 0, 0, 1], [5, 0, 4, 16, 0]] [7, 0] 17 rfl (by decide)
    (Or.inr (by decide)) (by decide)
    (fun e he => by
      have hrun : ∃ h1, parseMessage littleEndianHost 17 QLegoDevice.construct
          (([[9, 0, 4, 16, 2, 39, 0, 0, 1], [5, 0, 4, 16, 0]] : List (List Byte)).flatten
            ++ [7, 0]) = some (.ok h1) := ⟨_, rfl⟩
      obtain ⟨h1, hok⟩ := hrun
      rw [hok] at he
      cases he)

/-- C3, as stated, fails: on a newly constructed hub (empty Port Map) the creation frame
for virtual port 16 synthesizes the empty name, and the detach frame for port 16 leaves the
entry ("", 16) in the Port Map, which was empty before the creation. -/
theorem virtual_port_create_then_detach_counterexample :
    ∃ h1 h2, parsePortMessage littleEndianHost QLegoDevice.construct
        [9, 0, 4, 16, 2, 39, 0, 0, 1] = .ok h1
      ∧ parsePortMessage littleEndianHost h1 [5, 0, 4, 16, 0] = .ok h2
      ∧ QLegoDevice.construct.m_portMap = []
      ∧ h2.m_portMap = [("", 16)]
      ∧ h2.m_portMap ≠ QLegoDevice.construct.m_portMap :=
  ⟨_, _, rfl, rfl, rfl, rfl, by decide⟩

/-- C3 (amended): let a creation frame (event 0x02) for virtual port id v name the
constituent ports a and b, and let the synthesized name, name(a) ++ name(b), be non-empty
and not yet a key of the Port Map; let no Port-Map entry have the value v, let v not be in
the virtual-ports set, and let the registry not store a null pointer at v. Then processing
the creation frame and then a detach frame (event 0x00) for v both return; after the
creation the Port Map maps the synthesized name to v, v is in the virtual-ports set and the
registry has an entry at v; after the detach the registry has no entry at v, and the Port
Map and the virtual-ports set are exactly those before the creation. -/
theorem virtual_port_create_then_detach (E : Env) (h : QLegoDevice)
    (create detach : List Byte) (v a b : Byte)
    (c3 : byteAt create 3 = .ok v) (c4 : byteAt create 4 = .ok 2)
    (c7 : byteAt create 7 = .ok a) (c8 : byteAt create 8 = .ok b)
    (d3 : byteAt detach 3 = .ok v) (d4 : byteAt detach 4 = .ok 0)
    (hname : getPortNameForPortId h.m_portMap (E.charToInt a)
      ++ getPortNameForPortId h.m_portMap (E.charToInt b) ≠ "")
    (hfresh : QMap.contains h.m_portMap (getPortNameForPortId h.m_portMap (E.charToInt a)
      ++ getPortNameForPortId h.m_portMap (E.charToInt b)) = false)
    (hval : ∀ e ∈ h.m_portMap, e.2 ≠ (v.val : Int))
    (hvp : (v.val : Int) ∉ h.m_virtualPorts)
    (hnn : QMap.value h.m_attachedDevices (v.val : Int) ≠ some none) :
    ∃ h1 h2, parsePortMessage E h create = .ok h1 ∧ parsePortMessage E h1 detach = .ok h2
      ∧ QMap.value h1.m_portMap (getPortNameForPortId h.m_portMap (E.charToInt a)
          ++ getPortNameForPortId h.m_portMap (E.charToInt b)) = some (v.val : Int)
      ∧ (v.val : Int) ∈ h1.m_virtualPorts
      ∧ QMap.contains h1.m_attachedDevices (v.val : Int) = true
      ∧ QMap.contains h2.m_attachedDevices (v.val : Int) = false
      ∧ h2.m_portMap = h.m_portMap ∧ h2.m_virtualPorts = h.m_virtualPorts := by
  obtain ⟨att, _, hcreate⟩ := parsePortMessage_virtual E h create v a b c3 c4 c7 c8
  obtain ⟨h1, hok⟩ := attachDevice_ok_of_not_null _ (v.val : Int) att
    (show QMap.value ({ h with
        m_portMap := QMap.insert h.m_portMap
          (getPortNameForPortId h.m_portMap (E.charToInt a)
            ++ getPortNameForPortId h.m_portMap (E.charToInt b)) (v.val : Int)
        m_virtualPorts := h.m_virtualPorts ++ [(v.val : Int)] } : QLegoDevice).m_attachedDevices
        (v.val : Int) ≠ some none from hnn)
  obtain ⟨hpm, hvps, x, hx⟩ := attachDevice_ok_frame _ _ _ _ hok
  simp only at hpm hvps
  obtain ⟨h2, hdet, hreg, _, hvp2, hpm2, _⟩ :=
    parsePortMessage_detach_present E h1 detach v (some x) d3 d4 hx
  have hmem : (v.val : Int) ∈ h1.m_virtualPorts := by rw [hvps]; simp
  have hnm : getPortNameForPortId h1.m_portMap (v.val : Int)
      = getPortNameForPortId h.m_portMap (E.charToInt a)
        ++ getPortNameForPortId h.m_portMap (E.charToInt b) := by
    rw [hpm]; exact getPortNameForPortId_insert _ _ _ hval
  refine ⟨h1, h2, by rw [hcreate, hok], hdet, ?_, hmem, ?_, ?_, ?_, ?_⟩
  · rw [hpm]; exact QMap.value_insert_self _ _ _
  · rw [QMap.contains_eq_isSome, hx]; rfl
  · rw [hreg]; exact QMap.contains_remove_self _ _
  · rw [hpm2, hnm, if_pos ⟨hmem, hname⟩, hpm]
    exact QMap.remove_insert_fresh _ _ _ hfresh
  · rw [hvp2, if_pos hmem, hvps]
    exact filter_append_fresh _ _ hvp

theorem virtual_port_create_then_detach_witness :
    ∃ h1 h2, parsePortMessage littleEndianHost hubWithPortsAB
        [9, 0, 4, 16, 2, 39, 0, 0, 1] = .ok h1
      ∧ parsePortMessage littleEndianHost h1 [5, 0, 4, 16, 0] = .ok h2
      ∧ QMap.value h1.m_portMap
          (getPortNameForPortId hubWithPortsAB.m_portMap (littleEndianHost.charToInt 0)
            ++ getPortNameForPortId hubWithPortsAB.m_portMap (littleEndianHost.charToInt 1))
          = some (((16 : Byte).val : Nat) : Int)
      ∧ (((16 : Byte).val : Nat) : Int) ∈ h1.m_virtualPorts
      ∧ QMap.contains h1.m_attachedDevices (((16 : Byte).val : Nat) : Int) = true
      ∧ QMap.contains h2.m_attachedDevices (((16 : Byte).val : Nat) : Int) = false
      ∧ h2.m_portMap = hubWithPortsAB.m_portMap
      ∧ h2.m_virtualPorts = hubWithPortsAB.m_virtualPorts :=
  virtual_port_create_then_detach littleEndianHost hubWithPortsAB
    [9, 0, 4, 16, 2, 39, 0, 0, 1] [5, 0, 4, 16, 0] 16 0 1 rfl rfl rfl rfl rfl rfl
    (by decide) (by decide) (by decide) (by decide) (by decide)

/-- Why C3 needs its side conditions, on the hub `hubWithPortsAB` and the creation frame for
virtual port 16 over the ports 0 and 1 (synthesized name "AB"), followed by the detach frame
for 16. If "AB" is already a key, its entry is lost; if an earlier key already has the value
16, that entry is removed and "AB" stays; if 16 is already in the virtual-ports set, it is
gone afterwards; if the registry stores a null pointer at 16, the creation ends in a
fault. -/
theorem virtual_port_create_then_detach_side_conditions :
    (∃ h1 h2, parsePortMessage littleEndianHost
          { hubWithPortsAB with m_portMap := [("A", 0), ("AB", 5), ("B", 1)] }
          [9, 0, 4, 16, 2, 39, 0, 0, 1] = .ok h1
        ∧ parsePortMessage littleEndianHost h1 [5, 0, 4, 16, 0] = .ok h2
        ∧ h2.m_portMap = [("A", 0), ("B", 1)])
      ∧ (∃ h1 h2, parsePortMessage littleEndianHost
          { hubWithPortsAB with m_portMap := [("9", 16), ("A", 0), ("B", 1)] }
          [9, 0, 4, 16, 2, 39, 0, 0, 1] = .ok h1
        ∧ parsePortMessage littleEndianHost h1 [5, 0, 4, 16, 0] = .ok h2
        ∧ h2.m_portMap = [("A", 0), ("AB", 16), ("B", 1)])
      ∧ (∃ h1 h2, parsePortMessage littleEndianHost
          { hubWithPortsAB with m_virtualPorts := [16] }
          [9, 0, 4, 16, 2, 39, 0, 0, 1] = .ok h1
        ∧ parsePortMessage littleEndianHost h1 [5, 0, 4, 16, 0] = .ok h2
        ∧ h2.m_virtualPorts = [])
      ∧ parsePortMessage littleEndianHost
          { hubWithPortsAB with m_attachedDevices := [(16, none)] }
          [9, 0, 4, 16, 2, 39, 0, 0, 1] = .error .nullPointer :=
  ⟨⟨_, _, rfl, rfl, rfl⟩, ⟨_, _, rfl, rfl, rfl⟩, ⟨_, _, rfl, rfl, rfl⟩, rfl⟩

/-- C4: idempotent attach. For an attach frame (event 0x01) for port id p: unless the
registry stores a null pointer at p, processing the frame returns a hub state; and whenever
it returns a state, processing the same frame again returns that very state: the registry,
the Port Map, the virtual-ports set and the emitted signals are those after the first
attach, so no further `deviceAttached` is emitted. -/
theorem attach_twice_idempotent (E : Env) (h : QLegoDevice) (message : List Byte) (p : Byte)
    (h3 : byteAt message 3 = .ok p) (h4 : byteAt message 4 = .ok 1) :
    (QMap.value h.m_attachedDevices (p.val : Int) ≠ some none →
        ∃ h1, parsePortMessage E h message = .ok h1)
      ∧ ∀ h1, parsePortMessage E h message = .ok h1 →
          parsePortMessage E h1 message = .ok h1 := by
  constructor
  · intro hnn
    obtain ⟨a, _, _, hp⟩ := parsePortMessage_attach E h message p h3 h4
    rw [hp]
    exact attachDevice_ok_of_not_null h _ a hnn
  · intro h1 hfirst
    obtain ⟨a, ha, _, e1⟩ := parsePortMessage_attach E h message p h3 h4
    obtain ⟨a2, ha2, _, e2⟩ := parsePortMessage_attach E h1 message p h3 h4
    have haa : a2 = a := by
      rw [ha] at ha2
      exact (Option.some.inj ha2).symm
    rw [e2, haa]
    rw [e1] at hfirst
    exact attachDevice_again h h1 _ a hfirst

theorem attach_twice_idempotent_witness :
    (QMap.value QLegoDevice.construct.m_attachedDevices (((0 : Byte).val : Nat) : Int)
        ≠ some none →
        ∃ h1, parsePortMessage littleEndianHost QLegoDevice.construct
          [15, 0, 4, 0, 1, 0x27, 0, 0, 0, 0, 0x10, 0, 0, 0, 0x10] = .ok h1)
      ∧ ∀ h1, parsePortMessage littleEndianHost QLegoDevice.construct
            [15, 0, 4, 0, 1, 0x27, 0, 0, 0, 0, 0x10, 0, 0, 0, 0x10] = .ok h1 →
          parsePortMessage littleEndianHost h1
            [15, 0, 4, 0, 1, 0x27, 0, 0, 0, 0, 0x10, 0, 0, 0, 0x10] = .ok h1 :=
  attach_twice_idempotent littleEndianHost QLegoDevice.construct
    [15, 0, 4, 0, 1, 0x27, 0, 0, 0, 0, 0x10, 0, 0, 0, 0x10] 0 rfl rfl

/-- C5: a detach frame (event 0x00) for a port id without a registry entry leaves the whole
hub state as it was: registry, Port Map, virtual-ports set, and no signal is emitted. -/
theorem detach_absent_port_unchanged (E : Env) (h : QLegoDevice) (message : List Byte)
    (p : Byte) (h3 : byteAt message 3 = .ok p) (h4 : byteAt message 4 = .ok 0)
    (habsent : QMap.contains h.m_attachedDevices (p.val : Int) = false) :
    parsePortMessage E h message = .ok h := by
  simp [parsePortMessage, h3, h4, habsent, bind, Except.bind, pure, Except.pure]

theorem detach_absent_port_unchanged_witness :
    QMap.contains QLegoDevice.construct.m_attachedDevices (((3 : Byte).val : Nat) : Int) = false
      ∧ parsePortMessage littleEndianHost QLegoDevice.construct [5, 0, 4, 3, 0]
          = .ok QLegoDevice.construct :=
  ⟨by decide, detach_absent_port_unchanged littleEndianHost QLegoDevice.construct
    [5, 0, 4, 3, 0] 3 rfl rfl (by decide)⟩

/-- C6: an attach frame (event 0x01) for port 0 whose decoded device type is 39, on a hub
with no registry entry at port 0, registers at port 0 a `QLegoMotor` object with
is-motor = true, is-sensor = false, attached = true, type 39 and port id 0, and emits exactly
one signal, `deviceAttached` with that object. -/
theorem attach_move_hub_motor_at_port_0 (E : Env) (h : QLegoDevice) (message : List Byte)
    (h3 : byteAt message 3 = .ok 0) (h4 : byteAt message 4 = .ok 1)
    (htype : portDeviceNum E message 1 = DeviceType.MoveHubMediumLinearMotor)
    (hfree : QMap.contains h.m_attachedDevices 0 = false) :
    ∃ h1 r, parsePortMessage E h message = .ok h1
      ∧ QMap.value h1.m_attachedDevices 0 = some (some r)
      ∧ (∃ m, r = .asMotor m)
      ∧ r.motor = true ∧ r.sensor = false ∧ r.attached = true
      ∧ r.type = DeviceType.MoveHubMediumLinearMotor ∧ r.portId = 0
      ∧ h1.emitted = h.emitted ++ [.deviceAttached (some r)] := by
  have hnone : QMap.value h.m_attachedDevices 0 = none := by
    have := QMap.contains_eq_isSome h.m_attachedDevices 0
    rw [hfree] at this
    cases hv : QMap.value h.m_attachedDevices 0 with
    | none => rfl
    | some v => rw [hv] at this; simp at this
  let r : Attachment := .asMotor (QLegoMotor.construct 39 0)
  let reg := QMap.insert h.m_attachedDevices 0 (some r)
  refine ⟨({ h with m_attachedDevices := reg }).emit (.deviceAttached (some r)), r,
    ?_, ?_, ⟨_, rfl⟩, rfl, rfl, rfl, rfl, rfl, ?_⟩
  · simp [parsePortMessage, h3, h4, htype, DeviceType.MoveHubMediumLinearMotor, createAttachment,
      attachDevice, hnone, bind, Except.bind, pure, Except.pure]
  · exact QMap.value_insert_self _ _ _
  · rfl

theorem attach_move_hub_motor_at_port_0_witness :
    ∃ h1 r, parsePortMessage littleEndianHost QLegoDevice.construct
        [15, 0, 4, 0, 1, 0x27, 0, 0, 0, 0, 0x10, 0, 0, 0, 0x10] = .ok h1
      ∧ QMap.value h1.m_attachedDevices 0 = some (some r)
      ∧ (∃ m, r = .asMotor m)
      ∧ r.motor = true ∧ r.sensor = false ∧ r.attached = true
      ∧ r.type = DeviceType.MoveHubMediumLinearMotor ∧ r.portId = 0
      ∧ h1.emitted = QLegoDevice.construct.emitted ++ [.deviceAttached (some r)] :=
  attach_move_hub_motor_at_port_0 littleEndianHost QLegoDevice.construct
    [15, 0, 4, 0, 1, 0x27, 0, 0, 0, 0, 0x10, 0, 0, 0, 0x10] rfl rfl (by decide) (by decide)

/-- C7, as stated, fails: on a little-endian host the frame with bytes 0x27, 0x00 at offsets
5 and 6 decodes to device type 39, not to the big-endian value 0x27 * 256 + 0 = 9984. -/
theorem portDeviceNum_big_endian_counterexample :
    ([15, 0, 4, 0, 1, 0x27, 0, 0, 0, 0, 0x10, 0, 0, 0, 0x10] : List Byte).get? 5 = some 0x27
      ∧ ([15, 0, 4, 0, 1, 0x27, 0, 0, 0, 0, 0x10, 0, 0, 0, 0x10] : List Byte).get? 6 = some 0
      ∧ portDeviceNum littleEndianHost
          [15, 0, 4, 0, 1, 0x27, 0, 0, 0, 0, 0x10, 0, 0, 0, 0x10] 1 = 39
      ∧ portDeviceNum littleEndianHost
          [15, 0, 4, 0, 1, 0x27, 0, 0, 0, 0, 0x10, 0, 0, 0, 0x10] 1 ≠ 0x27 * 256 + 0 := by
  refine ⟨rfl, rfl, by decide, by decide⟩

/-- C7 (amended): for a port message with a non-zero event byte and bytes b5, b6 at offsets
5 and 6, the device-type code is `qToBigEndian<quint16>` of the value b5 * 256 + b6 parsed
from the hex text: b6 * 256 + b5 on a little-endian host, b5 * 256 + b6 on a big-endian
host. -/
theorem portDeviceNum_of_host (E : Env) (message : List Byte) (event b5 b6 : Byte)
    (hev : event.val ≠ 0) (h5 : message.get? 5 = some b5) (h6 : message.get? 6 = some b6) :
    portDeviceNum E message event
      = if E.hostLittleEndian then b6.val * 256 + b5.val else b5.val * 256 + b6.val := by
  unfold portDeviceNum
  rw [mid_pair message 5 b5 b6 h5 h6, toUShort_toHex_pair]
  simp [hev, qToBigEndian16_pair]

theorem portDeviceNum_of_host_witness :
    portDeviceNum bigEndianHost [7, 0, 4, 1, 1, 0, 0x27] 1
      = if bigEndianHost.hostLittleEndian then (0x27 : Byte).val * 256 + (0 : Byte).val
        else (0 : Byte).val * 256 + (0x27 : Byte).val :=
  portDeviceNum_of_host bigEndianHost [7, 0, 4, 1, 1, 0, 0x27] 1 0 0x27 (by decide) rfl rfl

/-- C8, as stated, fails: code 1 (SimpleMediumLinearMotor) names a motor, and
`createAttachment` builds for it a plain `QLegoAttachedDevice` with is-motor = false. -/
theorem createAttachment_motor_named_counterexample :
    DeviceType.SimpleMediumLinearMotor ∈ motorNamedCodes
      ∧ createAttachment DeviceType.SimpleMediumLinearMotor 0
          = some (.plain (QLegoAttachedDevice.construct 1 0))
      ∧ (Attachment.plain (QLegoAttachedDevice.construct 1 0)).motor = false := by
  refine ⟨by decide, rfl, rfl⟩

/-- C8 (amended): `createAttachment` builds the motor specialization (a `QLegoMotor`,
is-motor = true) exactly for code 39, MoveHubMediumLinearMotor; for every other code, the
other motor-named codes included, it builds a plain record with is-motor = false. The record
always carries the given type code and port id. -/
theorem createAttachment_motor_iff (t : DeviceType) (p : Nat) :
    ∃ a, createAttachment t p = some a ∧ a.type = t ∧ a.portId = (p : Int)
      ∧ (a.motor = true ↔ t = DeviceType.MoveHubMediumLinearMotor)
      ∧ ((∃ m, a = .asMotor m) ↔ t = DeviceType.MoveHubMediumLinearMotor)
      ∧ (t ≠ DeviceType.MoveHubMediumLinearMotor →
          a = .plain (QLegoAttachedDevice.construct t p) ∧ a.motor = false) := by
  by_cases ht : t = 39
  · subst ht
    exact ⟨_, rfl, rfl, rfl, ⟨fun _ => rfl, fun _ => rfl⟩, ⟨fun _ => rfl, fun _ => ⟨_, rfl⟩⟩,
      fun hne => absurd rfl hne⟩
  · refine ⟨.plain (QLegoAttachedDevice.construct t p), ?_, rfl, rfl, ?_, ?_, fun _ => ⟨rfl, rfl⟩⟩
    · unfold createAttachment
      split
      · exact absurd rfl ht
      · rfl
    · constructor
      · intro hm
        simp [Attachment.motor, Attachment.device, QLegoAttachedDevice.construct] at hm
      · intro h39
        exact absurd h39 ht
    · constructor
      · rintro ⟨m, hm⟩
        cases hm
      · intro h39
        exact absurd h39 ht

/-- C9, as stated, fails: the creation frame for virtual port 16 on a newly constructed hub
synthesizes the Port-Map entry ("", 16); the detach frame for port 16 then removes the
registry entry and drops 16 from the virtual-ports set, and the synthesized entry stays in
the Port Map. -/
theorem detach_virtual_port_counterexample :
    parsePortMessage littleEndianHost QLegoDevice.construct [9, 0, 4, 16, 2, 39, 0, 0, 1]
        = .ok hubWithUnnamedVirtualPort
      ∧ QMap.value hubWithUnnamedVirtualPort.m_attachedDevices 16 = some (some motorAtPort16)
      ∧ (16 : Int) ∈ hubWithUnnamedVirtualPort.m_virtualPorts
      ∧ ∃ h2, parsePortMessage littleEndianHost hubWithUnnamedVirtualPort [5, 0, 4, 16, 0]
          = .ok h2
        ∧ QMap.contains h2.m_attachedDevices 16 = false
        ∧ (16 : Int) ∉ h2.m_virtualPorts
        ∧ QMap.value h2.m_portMap "" = some 16 :=
  ⟨rfl, rfl, by decide, _, rfl, rfl, by decide, rfl⟩

/-- C9 (amended): for a hub state in which port id p has the registry entry r, a detach
frame (event 0x00) for p returns a state in which p has no registry entry and every other
port id has the entry it had; exactly one signal is emitted, `deviceDetached` with r. If p
is not in the virtual-ports set, the Port Map and the virtual-ports set are unchanged. If p
is in the virtual-ports set, every occurrence of p is removed from that set, and the
Port-Map entry removed is the first one, in key order, whose value is p, provided its name
is not empty: when the Port Map (a map, one entry per name) is `pre ++ (name, p) :: post`
with no entry of `pre` having the value p, the Port Map afterwards is `pre ++ post` if
`name` is not empty and is unchanged if `name` is empty; when no entry has the value p, the
Port Map is unchanged. In terms of the lookup `getPortNameForPortId`: the name it returns
is no longer a key and all other names keep their values, and when it returns the empty
string the Port Map is unchanged. -/
theorem detach_present_port (E : Env) (h : QLegoDevice) (message : List Byte) (p : Byte)
    (r : Option Attachment)
    (h3 : byteAt message 3 = .ok p) (h4 : byteAt message 4 = .ok 0)
    (hv : QMap.value h.m_attachedDevices (p.val : Int) = some r) :
    ∃ h1, parsePortMessage E h message = .ok h1
      ∧ QMap.contains h1.m_attachedDevices (p.val : Int) = false
      ∧ (∀ q : Int, q ≠ (p.val : Int) →
          QMap.value h1.m_attachedDevices q = QMap.value h.m_attachedDevices q)
      ∧ h1.emitted = h.emitted ++ [.deviceDetached r]
      ∧ ((p.val : Int) ∉ h.m_virtualPorts →
          h1.m_portMap = h.m_portMap ∧ h1.m_virtualPorts = h.m_virtualPorts)
      ∧ ((p.val : Int) ∈ h.m_virtualPorts →
          h1.m_virtualPorts = h.m_virtualPorts.filter (fun q => decide (q ≠ (p.val : Int)))
          ∧ (p.val : Int) ∉ h1.m_virtualPorts
          ∧ (getPortNameForPortId h.m_portMap (p.val : Int) = "" →
              h1.m_portMap = h.m_portMap)
          ∧ (getPortNameForPortId h.m_portMap (p.val : Int) ≠ "" →
              QMap.contains h1.m_portMap (getPortNameForPortId h.m_portMap (p.val : Int))
                = false
              ∧ ∀ name : String, name ≠ getPortNameForPortId h.m_portMap (p.val : Int) →
                  QMap.value h1.m_portMap name = QMap.value h.m_portMap name)
          ∧ ((∀ e ∈ h.m_portMap, e.2 ≠ (p.val : Int)) → h1.m_portMap = h.m_portMap)
          ∧ (∀ (pre post : List (String × Int)) (name : String),
              h.m_portMap = pre ++ (name, (p.val : Int)) :: post →
              (QMap.keys h.m_portMap).Nodup →
              (∀ e ∈ pre, e.2 ≠ (p.val : Int)) →
              getPortNameForPortId h.m_portMap (p.val : Int) = name
                ∧ h1.m_portMap = if name = "" then h.m_portMap else pre ++ post)) := by
  obtain ⟨h1, hdet, hreg, hem, hvps, hpm, _⟩ :=
    parsePortMessage_detach_present E h message p r h3 h4 hv
  refine ⟨h1, hdet, ?_, ?_, hem, ?_, ?_⟩
  · rw [hreg]; exact QMap.contains_remove_self _ _
  · intro q hq
    rw [hreg]; exact QMap.value_remove_other _ _ _ hq
  · intro hnot
    rw [hpm, hvps, if_neg hnot, if_neg (fun hh => hnot hh.1)]
    exact ⟨rfl, rfl⟩
  · intro hmem
    rw [hvps, if_pos hmem]
    refine ⟨rfl, ?_, ?_, ?_, ?_, ?_⟩
    · simp
    · intro hempty
      rw [hpm, if_neg (fun hh => hh.2 hempty)]
    · intro hne
      rw [hpm, if_pos ⟨hmem, hne⟩]
      exact ⟨QMap.contains_remove_self _ _, fun name hn => QMap.value_remove_other _ _ _ hn⟩
    · intro hno
      have hfind : (QMap.keys h.m_portMap).find?
          (fun key => decide ((QMap.value h.m_portMap key).getD 0 = (p.val : Int))) = none := by
        rw [List.find?_eq_none]
        intro key hkey
        obtain ⟨w, hw, hin⟩ := QMap.value_of_mem_keys h.m_portMap key hkey
        rw [hw]
        have := hno (key, w) hin
        simpa using this
      have habsent : getPortNameForPortId h.m_portMap (p.val : Int) = "" := by
        unfold getPortNameForPortId
        rw [hfind]
      rw [hpm, if_neg (fun hh => hh.2 habsent)]
    · intro pre post name hsplit hnodup hfirst
      have hkeys : QMap.keys h.m_portMap = QMap.keys pre ++ name :: QMap.keys post := by
        rw [hsplit]
        simp [QMap.keys]
      have hfresh : name ∉ QMap.keys pre := by
        intro hin
        rw [hkeys] at hnodup
        exact (List.nodup_append.mp hnodup).2.2 hin (by simp)
      have hfind : (QMap.keys h.m_portMap).find?
          (fun key => decide ((QMap.value h.m_portMap key).getD 0 = (p.val : Int)))
          = some name := by
        rw [hkeys, List.find?_append]
        have hpre : (QMap.keys pre).find?
            (fun key => decide ((QMap.value h.m_portMap key).getD 0 = (p.val : Int)))
            = none := by
          rw [List.find?_eq_none]
          intro key hkey
          obtain ⟨w, hw, hin⟩ := QMap.value_of_mem_keys pre key hkey
          rw [hsplit, QMap.value_append_of_mem pre _ key hkey, hw]
          have := hfirst (key, w) hin
          simpa using this
        rw [hpre]
        have hval : QMap.value h.m_portMap name = some (p.val : Int) := by
          rw [hsplit, QMap.value_append_of_not_mem pre _ name hfresh]
          simp [QMap.value, List.find?]
        simp [List.find?, hval]
      have hname : getPortNameForPortId h.m_portMap (p.val : Int) = name := by
        unfold getPortNameForPortId
        rw [hfind]
      refine ⟨hname, ?_⟩
      rw [hpm, hname]
      by_cases hempty : name = ""
      · rw [if_neg (fun hh => hh.2 hempty), if_pos hempty]
      · rw [if_pos ⟨hmem, hempty⟩, if_neg hempty]
        rw [hsplit] at hnodup ⊢
        exact QMap.remove_middle pre post name _ hnodup

/-- The hub `hubWithTwoNamesForPort16`, reached from `hubWithPortsAB` by two creation
frames, and the detach frame `05 00 04 10 00` for the virtual port 16: of the two names with
the value 16, the first in key order, "AB", is removed and "BA" stays. -/
theorem detach_present_port_witness :
    processPortFrames littleEndianHost hubWithPortsAB
        [[9, 0, 4, 16, 2, 39, 0, 0, 1], [9, 0, 4, 16, 2, 39, 0, 1, 0]]
        = .ok hubWithTwoNamesForPort16
      ∧ QMap.value hubWithTwoNamesForPort16.m_attachedDevices (((16 : Byte).val : Nat) : Int)
          = some (some motorAtPort16)
      ∧ ∃ h1, parsePortMessage littleEndianHost hubWithTwoNamesForPort16 [5, 0, 4, 16, 0]
          = .ok h1
        ∧ QMap.contains h1.m_attachedDevices 16 = false
        ∧ h1.emitted
            = hubWithTwoNamesForPort16.emitted ++ [.deviceDetached (some motorAtPort16)]
        ∧ h1.m_virtualPorts = []
        ∧ getPortNameForPortId hubWithTwoNamesForPort16.m_portMap 16 = "AB"
        ∧ h1.m_portMap = [("A", 0), ("B", 1), ("BA", 16)]
        ∧ QMap.value h1.m_portMap "AB" = none
        ∧ QMap.value h1.m_portMap "BA" = some 16 :=
  ⟨rfl, rfl,
    match detach_present_port littleEndianHost hubWithTwoNamesForPort16 [5, 0, 4, 16, 0] 16
      (some motorAtPort16) rfl rfl rfl with
    | ⟨h1, hrun, hgone, _, hem, _, hvirtual⟩ =>
      ⟨h1, hrun, hgone, hem, (hvirtual (by decide)).1,
        ((hvirtual (by decide)).2.2.2.2.2 [("A", 0)] [("B", 1), ("BA", 16)] "AB" rfl
          (by decide) (by decide)).1,
        ((hvirtual (by decide)).2.2.2.2.2 [("A", 0)] [("B", 1), ("BA", 16)] "AB" rfl
          (by decide) (by decide)).2,
        (by
          have hrun2 : parsePortMessage littleEndianHost hubWithTwoNamesForPort16
              [5, 0, 4, 16, 0]
              = .ok { hubWithTwoNamesForPort16 with
                  m_portMap := [("A", 0), ("B", 1), ("BA", 16)]
                  m_virtualPorts := []
                  m_attachedDevices := []
                  emitted := [.deviceAttached (some motorAtPort16),
                    .deviceDetached (some motorAtPort16)] } := rfl
          rw [hrun2] at hrun
          rw [← Except.ok.inj hrun]
          rfl),
        (by
          have hrun2 : parsePortMessage littleEndianHost hubWithTwoNamesForPort16
              [5, 0, 4, 16, 0]
              = .ok { hubWithTwoNamesForPort16 with
                  m_portMap := [("A", 0), ("B", 1), ("BA", 16)]
                  m_virtualPorts := []
                  m_attachedDevices := []
                  emitted := [.deviceAttached (some motorAtPort16),
                    .deviceDetached (some motorAtPort16)] } := rfl
          rw [hrun2] at hrun
          rw [← Except.ok.inj hrun]
          rfl)⟩⟩

/-- C10: the code never clears the attached flag on detach. After the attach frame for a
type-39 motor at port 0, the detach frame for port 0 emits `deviceDetached` with a record
whose attached flag is still true. -/
theorem detach_keeps_attached_flag :
    ∃ h1 h2 r, parsePortMessage littleEndianHost QLegoDevice.construct
        [15, 0, 4, 0, 1, 0x27, 0, 0, 0, 0, 0x10, 0, 0, 0, 0x10] = .ok h1
      ∧ QMap.value h1.m_attachedDevices 0 = some (some r)
      ∧ parsePortMessage littleEndianHost h1 [5, 0, 4, 0, 0] = .ok h2
      ∧ h2.emitted.getLast? = some (.deviceDetached (some r))
      ∧ QMap.contains h2.m_attachedDevices 0 = false
      ∧ r.attached = true :=
  ⟨_, _, _, rfl, rfl, rfl, rfl, rfl, rfl⟩

/-! ## The claims about virtual ports -/

/-- C11: the constituent port ids are passed to the name lookup as `char`, so where `char`
is signed, an id of 128 or more is looked up as a negative number and never found. On a
hub with the ports A (0) and B (1), the creation frame for virtual port 200 over the ports
0 and 1 makes the Port Map name "AB" for 200; the next creation frame, for virtual port 201
over the ports 200 and 1, should synthesize "ABB". With signed `char` the first name
resolves to the empty string: no key "ABB" appears and the entry of port B is overwritten
with 201. With unsigned `char` the same frames give "ABB" for 201. -/
theorem virtual_port_name_sign_extension :
    ∃ h1 h2 h3, parsePortMessage littleEndianHost hubWithPortsAB
        [9, 0, 4, 200, 2, 39, 0, 0, 1] = .ok h1
      ∧ h1.m_portMap = [("A", 0), ("AB", 200), ("B", 1)]
      ∧ getPortNameForPortId h1.m_portMap 200 ++ getPortNameForPortId h1.m_portMap 1 = "ABB"
      ∧ littleEndianHost.charToInt 200 = -56
      ∧ getPortNameForPortId h1.m_portMap (littleEndianHost.charToInt 200) = ""
      ∧ parsePortMessage littleEndianHost h1 [9, 0, 4, 201, 2, 39, 0, 200, 1] = .ok h2
      ∧ h2.m_portMap = [("A", 0), ("AB", 200), ("B", 201)]
      ∧ QMap.value h2.m_portMap "ABB" = none
      ∧ parsePortMessage bigEndianHost h1 [9, 0, 4, 201, 2, 39, 0, 200, 1] = .ok h3
      ∧ h3.m_portMap = [("A", 0), ("AB", 200), ("ABB", 201), ("B", 1)] :=
  ⟨_, _, _, rfl, rfl, by decide, by decide, by decide, rfl, rfl, by decide, rfl, rfl⟩

/-- C12, as stated, fails: on a newly constructed hub (empty Port Map) two creation frames,
for the virtual ports 16 and 17, both synthesize the empty name. After them port 16 is still
registered and tracked in the virtual-ports set, and no Port-Map entry has the value 16: the
entry was overwritten with 17. -/
theorem virtual_ports_tracked_counterexample :
    ∃ t, runPortFrames littleEndianHost (Tracked.start QLegoDevice.construct)
        [[9, 0, 4, 16, 2, 39, 0, 0, 1], [9, 0, 4, 17, 2, 39, 0, 0, 1]] = .ok t
      ∧ processPortFrames littleEndianHost QLegoDevice.construct
        [[9, 0, 4, 16, 2, 39, 0, 0, 1], [9, 0, 4, 17, 2, 39, 0, 0, 1]] = .ok t.hub
      ∧ t.created = [(17, ""), (16, "")]
      ∧ QMap.contains t.hub.m_attachedDevices 16 = true
      ∧ (16 : Int) ∈ t.hub.m_virtualPorts
      ∧ t.hub.m_portMap = [("", 17)]
      ∧ ∀ e ∈ t.hub.m_portMap, e.2 ≠ 16 :=
  ⟨_, rfl, rfl, rfl, rfl, by decide, rfl, by decide⟩

/-- C12 (amended): in every hub state reached from any start state by a sequence of port
message frames processed without fault, every port id that was registered by a virtual-port
creation and whose registry entry was not removed since has a registry entry and is in the
virtual-ports set; and the Port Map maps its synthesized name to it, provided no creation of
the sequence synthesized a name that was already a key of the Port Map. The hub of the
tracked run is the state `parsePortMessage` alone reaches. -/
theorem virtual_ports_tracked (E : Env) (h0 : QLegoDevice) (frames : List (List Byte))
    (t : Tracked) (hrun : runPortFrames E (Tracked.start h0) frames = .ok t) :
    processPortFrames E h0 frames = .ok t.hub
      ∧ ∀ c ∈ t.created, QMap.contains t.hub.m_attachedDevices c.1 = true
        ∧ c.1 ∈ t.hub.m_virtualPorts
        ∧ (t.nameReused = false → QMap.value t.hub.m_portMap c.2 = some c.1) := by
  refine ⟨runPortFrames_hub E frames (Tracked.start h0) t hrun, ?_⟩
  have hstart : (Tracked.start h0).Consistent := by
    intro c hc
    cases hc
  exact runPortFrames_consistent E frames (Tracked.start h0) t hstart hrun

/-- The hub `hubWithPortsAB` after four port messages: creation of virtual port 16 over the
ports 0 and 1, attach of a motor at port 0, detach of port 16, creation of port 16 again. -/
theorem virtual_ports_tracked_witness :
    ∃ t, runPortFrames littleEndianHost (Tracked.start hubWithPortsAB)
        [[9, 0, 4, 16, 2, 39, 0, 0, 1],
         [15, 0, 4, 0, 1, 0x27, 0, 0, 0, 0, 0x10, 0, 0, 0, 0x10],
         [5, 0, 4, 16, 0], [9, 0, 4, 16, 2, 39, 0, 0, 1]] = .ok t
      ∧ t.created = [(16, "AB")] ∧ t.nameReused = false
      ∧ processPortFrames littleEndianHost hubWithPortsAB
        [[9, 0, 4, 16, 2, 39, 0, 0, 1],
         [15, 0, 4, 0, 1, 0x27, 0, 0, 0, 0, 0x10, 0, 0, 0, 0x10],
         [5, 0, 4, 16, 0], [9, 0, 4, 16, 2, 39, 0, 0, 1]] = .ok t.hub
      ∧ ∀ c ∈ t.created, QMap.contains t.hub.m_attachedDevices c.1 = true
        ∧ c.1 ∈ t.hub.m_virtualPorts
        ∧ (t.nameReused = false → QMap.value t.hub.m_portMap c.2 = some c.1) :=
  ⟨_, rfl, rfl, rfl, virtual_ports_tracked littleEndianHost hubWithPortsAB
    [[9, 0, 4, 16, 2, 39, 0, 0, 1],
     [15, 0, 4, 0, 1, 0x27, 0, 0, 0, 0, 0x10, 0, 0, 0, 0x10],
     [5, 0, 4, 16, 0], [9, 0, 4, 16, 2, 39, 0, 0, 1]] _ rfl⟩

/-! ## The claims about the dispatcher and the hub-property decoder -/

/-- C13: the decoders read fixed offsets without a bounds check, so short frames are not
dropped. On a newly constructed hub: the complete 5-byte hub-property frame `05 00 01 0d 00`
sets the address to the empty string; the 5-byte frame `05 00 01 06 00` takes the terminator
behind the frame as battery level 0 and emits `batteryLevel(0)`; the 4-byte port message
`04 00 04 07` reads `message[4]`, the 8-byte creation frame reads `message[8]` and the 1-byte
frame `01` reads `msg[2]`, each outside the frame, and the run ends in a fault. -/
theorem short_frames_not_dropped :
    (∃ h1, parseMessage littleEndianHost 2 QLegoDevice.construct [5, 0, 1, 0x0D, 0]
        = some (.ok h1)
      ∧ h1.m_address = "" ∧ QLegoDevice.construct.m_address = "00:00:00:00:00:00")
      ∧ (∃ h1, parseMessage littleEndianHost 2 QLegoDevice.construct [5, 0, 1, 6, 0]
          = some (.ok h1)
        ∧ constDataAt ([5, 0, 1, 6, 0] : List Byte) 5 = .ok 0
        ∧ h1.m_battery = 0 ∧ QLegoDevice.construct.m_battery = 100
        ∧ h1.emitted = [.batteryLevel 0])
      ∧ (byteAt ([4, 0, 4, 7] : List Byte) 4 = .error .indexOutOfRange
        ∧ parseMessage littleEndianHost 2 QLegoDevice.construct [4, 0, 4, 7]
          = some (.error .indexOutOfRange))
      ∧ (byteAt ([8, 0, 4, 16, 2, 39, 0, 0] : List Byte) 8 = .error .indexOutOfRange
        ∧ parseMessage littleEndianHost 2 QLegoDevice.construct [8, 0, 4, 16, 2, 39, 0, 0]
          = some (.error .indexOutOfRange))
      ∧ (constDataAt ([1] : List Byte) 2 = .error .indexOutOfRange
        ∧ parseMessage littleEndianHost 2 QLegoDevice.construct [1]
          = some (.error .indexOutOfRange)) :=
  ⟨⟨_, rfl, rfl, rfl⟩, ⟨_, rfl, rfl, rfl, rfl, rfl⟩, ⟨rfl, rfl⟩, ⟨rfl, rfl⟩, ⟨rfl, rfl⟩⟩

/-- C14: let `frame` be a complete frame (its first byte is its length) whose command byte
at offset 2 is none of 0x01, 0x04, 0x43, 0x44, 0x45, 0x82, delivered to a hub with an empty
buffer together with the bytes `rest` behind it. `parseMessage` takes the frame off the
buffer, records it as dispatched and changes nothing else: it goes on with `rest` from a
state that differs from the old one only in the buffer and the trace; when `rest` is empty
or an incomplete frame, that state is the result, so hub properties, Port Map,
virtual-ports set and registry are unchanged and no signal is emitted. -/
theorem unknown_command_ignored (E : Env) (h : QLegoDevice) (frame rest : List Byte)
    (cmd : Byte) (fuel : Nat) (hbuf : h.m_messageBuffer = [])
    (hlen : (frame.headD 0).val = frame.length) (hcmd : frame.get? 2 = some cmd)
    (hunknown : cmd.val ≠ 0x01 ∧ cmd.val ≠ 0x04 ∧ cmd.val ≠ 0x43 ∧ cmd.val ≠ 0x44
      ∧ cmd.val ≠ 0x45 ∧ cmd.val ≠ 0x82) :
    parseMessage E (fuel + 1) h (frame ++ rest)
        = (if rest.length > 0 then
            parseMessage E fuel
              { h with m_messageBuffer := rest, dispatched := h.dispatched ++ [frame] } []
          else some (.ok { h with m_messageBuffer := rest, dispatched := h.dispatched ++ [frame] }))
      ∧ ((rest = [] ∨ rest.length < (rest.headD 0).val) → 1 ≤ fuel →
          parseMessage E (fuel + 1) h (frame ++ rest)
            = some (.ok { h with m_messageBuffer := rest, dispatched := h.dispatched ++ [frame] })) := by
  have hstep : parseMessage E (fuel + 1) h (frame ++ rest)
        = (if rest.length > 0 then
            parseMessage E fuel
              { h with m_messageBuffer := rest, dispatched := h.dispatched ++ [frame] } []
          else some (.ok { h with m_messageBuffer := rest, dispatched := h.dispatched ++ [frame] })) := by
    cases frame with
    | nil => simp at hcmd
    | cons x f2 =>
      simp only [List.headD_cons] at hlen
      rw [parseMessage_eq_received]
      have hb2 : (h.received (x :: f2 ++ rest)).m_messageBuffer = x :: (f2 ++ rest) := by
        rw [QLegoDevice.received_buffer, hbuf]; rfl
      have hle : x.val ≤ (x :: (f2 ++ rest)).length := by
        rw [hlen]; simp
      have htake : (x :: (f2 ++ rest)).take x.val = x :: f2 := by
        rw [hlen, ← List.cons_append]
        exact List.take_left' rfl
      have hdrop : (x :: (f2 ++ rest)).drop x.val = rest := by
        rw [hlen, ← List.cons_append]
        exact List.drop_left' rfl
      rw [parseMessage_complete E fuel _ x _ hb2 hle, htake, hdrop]
      unfold dispatchFrame
      rw [constDataAt_of_get _ _ _ hcmd]
      simp only
      rw [dispatch_unknown E _ cmd _ hunknown]
      rfl
  refine ⟨hstep, fun hq hfuel => ?_⟩
  rw [hstep]
  by_cases hz : rest.length > 0
  · rw [if_pos hz]
    obtain ⟨n, rfl⟩ : ∃ n, fuel = n + 1 := ⟨fuel - 1, by omega⟩
    apply parseMessage_quiescent
    rcases hq with hq | hq
    · exact Or.inl hq
    · exact Or.inr hq
  · rw [if_neg hz]

theorem unknown_command_ignored_witness :
    parseMessage littleEndianHost (1 + 1) QLegoDevice.construct
          ([5, 0, 0x47, 1, 2] ++ [7, 0])
        = (if ([7, 0] : List Byte).length > 0 then
            parseMessage littleEndianHost 1
              { QLegoDevice.construct with
                m_messageBuffer := [7, 0]
                dispatched := QLegoDevice.construct.dispatched ++ [[5, 0, 0x47, 1, 2]] } []
          else some (.ok { QLegoDevice.construct with
                m_messageBuffer := [7, 0]
                dispatched := QLegoDevice.construct.dispatched ++ [[5, 0, 0x47, 1, 2]] }))
      ∧ ((([7, 0] : List Byte) = [] ∨ ([7, 0] : List Byte).length
            < (([7, 0] : List Byte).headD 0).val) → 1 ≤ 1 →
          parseMessage littleEndianHost (1 + 1) QLegoDevice.construct
              ([5, 0, 0x47, 1, 2] ++ [7, 0])
            = some (.ok { QLegoDevice.construct with
                m_messageBuffer := [7, 0]
                dispatched := QLegoDevice.construct.dispatched ++ [[5, 0, 0x47, 1, 2]] })) :=
  unknown_command_ignored littleEndianHost QLegoDevice.construct [5, 0, 0x47, 1, 2] [7, 0]
    0x47 1 rfl rfl rfl (by decide)

/-- C15, as stated, fails: for the RSSI frame with payload bytes 0xff, 0xc5 the signed 8-bit
value carried by 0xffc5 is -59, not zero, and the rssi of the hub stays at -60: `toShort`
rejects a number above 0x7fff, so the decode yields zero. -/
theorem rssi_decode_counterexample :
    ([7, 0, 1, 5, 6, 0xFF, 0xC5] : List Byte).get? 5 = some 0xFF
      ∧ ([7, 0, 1, 5, 6, 0xFF, 0xC5] : List Byte).get? 6 = some 0xC5
      ∧ qToBigEndian8 (0xFF * 256 + 0xC5) = -59
      ∧ toShort (toHex (mid [7, 0, 1, 5, 6, 0xFF, 0xC5] 5 2)) = (0, false)
      ∧ QLegoDevice.construct.m_rssi = -60
      ∧ parseHubPropertyResponse littleEndianHost QLegoDevice.construct
          [7, 0, 1, 5, 6, 0xFF, 0xC5] = .ok QLegoDevice.construct := by
  refine ⟨rfl, rfl, by decide, by decide, rfl, rfl⟩

/-- C15 (amended): for a hub-property response frame with property id 0x05 and payload
bytes b5, b6 at offsets 5 and 6: when b5 is below 0x80, the decoded value is the byte b6
read as a signed 8-bit number (the low byte of b5 * 256 + b6); if it is non-zero the rssi of
the hub becomes it, if it is zero the rssi is left unchanged. When b5 is 0x80 or above, the
conversion of the hex text fails and the rssi is left unchanged. Nothing else changes and no
signal is emitted. -/
theorem rssi_decode (E : Env) (h : QLegoDevice) (message : List Byte) (b5 b6 : Byte)
    (h3 : byteAt message 3 = .ok 5) (h5 : message.get? 5 = some b5)
    (h6 : message.get? 6 = some b6) :
    parseHubPropertyResponse E h message
      = .ok (if b5.val < 128 ∧ b6.val ≠ 0 then
          { h with m_rssi := if b6.val < 128 then (b6.val : Int) else (b6.val : Int) - 256 }
        else h) := by
  have hb5 := b5.isLt
  have hb6 := b6.isLt
  have hreport : E.charToInt 5 = 5 := by
    have hv : (5 : Byte).val = 5 := rfl
    unfold Env.charToInt
    rw [hv]
    simp
  unfold parseHubPropertyResponse
  rw [h3]
  simp only [bind, Except.bind, hreport, pure, Except.pure]
  rw [mid_pair message 5 b5 b6 h5 h6, toShort_toHex_pair]
  by_cases hfit : b5.val * 256 + b6.val ≤ 32767
  · have hlt : b5.val < 128 := by omega
    simp only [hfit, if_true, qToBigEndian8_pair]
    by_cases hz : b6.val = 0
    · simp [hz, hlt]
    · have hnz : (if b6.val < 128 then (b6.val : Int) else (b6.val : Int) - 256) ≠ 0 := by
        split <;> omega
      simp [hz, hlt, hnz]
  · have hge : ¬ b5.val < 128 := by omega
    simp [hfit, hge]

theorem rssi_decode_witness :
    parseHubPropertyResponse littleEndianHost QLegoDevice.construct [7, 0, 1, 5, 6, 0, 0xC5]
      = .ok (if (0 : Byte).val < 128 ∧ (0xC5 : Byte).val ≠ 0 then
          { QLegoDevice.construct with
            m_rssi := if (0xC5 : Byte).val < 128 then ((0xC5 : Byte).val : Int)
              else ((0xC5 : Byte).val : Int) - 256 }
        else QLegoDevice.construct) :=
  rssi_decode littleEndianHost QLegoDevice.construct [7, 0, 1, 5, 6, 0, 0xC5] 0 0xC5
    rfl rfl rfl

/-! ## The claims about outbound commands -/

/-- C16, as stated, fails: for a payload of 254 bytes `send` writes a frame of 256 bytes
whose first byte is 0, because the size is kept in a `quint8`. -/
theorem send_length_byte_counterexample :
    (List.replicate 254 (7 : Byte)).length = 254
      ∧ send (List.replicate 254 7) = 0 :: 0 :: List.replicate 254 7
      ∧ (send (List.replicate 254 7)).length = 256
      ∧ (send (List.replicate 254 7)).head? = some 0
      ∧ ((0 : Byte).val ≠ (send (List.replicate 254 7)).length) := by
  have hsend : send (List.replicate 254 (7 : Byte)) = 0 :: 0 :: List.replicate 254 7 := by
    rw [send_eq]
    simp only [List.length_replicate]
    rfl
  refine ⟨List.length_replicate _ _, hsend, ?_, ?_, ?_⟩
  · rw [hsend]; simp only [List.length_cons, List.length_replicate]
  · rw [hsend]; rfl
  · rw [hsend]; simp only [List.length_cons, List.length_replicate]; decide

/-- C16 (amended): for every payload b, `send` hands the transport exactly the bytes
[(len(b) + 2) mod 256, 0x00] ++ b; for a payload of at most 253 bytes the first byte is
len(b) + 2, the total number of bytes of the frame written, header included. -/
theorem send_frame (b : List Byte) :
    send b = (Fin.ofNat (b.length + 2) : Byte) :: 0 :: b
      ∧ (Fin.ofNat (b.length + 2) : Byte).val = (b.length + 2) % 256
      ∧ (b.length ≤ 253 →
          (Fin.ofNat (b.length + 2) : Byte).val = b.length + 2
          ∧ (Fin.ofNat (b.length + 2) : Byte).val = (send b).length) := by
  refine ⟨send_eq b, rfl, fun hlen => ?_⟩
  have hmod : (Fin.ofNat (b.length + 2) : Byte).val = b.length + 2 := by
    simp only [Fin.ofNat]
    exact Nat.mod_eq_of_lt (by omega)
  refine ⟨hmod, ?_⟩
  rw [hmod, send_eq]
  simp

/-- C17: direct-write round trip. For every attached device with port id q, every mode m and
every payload p of at most 250 bytes, `writeDirect(m, p)` emits `command` with exactly the
bytes [0x81, q, 0x11, 0x51, m] ++ p: their number is len(p) + 5, the first is the command
byte 0x81 and the second is the port id q of the device. -/
theorem writeDirect_round_trip (d : QLegoAttachedDevice) (q m : Byte) (p : List Byte)
    (hq : d.m_portId = q.val) (hp : p.length ≤ 250) :
    d.writeDirect m p = [0x81, q, 0x11, 0x51, m] ++ p
      ∧ (d.writeDirect m p).length = p.length + 5
      ∧ (d.writeDirect m p).get? 0 = some 0x81
      ∧ (d.writeDirect m p).get? 1 = some q
      ∧ p.length + 5 ≤ 255 := by
  have hport : (Fin.ofNat d.m_portId : Byte) = q := by
    rw [hq]
    apply Fin.ext
    simp only [Fin.ofNat]
    exact Nat.mod_eq_of_lt q.isLt
  have hcmd : d.writeDirect m p = [0x81, q, 0x11, 0x51, m] ++ p := by
    rw [writeDirect_eq, hport]
    rfl
  refine ⟨hcmd, ?_, ?_, ?_, by omega⟩
  · rw [hcmd]; simp
  · rw [hcmd]; rfl
  · rw [hcmd]; rfl

theorem writeDirect_round_trip_witness :
    (QLegoAttachedDevice.construct DeviceType.MoveHubMediumLinearMotor 1).writeDirect 0 [50]
        = [0x81, 1, 0x11, 0x51, 0] ++ [50]
      ∧ ((QLegoAttachedDevice.construct DeviceType.MoveHubMediumLinearMotor 1).writeDirect
          0 [50]).length = ([50] : List Byte).length + 5
      ∧ ((QLegoAttachedDevice.construct DeviceType.MoveHubMediumLinearMotor 1).writeDirect
          0 [50]).get? 0 = some 0x81
      ∧ ((QLegoAttachedDevice.construct DeviceType.MoveHubMediumLinearMotor 1).writeDirect
          0 [50]).get? 1 = some 1
      ∧ ([50] : List Byte).length + 5 ≤ 255 :=
  writeDirect_round_trip (QLegoAttachedDevice.construct DeviceType.MoveHubMediumLinearMotor 1)
    1 0 [50] rfl (by decide)

/-- C18: for every motor, every mapping function `mapSpeed` and every requested power, one
call of `setPower` stores `mapSpeed(power)` and leaves the rest of the motor as it was; it
emits `powerChanged` once and then `command` once, with the direct-write bytes
[0x81, port id, 0x11, 0x51, 0x00, b]: mode 0x00 and a payload of the one byte b that holds
the stored power. As a number from 0 to 255, b is the stored power modulo 256: the stored
power itself when that lies between 0 and 255, and its two's complement when it lies
between -128 and -1, so that b read as a signed 8-bit number is the stored power whenever
that lies between -128 and 127. The second byte is the port id of the motor (modulo 256).
`stop()` is `setPower(0)` and `brake()` is `setPower(127)`, with `MotorValues::Stop` = 0
and `MotorValues::Brake` = 127. -/
theorem setPower_effect (mapSpeed : Int → Int) (m : QLegoMotor) (power : Int) :
    (m.setPower mapSpeed power).1.m_power = mapSpeed power
      ∧ (m.setPower mapSpeed power).1.base = m.base
      ∧ (m.setPower mapSpeed power).2
          = [.powerChanged,
             .command [0x81, (Fin.ofNat m.base.m_portId : Byte), 0x11, 0x51, 0x00,
               intToChar (m.setPower mapSpeed power).1.m_power]]
      ∧ ((intToChar (m.setPower mapSpeed power).1.m_power).val : Int) = mapSpeed power % 256
      ∧ (0 ≤ mapSpeed power → mapSpeed power ≤ 255 →
          ((intToChar (m.setPower mapSpeed power).1.m_power).val : Int) = mapSpeed power)
      ∧ (-128 ≤ mapSpeed power → mapSpeed power < 0 →
          ((intToChar (m.setPower mapSpeed power).1.m_power).val : Int)
            = mapSpeed power + 256)
      ∧ (-128 ≤ mapSpeed power → mapSpeed power ≤ 127 →
          (if (intToChar (m.setPower mapSpeed power).1.m_power).val < 128
            then ((intToChar (m.setPower mapSpeed power).1.m_power).val : Int)
            else ((intToChar (m.setPower mapSpeed power).1.m_power).val : Int) - 256)
            = mapSpeed power)
      ∧ (Fin.ofNat m.base.m_portId : Byte).val = m.base.m_portId % 256
      ∧ m.stop mapSpeed = m.setPower mapSpeed 0
      ∧ m.brake mapSpeed = m.setPower mapSpeed 127
      ∧ (m.stop mapSpeed).1.m_power = mapSpeed 0
      ∧ (m.brake mapSpeed).1.m_power = mapSpeed 127 := by
  have hstored : (m.setPower mapSpeed power).1.m_power = mapSpeed power := rfl
  have hbyte : ((intToChar (mapSpeed power)).val : Int) = mapSpeed power % 256 := by
    unfold intToChar
    have hnonneg : 0 ≤ mapSpeed power % 256 := Int.emod_nonneg _ (by decide)
    have hlt : mapSpeed power % 256 < 256 := Int.emod_lt_of_pos _ (by decide)
    have hnat : (mapSpeed power % 256).toNat < 256 := by omega
    simp only [Fin.ofNat]
    rw [Nat.mod_eq_of_lt hnat]
    exact Int.toNat_of_nonneg hnonneg
  rw [hstored]
  refine ⟨rfl, rfl, ?_, hbyte, ?_, ?_, ?_, rfl, rfl, rfl, rfl, rfl⟩
  · simp only [QLegoMotor.setPower, writeDirect_eq]
  · intro hlo hhi
    rw [hbyte]
    omega
  · intro hlo hhi
    rw [hbyte]
    omega
  · intro hlo hhi
    have hnat : ((intToChar (mapSpeed power)).val < 128)
        ↔ ((intToChar (mapSpeed power)).val : Int) < 128 := by omega
    split
    · rename_i hsmall
      have := hnat.mp hsmall
      rw [hbyte] at this ⊢
      omega
    · rename_i hbig
      have : ¬ ((intToChar (mapSpeed power)).val : Int) < 128 := fun hh => hbig (hnat.mpr hh)
      rw [hbyte] at this ⊢
      omega

/-- The type-39 motor of port 0 with the sample mapping `clampSpeed`: `setPower(150)` stores
100 and sends the byte 0x64; `setPower(-50)` stores -50 and sends 0xce, which is -50 as a
signed byte. -/
theorem setPower_effect_witness :
    clampSpeed 150 = 100
      ∧ ((QLegoMotor.construct DeviceType.MoveHubMediumLinearMotor 0).setPower
            clampSpeed 150).1.m_power = 100
      ∧ ((QLegoMotor.construct DeviceType.MoveHubMediumLinearMotor 0).setPower
            clampSpeed 150).2
          = [.powerChanged, .command [0x81, 0, 0x11, 0x51, 0x00, 100]]
      ∧ ((QLegoMotor.construct DeviceType.MoveHubMediumLinearMotor 0).setPower
            clampSpeed (-50)).1.m_power = -50
      ∧ ((QLegoMotor.construct DeviceType.MoveHubMediumLinearMotor 0).setPower
            clampSpeed (-50)).2
          = [.powerChanged, .command [0x81, 0, 0x11, 0x51, 0x00, 0xCE]]
      ∧ ((intToChar ((QLegoMotor.construct DeviceType.MoveHubMediumLinearMotor 0).setPower
            clampSpeed (-50)).1.m_power).val : Int) = clampSpeed (-50) + 256
      ∧ (if (intToChar ((QLegoMotor.construct DeviceType.MoveHubMediumLinearMotor
              0).setPower clampSpeed (-50)).1.m_power).val < 128
          then ((intToChar ((QLegoMotor.construct DeviceType.MoveHubMediumLinearMotor
              0).setPower clampSpeed (-50)).1.m_power).val : Int)
          else ((intToChar ((QLegoMotor.construct DeviceType.MoveHubMediumLinearMotor
              0).setPower clampSpeed (-50)).1.m_power).val : Int) - 256) = clampSpeed (-50)
      ∧ ((QLegoMotor.construct DeviceType.MoveHubMediumLinearMotor 0).brake
            clampSpeed).2
          = [.powerChanged, .command [0x81, 0, 0x11, 0x51, 0x00, 127]] :=
  ⟨by decide, by decide, by decide, by decide, by decide,
    (setPower_effect clampSpeed (QLegoMotor.construct DeviceType.MoveHubMediumLinearMotor 0)
      (-50)).2.2.2.2.2.1 (by decide) (by decide),
    (setPower_effect clampSpeed (QLegoMotor.construct DeviceType.MoveHubMediumLinearMotor 0)
      (-50)).2.2.2.2.2.2.1 (by decide) (by decide),
    by decide⟩

/-! ## The claims about the wait helper -/

/-- C19: `waitForDeviceByName` mutates the registry. On a hub whose Port Map names port A
(id 0) and whose registry is empty, the call with "A" returns at once, with a null pointer,
and leaves the registry with the entry (0, null): `m_attachedDevices[portId]` is the
non-const `QMap::operator[]`. The Port Map and the virtual-ports set stay as they were. The
attach frame for port 0 that follows calls `type()` through the null pointer. -/
theorem waitForDeviceByName_inserts_null :
    QMap.value hubWithPortsAB.m_portMap "A" = some 0
      ∧ hubWithPortsAB.m_attachedDevices = []
      ∧ ∃ h1, waitForDeviceByName_check hubWithPortsAB "A" = some (h1, none)
        ∧ h1.m_attachedDevices = [(0, none)]
        ∧ QMap.contains h1.m_attachedDevices 0 = true
        ∧ h1.m_portMap = hubWithPortsAB.m_portMap
        ∧ h1.m_virtualPorts = hubWithPortsAB.m_virtualPorts
        ∧ parsePortMessage littleEndianHost h1
            [15, 0, 4, 0, 1, 0x27, 0, 0, 0, 0, 0x10, 0, 0, 0, 0x10] = .error .nullPointer :=
  ⟨rfl, rfl, _, rfl, rfl, rfl, rfl, rfl, rfl⟩

/-- C20: the check at the start of `waitForDeviceByName` only asks whether the name is a key
of the Port Map. On a hub whose Port Map names port A and whose registry has no entry at
port 0, the call with "A" does not go on to wait: it returns at once, and what it returns
is the null pointer. Once the motor is registered at port 0, the same call returns the
motor and leaves the hub as it is; with a name that is no key of the Port Map the call goes
on to wait. -/
theorem waitForDeviceByName_returns_null_at_once :
    QMap.contains hubWithPortsAB.m_portMap "A" = true
      ∧ QMap.contains hubWithPortsAB.m_attachedDevices 0 = false
      ∧ (waitForDeviceByName_check hubWithPortsAB "A").isSome = true
      ∧ (waitForDeviceByName_check hubWithPortsAB "A").map Prod.snd = some none
      ∧ waitForDeviceByName_check hubWithPortsAB "E" = none
      ∧ ∃ h1 r, parsePortMessage littleEndianHost hubWithPortsAB
            [15, 0, 4, 0, 1, 0x27, 0, 0, 0, 0, 0x10, 0, 0, 0, 0x10] = .ok h1
        ∧ QMap.value h1.m_attachedDevices 0 = some (some r)
        ∧ waitForDeviceByName_check h1 "A" = some (h1, some r) :=
  ⟨by decide, by decide, by decide, by decide, by decide, _, _, rfl, rfl, rfl⟩

/-! ## The claims about the scanner, termination and the records of the registry -/

/-- C21: a newly constructed `QLegoDeviceScanner` reports devicesFound() = 0 and
scanning() = false. After every sequence of events (calls of `scan()`, device discoveries,
device disconnections, device-ready, scan-error and scan-finished signals) with fewer than
2^31 discoveries, devicesFound() is at least 0 and at most the number of discoveries, and
scanning() is true exactly when the sequence holds a call of `scan()` with no scan-finished
event behind it. -/
theorem scanner_invariant (events : List ScannerEvent)
    (hbound : (events.filter ScannerEvent.isDiscovery).length < 2147483648) :
    QLegoDeviceScanner.construct.devicesFound = 0
      ∧ QLegoDeviceScanner.construct.scanning = false
      ∧ 0 ≤ (QLegoDeviceScanner.construct.run events).devicesFound
      ∧ (QLegoDeviceScanner.construct.run events).devicesFound
          ≤ ((events.filter ScannerEvent.isDiscovery).length : Int)
      ∧ ((QLegoDeviceScanner.construct.run events).scanning = true
          ↔ ∃ pre post, events = pre ++ ScannerEvent.scan :: post
              ∧ ScannerEvent.scanFinished ∉ post) := by
  have hcount := QLegoDeviceScanner.run_count events QLegoDeviceScanner.construct 0
    (by decide) (by decide) (by omega)
  refine ⟨rfl, rfl, hcount.1, ?_, QLegoDeviceScanner.run_scanning events⟩
  have := hcount.2
  simp only [QLegoDeviceScanner.devicesFound]
  omega

/-- A scan that finds one Move Hub, which disconnects (the signal arrives twice), and one
device of another name, and then finishes. -/
theorem scanner_invariant_witness :
    ([ScannerEvent.scan, .deviceDiscovered ⟨"LEGO Move Hub", true⟩,
        .deviceDiscovered ⟨"Headset", true⟩, .deviceDisconnected, .deviceDisconnected,
        .scanFinished].filter ScannerEvent.isDiscovery).length < 2147483648
      ∧ (QLegoDeviceScanner.construct.run
          [.scan, .deviceDiscovered ⟨"LEGO Move Hub", true⟩]).devicesFound = 1
      ∧ (QLegoDeviceScanner.construct.run
          [.scan, .deviceDiscovered ⟨"LEGO Move Hub", true⟩]).scanning = true
      ∧ QLegoDeviceScanner.construct.devicesFound = 0
      ∧ QLegoDeviceScanner.construct.scanning = false
      ∧ 0 ≤ (QLegoDeviceScanner.construct.run
          [.scan, .deviceDiscovered ⟨"LEGO Move Hub", true⟩,
           .deviceDiscovered ⟨"Headset", true⟩, .deviceDisconnected, .deviceDisconnected,
           .scanFinished]).devicesFound
      ∧ (QLegoDeviceScanner.construct.run
          [.scan, .deviceDiscovered ⟨"LEGO Move Hub", true⟩,
           .deviceDiscovered ⟨"Headset", true⟩, .deviceDisconnected, .deviceDisconnected,
           .scanFinished]).devicesFound
          ≤ (([ScannerEvent.scan, .deviceDiscovered ⟨"LEGO Move Hub", true⟩,
              .deviceDiscovered ⟨"Headset", true⟩, .deviceDisconnected, .deviceDisconnected,
              .scanFinished].filter ScannerEvent.isDiscovery).length : Int)
      ∧ ((QLegoDeviceScanner.construct.run
          [.scan, .deviceDiscovered ⟨"LEGO Move Hub", true⟩,
           .deviceDiscovered ⟨"Headset", true⟩, .deviceDisconnected, .deviceDisconnected,
           .scanFinished]).scanning = true
          ↔ ∃ pre post, [ScannerEvent.scan, .deviceDiscovered ⟨"LEGO Move Hub", true⟩,
              .deviceDiscovered ⟨"Headset", true⟩, .deviceDisconnected, .deviceDisconnected,
              .scanFinished] = pre ++ ScannerEvent.scan :: post
              ∧ ScannerEvent.scanFinished ∉ post) :=
  ⟨by decide, by decide, by decide, scanner_invariant _ (by decide)⟩

/-- C22: a declared frame length of 0 is neither dropped nor waited on. For a chunk that
starts with the byte 0, delivered to a newly constructed hub, `parseMessage` cuts a frame
of no bytes off the buffer, which leaves the buffer as it is, and reads `msg[2]` of that
empty frame, outside the array: the run ends in that fault, whatever the fuel. Where the
read is not checked and yields a byte that is none of the six command bytes (0 for one),
`parseMessage` calls itself with the same buffer again and again: no amount of fuel
makes it return. -/
theorem zero_length_frame_never_returns (E : Env) (fuel : Nat) (xs : List Byte) :
    mid (0 :: xs) 0 0 = []
      ∧ midFrom (0 :: xs) 0 = 0 :: xs
      ∧ constDataAt (mid (0 :: xs) 0 0) 2 = .error .indexOutOfRange
      ∧ parseMessage E (fuel + 1) QLegoDevice.construct (0 :: xs)
          = some (.error .indexOutOfRange)
      ∧ parseMessageUnchecked E 0 fuel QLegoDevice.construct (0 :: xs) = none
      ∧ ∀ stray : Byte, stray.val ≠ 0x01 ∧ stray.val ≠ 0x04 ∧ stray.val ≠ 0x43
          ∧ stray.val ≠ 0x44 ∧ stray.val ≠ 0x45 ∧ stray.val ≠ 0x82 →
          parseMessageUnchecked E stray fuel QLegoDevice.construct (0 :: xs) = none := by
  refine ⟨rfl, rfl, rfl, ?_, ?_, ?_⟩
  · exact parseMessage_zero_length E fuel QLegoDevice.construct (0 :: xs) xs rfl
  · exact parseMessageUnchecked_zero_length E 0 (by decide) fuel QLegoDevice.construct
      (0 :: xs) xs rfl
  · intro stray hunknown
    exact parseMessageUnchecked_zero_length E stray hunknown fuel QLegoDevice.construct
      (0 :: xs) xs rfl

/-- C23: for every attach frame (event 0x01) and every virtual-port-creation frame (event
0x02, at least 9 bytes) for port p whose decoded device type t is not 39, on a hub with no
null record at p: the record the decoder creates is an object of class
`QLegoAttachedDevice` itself with is-motor = false, is-sensor = false and attached = false,
type t and port id p, and the frame is processed without fault. Where the registry had no
entry at p, or a record of another type, that record is placed at p and `deviceAttached`
is emitted with it, so a generic device that is registered reports attached = false; where
the registry already had a record of type t at p, registry and signals stay as they
were. -/
theorem generic_record_flags (E : Env) (h : QLegoDevice) (message : List Byte)
    (p event : Byte) (h3 : byteAt message 3 = .ok p) (h4 : byteAt message 4 = .ok event)
    (hev : event.val = 1 ∨ (event.val = 2 ∧ 9 ≤ message.length))
    (htype : portDeviceNum E message event ≠ DeviceType.MoveHubMediumLinearMotor)
    (hnn : QMap.value h.m_attachedDevices (p.val : Int) ≠ some none) :
    ∃ h1 g, g = Attachment.plain
          (QLegoAttachedDevice.construct (portDeviceNum E message event) p.val)
      ∧ createAttachment (portDeviceNum E message event) p.val = some g
      ∧ g.motor = false ∧ g.sensor = false ∧ g.attached = false
      ∧ g.type = portDeviceNum E message event ∧ g.portId = (p.val : Int)
      ∧ parsePortMessage E h message = .ok h1
      ∧ ((QMap.value h.m_attachedDevices (p.val : Int) = none
            ∨ ∃ r, QMap.value h.m_attachedDevices (p.val : Int) = some (some r)
                ∧ r.type ≠ portDeviceNum E message event) →
          QMap.value h1.m_attachedDevices (p.val : Int) = some (some g)
            ∧ h1.emitted = h.emitted ++ [.deviceAttached (some g)])
      ∧ ((∃ r, QMap.value h.m_attachedDevices (p.val : Int) = some (some r)
            ∧ r.type = portDeviceNum E message event) →
          h1.m_attachedDevices = h.m_attachedDevices ∧ h1.emitted = h.emitted) := by
  have hg := createAttachment_plain (portDeviceNum E message event) p.val htype
  -- the hub the record is attached to, and the call of `attachDevice` the frame amounts to
  have hcall : ∃ h0 : QLegoDevice, h0.m_attachedDevices = h.m_attachedDevices
      ∧ h0.emitted = h.emitted
      ∧ parsePortMessage E h message = attachDevice h0 (p.val : Int)
          (.plain (QLegoAttachedDevice.construct (portDeviceNum E message event) p.val)) := by
    rcases hev with h1 | ⟨h2, hlen⟩
    · have he : event = 1 := byte_eq_of_val event 1 (by decide) h1
      subst he
      exact ⟨h, rfl, rfl, parsePortMessage_attach_created E h message p _ h3 h4 hg⟩
    · have he : event = 2 := byte_eq_of_val event 2 (by decide) h2
      subst he
      obtain ⟨a, h7⟩ := byteAt_of_lt message 7 (by omega)
      obtain ⟨b, h8⟩ := byteAt_of_lt message 8 (by omega)
      exact ⟨{ h with
          m_portMap := QMap.insert h.m_portMap
            (getPortNameForPortId h.m_portMap (E.charToInt a)
              ++ getPortNameForPortId h.m_portMap (E.charToInt b)) (p.val : Int)
          m_virtualPorts := h.m_virtualPorts ++ [(p.val : Int)] }, rfl, rfl,
        parsePortMessage_virtual_created E h message p a b _ h3 h4 h7 h8 hg⟩
  obtain ⟨h0, hreg, hem, hparse⟩ := hcall
  rw [hparse]
  cases hv : QMap.value h.m_attachedDevices (p.val : Int) with
  | none =>
    refine ⟨_, _, rfl, hg, rfl, rfl, rfl, rfl, rfl,
      attachDevice_absent h0 _ _ (by rw [hreg]; exact hv), ?_, ?_⟩
    · intro _
      refine ⟨QMap.value_insert_self _ _ _, ?_⟩
      simp [QLegoDevice.emit, hem]
    · rintro ⟨r, hr, _⟩
      exact absurd hr (by simp)
  | some v =>
    cases v with
    | none => exact absurd hv hnn
    | some r =>
      by_cases ht : r.type = portDeviceNum E message event
      · refine ⟨h0, _, rfl, hg, rfl, rfl, rfl, rfl, rfl,
          attachDevice_same_type h0 _ _ r (by rw [hreg]; exact hv) ht, ?_, ?_⟩
        · rintro (hnone | ⟨r2, hr2, hne⟩)
          · exact absurd hnone (by simp)
          · have : r2 = r := by
              have := hr2
              simp at this
              exact this.symm
            exact absurd (this ▸ ht) hne
        · intro _
          exact ⟨hreg, hem⟩
      · refine ⟨_, _, rfl, hg, rfl, rfl, rfl, rfl, rfl,
          attachDevice_other_type h0 _ _ r (by rw [hreg]; exact hv) ht, ?_, ?_⟩
        · intro _
          refine ⟨QMap.value_insert_self _ _ _, ?_⟩
          simp [QLegoDevice.emit, hem]
        · rintro ⟨r2, hr2, heq⟩
          have : r2 = r := by
            have := hr2
            simp at this
            exact this.symm
          exact absurd (this ▸ heq) ht

/-- The attach frame `0f 00 04 01 01 25 00 ...` (type 37, a colour and distance sensor, at
port 1) on the hub `hubWithPortsAB`, on a little-endian host. -/
theorem generic_record_flags_witness :
    ∃ h1 g, g = Attachment.plain
          (QLegoAttachedDevice.construct
            (portDeviceNum littleEndianHost
              [15, 0, 4, 1, 1, 37, 0, 0, 0, 0, 0x10, 0, 0, 0, 0x10] 1) (1 : Byte).val)
      ∧ createAttachment
          (portDeviceNum littleEndianHost
            [15, 0, 4, 1, 1, 37, 0, 0, 0, 0, 0x10, 0, 0, 0, 0x10] 1) (1 : Byte).val = some g
      ∧ g.motor = false ∧ g.sensor = false ∧ g.attached = false
      ∧ g.type = portDeviceNum littleEndianHost
          [15, 0, 4, 1, 1, 37, 0, 0, 0, 0, 0x10, 0, 0, 0, 0x10] 1
      ∧ g.portId = ((1 : Byte).val : Int)
      ∧ parsePortMessage littleEndianHost hubWithPortsAB
          [15, 0, 4, 1, 1, 37, 0, 0, 0, 0, 0x10, 0, 0, 0, 0x10] = .ok h1
      ∧ ((QMap.value hubWithPortsAB.m_attachedDevices ((1 : Byte).val : Int) = none
            ∨ ∃ r, QMap.value hubWithPortsAB.m_attachedDevices ((1 : Byte).val : Int)
                  = some (some r)
                ∧ r.type ≠ portDeviceNum littleEndianHost
                    [15, 0, 4, 1, 1, 37, 0, 0, 0, 0, 0x10, 0, 0, 0, 0x10] 1) →
          QMap.value h1.m_attachedDevices ((1 : Byte).val : Int) = some (some g)
            ∧ h1.emitted = hubWithPortsAB.emitted ++ [.deviceAttached (some g)])
      ∧ ((∃ r, QMap.value hubWithPortsAB.m_attachedDevices ((1 : Byte).val : Int)
              = some (some r)
            ∧ r.type = portDeviceNum littleEndianHost
                [15, 0, 4, 1, 1, 37, 0, 0, 0, 0, 0x10, 0, 0, 0, 0x10] 1) →
          h1.m_attachedDevices = hubWithPortsAB.m_attachedDevices
            ∧ h1.emitted = hubWithPortsAB.emitted) :=
  generic_record_flags littleEndianHost hubWithPortsAB
    [15, 0, 4, 1, 1, 37, 0, 0, 0, 0, 0x10, 0, 0, 0, 0x10] 1 1 rfl rfl
    (Or.inl rfl) (by decide) (by decide)

/-- C24: on a hub whose registry is a well-formed map and holds at port p a record r of
type t, an attach frame (event 0x01) for p with a decoded device type other than t is
processed without fault: the record at p becomes the object created for the frame, of the
new type and port id p; the only signal emitted is one `deviceAttached`, with the new
record, and no `deviceDetached`; the records at the other ports, the list of registered port
ids, Port Map and virtual-ports set are unchanged, and the registry stays a well-formed map
with one record per port id. -/
theorem attach_other_type_replaces (E : Env) (h : QLegoDevice) (message : List Byte)
    (p : Byte) (r : Attachment)
    (h3 : byteAt message 3 = .ok p) (h4 : byteAt message 4 = .ok 1)
    (hasc : QMap.Ascending h.m_attachedDevices)
    (hr : QMap.value h.m_attachedDevices (p.val : Int) = some (some r))
    (hdiff : r.type ≠ portDeviceNum E message 1) :
    ∃ h1 a, parsePortMessage E h message = .ok h1
      ∧ createAttachment (portDeviceNum E message 1) p.val = some a
      ∧ a.type = portDeviceNum E message 1 ∧ a.portId = (p.val : Int)
      ∧ QMap.value h1.m_attachedDevices (p.val : Int) = some (some a)
      ∧ (∀ q : Int, q ≠ (p.val : Int) →
          QMap.value h1.m_attachedDevices q = QMap.value h.m_attachedDevices q)
      ∧ QMap.keys h1.m_attachedDevices = QMap.keys h.m_attachedDevices
      ∧ QMap.Ascending h1.m_attachedDevices
      ∧ (QMap.keys h1.m_attachedDevices).Nodup
      ∧ h1.emitted = h.emitted ++ [.deviceAttached (some a)]
      ∧ h1.m_portMap = h.m_portMap ∧ h1.m_virtualPorts = h.m_virtualPorts := by
  obtain ⟨a, ha, hta, hpa⟩ := createAttachment_some_at (portDeviceNum E message 1) p.val
  have hparse := parsePortMessage_attach_created E h message p a h3 h4 ha
  have hattach := attachDevice_other_type h (p.val : Int) a r hr (by rw [hta]; exact hdiff)
  have hkeys : QMap.keys (QMap.insert h.m_attachedDevices (p.val : Int) (some a))
      = QMap.keys h.m_attachedDevices :=
    QMap.keys_insert_of_mem _ _ _ hasc (QMap.mem_keys_of_value _ _ _ hr)
  have hasc1 : QMap.Ascending (QMap.insert h.m_attachedDevices (p.val : Int) (some a)) := by
    unfold QMap.Ascending
    rw [hkeys]
    exact hasc
  refine ⟨_, a, hparse.trans hattach, ha, hta, hpa, QMap.value_insert_self _ _ _, ?_, hkeys,
    hasc1, ?_, rfl, rfl, rfl⟩
  · intro q hq
    exact QMap.value_insert_other _ _ _ _ hq
  · have hnodup : (QMap.keys h.m_attachedDevices).Nodup := by
      have hlt : ∀ a b : Int, a < b → a ≠ b := fun a b hab => by omega
      exact List.Pairwise.imp (fun {a b} hab => hlt a b hab) hasc
    show (QMap.keys (QMap.insert h.m_attachedDevices (p.val : Int) (some a))).Nodup
    rw [hkeys]
    exact hnodup

/-- The hub `hubWithMotorAndSensor`, which holds the type-39 motor at port 0, and the attach
frame `0f 00 04 00 01 25 00 ...` for port 0 with type 37, on a little-endian host. -/
theorem attach_other_type_replaces_witness :
    QMap.Ascending hubWithMotorAndSensor.m_attachedDevices
      ∧ ∃ h1 a, parsePortMessage littleEndianHost hubWithMotorAndSensor
          [15, 0, 4, 0, 1, 37, 0, 0, 0, 0, 0x10, 0, 0, 0, 0x10] = .ok h1
        ∧ createAttachment (portDeviceNum littleEndianHost
            [15, 0, 4, 0, 1, 37, 0, 0, 0, 0, 0x10, 0, 0, 0, 0x10] 1) (0 : Byte).val = some a
        ∧ a.type = portDeviceNum littleEndianHost
            [15, 0, 4, 0, 1, 37, 0, 0, 0, 0, 0x10, 0, 0, 0, 0x10] 1
        ∧ a.portId = ((0 : Byte).val : Int)
        ∧ QMap.value h1.m_attachedDevices ((0 : Byte).val : Int) = some (some a)
        ∧ (∀ q : Int, q ≠ ((0 : Byte).val : Int) →
            QMap.value h1.m_attachedDevices q
              = QMap.value hubWithMotorAndSensor.m_attachedDevices q)
        ∧ QMap.keys h1.m_attachedDevices = QMap.keys hubWithMotorAndSensor.m_attachedDevices
        ∧ QMap.Ascending h1.m_attachedDevices
        ∧ (QMap.keys h1.m_attachedDevices).Nodup
        ∧ h1.emitted = hubWithMotorAndSensor.emitted ++ [.deviceAttached (some a)]
        ∧ h1.m_portMap = hubWithMotorAndSensor.m_portMap
        ∧ h1.m_virtualPorts = hubWithMotorAndSensor.m_virtualPorts :=
  ⟨by simp [QMap.Ascending, QMap.keys, hubWithMotorAndSensor],
    attach_other_type_replaces littleEndianHost hubWithMotorAndSensor
      [15, 0, 4, 0, 1, 37, 0, 0, 0, 0, 0x10, 0, 0, 0, 0x10] 0
      (.asMotor (QLegoMotor.construct DeviceType.MoveHubMediumLinearMotor 0)) rfl rfl
      (by simp [QMap.Ascending, QMap.keys, hubWithMotorAndSensor]) rfl (by decide)⟩

end QtLego
